import Mathlib

/-!
# Smart-Scheduler: week/day selection and day-detail filtering

A shallow embedding of the two client scripts

* `src/SmartScheduler/static/script.js` (older variant, namespace `Old`)
* `src/Smart-Scheduler-ced/static/script.js` (newer variant, namespace `Ced`)

The scripts run on the JavaScript `Date` object, so the embedding starts with the
ECMA-262 date algorithms (section "Time Values and Time Range") over mathematical
integers.

Modelling conventions
* A JavaScript number that is an integer or `NaN` is an `Option Int` (`none` is `NaN`).
* A JavaScript string is the list of its code units, `List Char`.
* A `Date` object is a cell of a `DateStore` holding its time value; `new Date(..)`
  allocates a cell and the `set..` methods overwrite one, so aliasing is explicit.
* The host's local time is UTC (`LocalTZA` is `0`) throughout the model of the page. The
  claims about the time of day left by `getWeekStart` depend on the host's time zone, so the
  section "Hosts with daylight saving" gives the `Date` methods and `getWeekStart` for an
  arbitrary zone (namespace `Zoned`).
-/

namespace SmartScheduler

/-! ## ECMA-262 time values -/

/-- JavaScript strings as sequences of code units. -/
abbrev Str := List Char

/-- JavaScript numbers restricted to integers and `NaN` (`none`). -/
abbrev Num := Option Int

def msPerDay : Int := 86400000
def msPerHour : Int := 3600000
def msPerMinute : Int := 60000
def msPerSecond : Int := 1000

/-- The largest magnitude of a time value: 8.64e15 ms, i.e. 100,000,000 days. -/
def maxTime : Int := 8640000000000000

def Day (t : Int) : Int := t / msPerDay

def TimeWithinDay (t : Int) : Int := t % msPerDay

def DaysInYear (y : Int) : Int :=
  if y % 4 ≠ 0 then 365
  else if y % 100 ≠ 0 then 366
  else if y % 400 ≠ 0 then 365
  else 366

def DayFromYear (y : Int) : Int :=
  365 * (y - 1970) + (y - 1969) / 4 - (y - 1901) / 100 + (y - 1601) / 400

def TimeFromYear (y : Int) : Int := msPerDay * DayFromYear y

/-- The year containing day number `day`: ECMA-262 defines it as the largest `y` with
`DayFromYear y ≤ day`; it is computed from the mean year length and corrected by one
(`YearOfDay_spec`, `YearOfDay_unique` show this is the specified year). -/
def YearOfDay (day : Int) : Int :=
  let y := 1970 + (400 * day) / 146097
  if DayFromYear (y + 1) ≤ day then y + 1
  else if day < DayFromYear y then y - 1
  else y

def YearFromTime (t : Int) : Int := YearOfDay (Day t)

def InLeapYear (t : Int) : Int := if DaysInYear (YearFromTime t) = 366 then 1 else 0

def DayWithinYear (t : Int) : Int := Day t - DayFromYear (YearFromTime t)

/-- Month number (0 = January) of a day within a year; `leap` is 0 or 1. -/
def monthOfYearDay (dwy leap : Int) : Int :=
  if dwy < 31 then 0
  else if dwy < 59 + leap then 1
  else if dwy < 90 + leap then 2
  else if dwy < 120 + leap then 3
  else if dwy < 151 + leap then 4
  else if dwy < 181 + leap then 5
  else if dwy < 212 + leap then 6
  else if dwy < 243 + leap then 7
  else if dwy < 273 + leap then 8
  else if dwy < 304 + leap then 9
  else if dwy < 334 + leap then 10
  else 11

/-- Day number within the year of the first day of month `m` (0 = January). -/
def monthStart (m leap : Int) : Int :=
  if m = 0 then 0
  else if m = 1 then 31
  else if m = 2 then 59 + leap
  else if m = 3 then 90 + leap
  else if m = 4 then 120 + leap
  else if m = 5 then 151 + leap
  else if m = 6 then 181 + leap
  else if m = 7 then 212 + leap
  else if m = 8 then 243 + leap
  else if m = 9 then 273 + leap
  else if m = 10 then 304 + leap
  else 334 + leap

def MonthFromTime (t : Int) : Int := monthOfYearDay (DayWithinYear t) (InLeapYear t)

/-- Day of the month, 1-based: the day within the year minus the days before the month. -/
def DateFromTime (t : Int) : Int :=
  DayWithinYear t - monthStart (MonthFromTime t) (InLeapYear t) + 1

/-- Day of the week, 0 = Sunday; 1 January 1970 was a Thursday. -/
def WeekDay (t : Int) : Int := (Day t + 4) % 7

def HourFromTime (t : Int) : Int := (t / msPerHour) % 24
def MinFromTime (t : Int) : Int := (t / msPerMinute) % 60
def SecFromTime (t : Int) : Int := (t / msPerSecond) % 60
def msFromTime (t : Int) : Int := t % msPerSecond

def MakeTime (hour min sec ms : Int) : Int :=
  hour * msPerHour + min * msPerMinute + sec * msPerSecond + ms

/-- The day number of `date` in month `month` of `year`; out-of-range months and dates
carry over (a zero or negative `date` reaches back into earlier months). -/
def MakeDay (year month date : Int) : Int :=
  let ym := year + month / 12
  let mn := month % 12
  DayFromYear ym + monthStart mn (if DaysInYear ym = 366 then 1 else 0) + date - 1

def MakeDate (day time : Int) : Int := day * msPerDay + time

/-- Time values outside ±8.64e15 ms become `NaN`. -/
def TimeClip (t : Int) : Num :=
  if t < -maxTime ∨ maxTime < t then none else some t

/-- Offset of local time from UTC, in ms: the host of the page model is on UTC. A host whose
offset changes (daylight saving) is modelled by `TimeZone` and the namespace `Zoned`. -/
def LocalTZA : Int := 0

def LocalTime (t : Int) : Int := t + LocalTZA

def UTC (t : Int) : Int := t - LocalTZA

/-! ## `Date.prototype` methods, as functions of the object's time value -/

namespace JSDate

def getFullYear (tv : Num) : Num := tv.map fun t => YearFromTime (LocalTime t)
def getMonth (tv : Num) : Num := tv.map fun t => MonthFromTime (LocalTime t)
def getDate (tv : Num) : Num := tv.map fun t => DateFromTime (LocalTime t)
def getDay (tv : Num) : Num := tv.map fun t => WeekDay (LocalTime t)
def getHours (tv : Num) : Num := tv.map fun t => HourFromTime (LocalTime t)
def getMinutes (tv : Num) : Num := tv.map fun t => MinFromTime (LocalTime t)
def getSeconds (tv : Num) : Num := tv.map fun t => SecFromTime (LocalTime t)
def getMilliseconds (tv : Num) : Num := tv.map fun t => msFromTime (LocalTime t)

/-- The time value after `setDate(dt)`. -/
def setDate (tv : Num) (dt : Num) : Num :=
  match tv, dt with
  | some t0, some d =>
    let t := LocalTime t0
    let newDate := MakeDate (MakeDay (YearFromTime t) (MonthFromTime t) d) (TimeWithinDay t)
    TimeClip (UTC newDate)
  | _, _ => none

/-- The time value after `setHours(hour, min, sec, ms)`. -/
def setHours (tv : Num) (hour min sec ms : Int) : Num :=
  match tv with
  | some t0 =>
    let t := LocalTime t0
    let date := MakeDate (Day t) (MakeTime hour min sec ms)
    TimeClip (UTC date)
  | none => none

/-- The time value of `new Date(year, month, date)` for integer or `NaN` arguments:
a year from 0 to 99 means 1900 + year. -/
def ofYMD (year month date : Num) : Num :=
  match year, month, date with
  | some y, some m, some dt =>
    let yr := if 0 ≤ y ∧ y ≤ 99 then 1900 + y else y
    let finalDate := MakeDate (MakeDay yr m dt) (MakeTime 0 0 0 0)
    TimeClip (UTC finalDate)
  | _, _, _ => none

end JSDate

/-- Subtraction of JavaScript numbers: `NaN` is absorbing. -/
def numSub (a b : Num) : Num :=
  match a, b with
  | some x, some y => some (x - y)
  | _, _ => none

/-- Addition of JavaScript numbers: `NaN` is absorbing. -/
def numAdd (a b : Num) : Num :=
  match a, b with
  | some x, some y => some (x + y)
  | _, _ => none

/-! ## The heap of `Date` objects -/

/-- Address of a `Date` object. -/
abbrev Ref := Nat

/-- The `Date` objects allocated so far, each holding its time value. -/
abbrev DateStore := List Num

/-- Time value of the object at `r` (`NaN` for an address never allocated). -/
def DateStore.read (σ : DateStore) (r : Ref) : Num := (σ[r]?).getD none

/-- Allocation of a fresh `Date` with time value `tv`: `new Date(..)`. -/
def DateStore.alloc (σ : DateStore) (tv : Num) : Ref × DateStore := (σ.length, σ ++ [tv])

/-- Overwrites the time value of the object at `r`. -/
def DateStore.write (σ : DateStore) (r : Ref) (tv : Num) : DateStore := σ.set r tv

/-! ## Strings -/

/-- Number-to-string conversion for integers and `NaN` (decimal, `-` for negatives). The
digits are exact; the exponent form that JavaScript prints from 1e21 on is not modelled. -/
def numToString (n : Num) : Str :=
  match n with
  | none => "NaN".toList
  | some i => if i < 0 then '-' :: Nat.toDigits 10 i.natAbs else Nat.toDigits 10 i.toNat

/-- The method `String.prototype.padStart(targetLength, padString)`. -/
def padStart (s : Str) (targetLength : Nat) (padString : Str) : Str :=
  if targetLength ≤ s.length ∨ padString = [] then s
  else
    let fillLen := targetLength - s.length
    ((List.replicate fillLen padString).flatten.take fillLen) ++ s

/-- Code-unit-wise "less than" of JavaScript strings (`a < b`). -/
def strLt : Str → Str → Bool
  | [], [] => false
  | [], _ :: _ => true
  | _ :: _, [] => false
  | a :: as, b :: bs =>
    if a.toNat < b.toNat then true
    else if b.toNat < a.toNat then false
    else strLt as bs

/-- Code-unit-wise "less than or equal" of JavaScript strings (`a <= b`). -/
def strLe (a b : Str) : Bool := !strLt b a

/-! ## `getLocalDateString` and `getWeekStart` -/

namespace Old

/-- `getLocalDateString(date)`, older variant; `date` is the time value of the argument. -/
def getLocalDateString (date : Num) : Str :=
  let year := JSDate.getFullYear date
  let month := padStart (numToString (numAdd (JSDate.getMonth date) (some 1))) 2 "0".toList
  let day := padStart (numToString (JSDate.getDate date)) 2 "0".toList
  numToString year ++ "-".toList ++ month ++ "-".toList ++ day

/-- `getWeekStart(date)`, older variant: returns the new object and the updated heap. -/
def getWeekStart (σ : DateStore) (date : Ref) : Ref × DateStore :=
  let (d, σ) := σ.alloc (σ.read date)
  let day := JSDate.getDay (σ.read d)
  let diff := numSub (JSDate.getDate (σ.read d)) day
  let σ := σ.write d (JSDate.setDate (σ.read d) diff)
  (d, σ)

end Old

namespace Ced

/-- `getLocalDateString(date)`, newer variant; `date` is the time value of the argument and
`now` the clock reading used when the date is invalid. -/
def getLocalDateString (now : Int) (date : Num) : Str :=
  if date.isNone then
    let today : Num := some now
    let year := JSDate.getFullYear today
    let month := padStart (numToString (numAdd (JSDate.getMonth today) (some 1))) 2 "0".toList
    let day := padStart (numToString (JSDate.getDate today)) 2 "0".toList
    numToString year ++ "-".toList ++ month ++ "-".toList ++ day
  else
    let year := JSDate.getFullYear date
    let month := padStart (numToString (numAdd (JSDate.getMonth date) (some 1))) 2 "0".toList
    let day := padStart (numToString (JSDate.getDate date)) 2 "0".toList
    numToString year ++ "-".toList ++ month ++ "-".toList ++ day

/-- `getWeekStart(date)`, newer variant: returns the new object and the updated heap. -/
def getWeekStart (σ : DateStore) (date : Ref) : Ref × DateStore :=
  let (d, σ) := σ.alloc (σ.read date)
  let dayOfWeek := JSDate.getDay (σ.read d)
  let diff := numSub (JSDate.getDate (σ.read d)) dayOfWeek
  let σ := σ.write d (JSDate.setDate (σ.read d) diff)
  let σ := σ.write d (JSDate.setHours (σ.read d) 0 0 0 0)
  (d, σ)

end Ced

/-! ## Fixed-width decimal renderings, used to state the date format -/

/-- Two decimal digits of a number from 0 to 99, most significant first. -/
def twoDigits (n : Int) : Str := [Nat.digitChar (n / 10).toNat, Nat.digitChar (n % 10).toNat]

/-- Four decimal digits of a number from 0 to 9999, most significant first. -/
def fourDigits (n : Int) : Str :=
  [Nat.digitChar (n / 1000).toNat, Nat.digitChar (n / 100 % 10).toNat,
   Nat.digitChar (n / 10 % 10).toNat, Nat.digitChar (n % 10).toNat]

/-! ## String primitives -/

/-- White space and line terminators skipped by `parseInt`, `Number` and `trim`. -/
def isWhiteSpace (c : Char) : Bool :=
  c.toNat ∈ [0x9, 0xA, 0xB, 0xC, 0xD, 0x20, 0xA0, 0x1680, 0x2028, 0x2029, 0x202F, 0x205F,
    0x3000, 0xFEFF] || (0x2000 ≤ c.toNat && c.toNat ≤ 0x200A)

def trimStart (s : Str) : Str := s.dropWhile isWhiteSpace

def trimEnd (s : Str) : Str := (s.reverse.dropWhile isWhiteSpace).reverse

def trim (s : Str) : Str := trimEnd (trimStart s)

/-- The decimal digits `0` to `9`. -/
def isDecimalDigit (c : Char) : Bool := 48 ≤ c.toNat && c.toNat ≤ 57

/-- Splits off an optional leading sign: the sign as ±1 and the rest of the string. -/
def stripSign (S : Str) : Int × Str :=
  match S with
  | '-' :: r => (-1, r)
  | '+' :: r => (1, r)
  | _ => (1, S)

/-- Value of a decimal digit character. -/
def digitValue (c : Char) : Nat := c.toNat - 48

/-- Value of a sequence of decimal digits. -/
def decimalValue (ds : Str) : Nat := ds.foldl (fun acc c => 10 * acc + digitValue c) 0

/-- The function `parseInt(string, 10)`: leading white space and an optional sign are
skipped, the longest run of decimal digits is read, and the result is `NaN` when that run is
empty. (Results are exact integers; rounding to a double beyond 2^53 is not modelled.) -/
def parseInt (string : Str) : Num :=
  let S := trimStart string
  let signed := stripSign S
  let Z := signed.2.takeWhile isDecimalDigit
  if Z = [] then none else some (signed.1 * decimalValue Z)

/-- The conversion `Number(string)` on the integer fragment: surrounding white space is
dropped, the empty string is 0, a signed run of decimal digits is its value. Every other
string is mapped to `NaN`: numeric literals with a fraction, an exponent, a radix prefix or
`Infinity` have no value in `Num`; no part of a rendered date string has such a form. -/
def Number (s : Str) : Num :=
  let S := trim s
  if S = [] then some 0
  else
    let signed := stripSign S
    if signed.2 ≠ [] ∧ signed.2.all isDecimalDigit then some (signed.1 * decimalValue signed.2)
    else none

/-- The method `String.prototype.split(sep)` for a one-character separator. -/
def split : Str → Char → List Str
  | [], _ => [[]]
  | c :: cs, sep =>
    if c = sep then [] :: split cs sep
    else
      match split cs sep with
      | [] => [[c]]
      | p :: ps => (c :: p) :: ps

/-- The method `String.prototype.startsWith(prefix)`. -/
def startsWith (s pre : Str) : Bool := pre.isPrefixOf s

/-- The method `String.prototype.includes(c)` for a one-character argument. -/
def includes (s : Str) (c : Char) : Bool := s.contains c

/-- The method `String.prototype.toLowerCase()` on ASCII letters. -/
def toLowerCase (s : Str) : Str := s.map Char.toLower

/-- Comparison `a < b` of JavaScript numbers: false when either is `NaN`. -/
def numLt (a b : Num) : Bool :=
  match a, b with
  | some x, some y => decide (x < y)
  | _, _ => false

/-- Comparison `a >= b` of JavaScript numbers: false when either is `NaN`. -/
def numGe (a b : Num) : Bool :=
  match a, b with
  | some x, some y => decide (y ≤ x)
  | _, _ => false

/-- Remainder `a % b` of JavaScript numbers: the sign follows the dividend; `NaN` when an
operand is `NaN` or the divisor is 0. -/
def numRem (a b : Num) : Num :=
  match a, b with
  | some x, some y => if y = 0 then none else some (Int.tmod x y)
  | _, _ => none

/-- Truthiness of a JavaScript number: `NaN` and 0 are falsy. -/
def numTruthy (a : Num) : Bool :=
  match a with
  | some x => decide (x ≠ 0)
  | none => false

/-! ## `formatTime12Hour` (newer variant) -/

namespace Ced

/-- `formatTime12Hour(timeStr)` for a string argument. Inside the `try` block only `split`,
`parseInt`, arithmetic and template strings are used; none of them throws, so the `catch`
branch never runs and has no counterpart here. -/
def formatTime12Hour (timeStr : Str) : Str :=
  if timeStr = [] ∨ ¬ includes timeStr ':' then timeStr
  else
    let parts := split timeStr ':'
    let hours := parts.getD 0 []
    let minutes := parts.getD 1 []
    let hourNum := parseInt hours
    let minNum := parseInt minutes
    let ampm := if numGe hourNum (some 12) then "PM".toList else "AM".toList
    let hour12 := if numTruthy (numRem hourNum (some 12)) then numRem hourNum (some 12)
      else some 12
    let minStr := if numLt minNum (some 10) then "0".toList ++ numToString minNum
      else numToString minNum
    numToString hour12 ++ ":".toList ++ minStr ++ " ".toList ++ ampm

end Ced

/-! ## Schedule data and page state -/

/-- A class of the weekly timetable. -/
structure ClassEntry where
  day : Str
  subject : Str
  start_time : Str
  end_time : Str
deriving DecidableEq, Repr

/-- A task; `deadline` is `none` when the field is `null` or absent. -/
structure TaskEntry where
  name : Str
  task_type : Str
  deadline : Option Str
deriving DecidableEq, Repr

/-- A test or quiz. -/
structure TestEntry where
  name : Str
  test_type : Str
  date : Str
deriving DecidableEq, Repr

/-- A block of the generated study plan (newer variant). -/
structure PlanEntry where
  task : Str
  date : Str
  start_time : Str
  end_time : Str
deriving DecidableEq, Repr

/-- The user's preferences; a field is `none` when absent (`{}` has both absent). -/
structure Preferences where
  awake_time : Option Str
  sleep_time : Option Str
deriving DecidableEq, Repr

/-- A study window of the personalization form. -/
structure StudyWindow where
  day : Str
  start_time : Str
  end_time : Str
  focus_level : Str
deriving DecidableEq, Repr

/-- The value of `scheduleData`. The older variant uses the first three fields only. -/
structure ScheduleSnapshot where
  schedule : List ClassEntry
  tasks : List TaskEntry
  tests : List TestEntry
  generated_plan : List PlanEntry
  preferences : Preferences := ⟨none, none⟩
  study_windows : List StudyWindow := []
deriving DecidableEq, Repr

/-- The elements appended to the detail panel (`#schedule-details`), in document order.
A task line shows a host-formatted time of its deadline and is identified here by the
deadline string itself. -/
inductive Block where
  | header (dayName dateLabel : Str)
  | heading (title : Str)
  | planLine (task startTime endTime : Str)
  | classLine (subject startTime endTime : Str)
  | taskLine (name task_type deadline : Str)
  | testLine (name test_type : Str)
  | placeholder (text : Str)
  | errorNotice (title text : Str)
deriving DecidableEq, Repr

/-- A rendered day card. -/
structure DayCard where
  dateString : Str
  active : Bool
  dayName : Str
  dayDate : Str
deriving DecidableEq, Repr

/-- A drop-down: the values of its options in order and its current value (the empty
string when no option is selected). -/
structure Select where
  options : List Str
  value : Str
deriving DecidableEq, Repr

/-- Assignment `select.value = v`: selects the option with that value if there is one. -/
def Select.setValue (sel : Select) (v : Str) : Select :=
  { sel with value := if v ∈ sel.options then v else [] }

/-- The module-level variables of the script together with the parts of the page it writes. -/
structure AppState where
  store : DateStore
  currentWeekStart : Ref
  selectedDate : Ref
  scheduleData : ScheduleSnapshot
  cards : List DayCard
  monthSelect : Select
  yearSelect : Select
  detailsBox : List Block

/-- English weekday name of a date (`toLocaleDateString('en-US', { weekday: 'long' })`). -/
def weekdayLong (tv : Num) : Str :=
  match JSDate.getDay tv with
  | some 0 => "Sunday".toList
  | some 1 => "Monday".toList
  | some 2 => "Tuesday".toList
  | some 3 => "Wednesday".toList
  | some 4 => "Thursday".toList
  | some 5 => "Friday".toList
  | some 6 => "Saturday".toList
  | _ => "Invalid Date".toList

def monthShortNames : List Str :=
  ["Jan".toList, "Feb".toList, "Mar".toList, "Apr".toList, "May".toList, "Jun".toList,
   "Jul".toList, "Aug".toList, "Sep".toList, "Oct".toList, "Nov".toList, "Dec".toList]

/-- Short date label (`toLocaleDateString('en-US', { month: 'short', day: 'numeric' })`). -/
def shortDate (tv : Num) : Str :=
  match JSDate.getMonth tv, JSDate.getDate tv with
  | some m, some d => monthShortNames.getD m.toNat [] ++ " ".toList ++ numToString (some d)
  | _, _ => "Invalid Date".toList

/-- The task filter `item.deadline && item.deadline.startsWith(dateString)`. -/
def taskDueOn (dateString : Str) (item : TaskEntry) : Bool :=
  match item.deadline with
  | some d => d ≠ [] && startsWith d dateString
  | none => false

/-- The filter `classesToday` of `displayDayDetails`: classes on the weekday `dayName`. -/
def classesToday (data : ScheduleSnapshot) (dayName : Str) : List ClassEntry :=
  data.schedule.filter fun item => toLowerCase item.day = toLowerCase dayName

/-- The filter `tasksToday` of `displayDayDetails`: tasks whose deadline starts with
`dateString`. -/
def tasksToday (data : ScheduleSnapshot) (dateString : Str) : List TaskEntry :=
  data.tasks.filter (taskDueOn dateString)

/-- The filter `testsToday` of `displayDayDetails`: tests dated exactly `dateString`. -/
def testsToday (data : ScheduleSnapshot) (dateString : Str) : List TestEntry :=
  data.tests.filter fun item => item.date = dateString

/-- The filter `generatedPlanToday` of `displayDayDetails` (newer variant): plan entries
dated exactly `dateString`. -/
def generatedPlanToday (data : ScheduleSnapshot) (dateString : Str) : List PlanEntry :=
  data.generated_plan.filter fun item => item.date = dateString

/-- Applies the changes of a handler that may stop at an uncaught `TypeError`: `none`
stands for the throw, after which the state is the one reached so far. -/
def orAbort (s : AppState) (r : Option AppState) : AppState := r.getD s

namespace Old

/-- `updateSelectors()`, older variant; `none` is the `TypeError` of reading
`yearSelect.options[0].value` when the drop-down has no option. -/
def updateSelectors (s : AppState) : Option AppState :=
  let month := JSDate.getMonth (s.store.read s.selectedDate)
  let year := JSDate.getFullYear (s.store.read s.selectedDate)
  let added : Option Select :=
    if numToString year ∈ s.yearSelect.options then some s.yearSelect
    else
      match s.yearSelect.options with
      | [] => none
      | first :: _ =>
        if numLt year (Number first) then
          some { s.yearSelect with options := numToString year :: s.yearSelect.options }
        else
          some { s.yearSelect with options := s.yearSelect.options ++ [numToString year] }
  added.map fun ys =>
    { s with monthSelect := s.monthSelect.setValue (numToString month),
             yearSelect := ys.setValue (numToString year) }

/-- `displayDayDetails()`, older variant. -/
def displayDayDetails (s : AppState) : AppState :=
  let sel := s.store.read s.selectedDate
  let dateString := getLocalDateString sel
  let dayName := weekdayLong sel
  let box : List Block := [Block.header dayName (shortDate sel)]
  let classesToday := classesToday s.scheduleData dayName
  let tasksToday := tasksToday s.scheduleData dateString
  let testsToday := testsToday s.scheduleData dateString
  let box := if classesToday.length > 0 then
      box ++ [Block.heading "Classes".toList] ++ classesToday.map fun item =>
        Block.classLine item.subject item.start_time item.end_time
    else box
  let box := if tasksToday.length > 0 then
      box ++ [Block.heading "Tasks Due".toList] ++ tasksToday.map fun item =>
        Block.taskLine item.name item.task_type (item.deadline.getD [])
    else box
  let box := if testsToday.length > 0 then
      box ++ [Block.heading "Tests/Quizzes".toList] ++ testsToday.map fun item =>
        Block.testLine item.name item.test_type
    else box
  let itemsFound := classesToday.length > 0 || tasksToday.length > 0 || testsToday.length > 0
  let box := if !itemsFound then
      box ++ [Block.placeholder
        "No schedule for this day. Chat with me to add a class, task, or test!".toList]
    else box
  { s with detailsBox := box }

/-- `handleDayClick(element, dateString)`, older variant; `element` is the position of the
clicked card among the rendered cards. -/
def handleDayClick (s : AppState) (element : Nat) (dateString : Str) : AppState :=
  let parts := (split dateString '-').map parseInt
  let fresh := s.store.alloc
    (JSDate.ofYMD (parts.getD 0 none) (numSub (parts.getD 1 none) (some 1)) (parts.getD 2 none))
  let cards := s.cards.map fun card => { card with active := false }
  let cards := cards.modify (fun card => { card with active := true }) element
  let s := { s with store := fresh.2, selectedDate := fresh.1, cards := cards }
  orAbort s ((updateSelectors s).map displayDayDetails)

end Old

namespace Ced

/-- `updateSelectors()`, newer variant, with both drop-downs present in the page; `none` is
the `TypeError` of reading `yearSelect.options[0].value` when the drop-down has no option. -/
def updateSelectors (s : AppState) : Option AppState :=
  let month := JSDate.getMonth (s.store.read s.selectedDate)
  let year := JSDate.getFullYear (s.store.read s.selectedDate)
  let added : Option Select :=
    if numToString year ∈ s.yearSelect.options then some s.yearSelect
    else
      match s.yearSelect.options with
      | [] => none
      | first :: _ =>
        if numLt year (parseInt first) then
          some { s.yearSelect with options := numToString year :: s.yearSelect.options }
        else
          some { s.yearSelect with options := s.yearSelect.options ++ [numToString year] }
  added.map fun ys =>
    { s with monthSelect := s.monthSelect.setValue (numToString month),
             yearSelect := ys.setValue (numToString year) }

/-- Stable insertion of `x` into a list sorted by `cmp` (`cmp a b > 0` puts `a` after `b`). -/
def insertBy (cmp : PlanEntry → PlanEntry → Int) (x : PlanEntry) :
    List PlanEntry → List PlanEntry
  | [] => [x]
  | y :: ys => if cmp y x > 0 then x :: y :: ys else y :: insertBy cmp x ys

/-- The method `Array.prototype.sort(cmp)`: a stable sort by the comparator. -/
def sortBy (cmp : PlanEntry → PlanEntry → Int) (l : List PlanEntry) : List PlanEntry :=
  l.foldl (fun acc x => insertBy cmp x acc) []

/-- `displayDayDetails()`, newer variant. `now` is the clock reading used by
`getLocalDateString` for an invalid date and `localeCompare` the host's string collation,
which orders the plan by start time. The panel element is taken to exist. -/
def displayDayDetails (now : Int) (localeCompare : Str → Str → Int) (s : AppState) :
    AppState :=
  let sel := s.store.read s.selectedDate
  let dateString := getLocalDateString now sel
  let dayName := weekdayLong sel
  let box : List Block := [Block.header dayName (shortDate sel)]
  let classesToday := classesToday s.scheduleData dayName
  let tasksToday := tasksToday s.scheduleData dateString
  let testsToday := testsToday s.scheduleData dateString
  let generatedPlanToday := generatedPlanToday s.scheduleData dateString
  let box := if generatedPlanToday.length > 0 then
      box ++ [Block.heading "My Study Plan".toList] ++
        (sortBy (fun a b => localeCompare a.start_time b.start_time) generatedPlanToday).map
          fun item => Block.planLine item.task (formatTime12Hour item.start_time)
            (formatTime12Hour item.end_time)
    else box
  let box := if classesToday.length > 0 then
      box ++ [Block.heading "Classes".toList] ++ classesToday.map fun item =>
        Block.classLine item.subject (formatTime12Hour item.start_time)
          (formatTime12Hour item.end_time)
    else box
  let box := if tasksToday.length > 0 then
      box ++ [Block.heading "Tasks Due".toList] ++ tasksToday.map fun item =>
        Block.taskLine item.name item.task_type (item.deadline.getD [])
    else box
  let box := if testsToday.length > 0 then
      box ++ [Block.heading "Tests/Quizzes".toList] ++ testsToday.map fun item =>
        Block.testLine item.name item.test_type
    else box
  let itemsFound := generatedPlanToday.length > 0 || classesToday.length > 0 ||
    tasksToday.length > 0 || testsToday.length > 0
  let box := if !itemsFound then
      box ++ [Block.placeholder "No schedule for this day. Chat with me to add items!".toList]
    else box
  { s with detailsBox := box }

/-- `handleDayClick(element, dateString)`, newer variant; `element` is the position of the
clicked card among the rendered cards. -/
def handleDayClick (now : Int) (localeCompare : Str → Str → Int) (s : AppState)
    (element : Nat) (dateString : Str) : AppState :=
  let parts := (split dateString '-').map Number
  let year := parts.getD 0 none
  let month := parts.getD 1 none
  let day := parts.getD 2 none
  let fresh := s.store.alloc (JSDate.ofYMD year (numSub month (some 1)) day)
  let cards := s.cards.map fun card => { card with active := false }
  let cards := cards.modify (fun card => { card with active := true }) element
  let s := { s with store := fresh.2, selectedDate := fresh.1, cards := cards }
  orAbort s ((updateSelectors s).map (displayDayDetails now localeCompare))

end Ced

/-! ## Reading the detail panel -/

/-- Whether a block is a section heading (`<h5>`). -/
def Block.isHeading : Block → Bool
  | Block.heading _ => true
  | _ => false

/-- The lines of the section of the panel titled `title`: the blocks that follow the first
heading with that title, up to the next heading. Empty when there is no such heading. -/
def sectionOf (title : Str) : List Block → List Block
  | [] => []
  | b :: rest =>
    if b = Block.heading title then rest.takeWhile fun x => !x.isHeading
    else sectionOf title rest

/-! ## A sample page, used to instantiate the general statements -/

/-- A collation that orders strings by code units. -/
def codeUnitCompare (a b : Str) : Int :=
  if strLt a b then -1 else if strLt b a then 1 else 0

/-- A snapshot with a test dated 2025-11-15 and a task due that day at 18:30. -/
def sampleSnapshot : ScheduleSnapshot :=
  { schedule := [⟨"Sunday".toList, "Math".toList, "09:00".toList, "10:30".toList⟩],
    tasks := [⟨"Essay".toList, "homework".toList, some "2025-11-15 18:30:00".toList⟩,
      ⟨"Reading".toList, "homework".toList, none⟩],
    tests := [⟨"Quiz 1".toList, "quiz".toList, "2025-11-15".toList⟩,
      ⟨"Quiz 2".toList, "quiz".toList, "2025-11-17".toList⟩],
    generated_plan := [] }

/-- A page showing the week of Sunday 9 November 2025 with `selectedDate` at `tv`. -/
def samplePage (tv : Num) : AppState :=
  { store := [some 1762646400000, tv],
    currentWeekStart := 0,
    selectedDate := 1,
    scheduleData := sampleSnapshot,
    cards := [],
    monthSelect := ⟨(List.range 12).map fun i => Nat.toDigits 10 i, "10".toList⟩,
    yearSelect := ⟨["2025".toList, "2026".toList, "2027".toList], "2025".toList⟩,
    detailsBox := [] }

/-! ## Fetching the schedule -/

/-- The JSON body of a `/get_schedule` response; a field is `none` when absent or falsy. -/
structure ScheduleJson where
  schedule : Option (List ClassEntry)
  tasks : Option (List TaskEntry)
  tests : Option (List TestEntry)
  generated_plan : Option (List PlanEntry)
  preferences : Option Preferences
  study_windows : Option (List StudyWindow)
deriving DecidableEq, Repr

/-- What `fetch('/get_schedule')` followed by `res.json()` yields: the request is rejected
(network error), or a response arrives with its `ok` flag and a body, the body being `none`
when it cannot be parsed as a JSON object. -/
inductive FetchOutcome where
  | networkError
  | response (ok : Bool) (body : Option ScheduleJson)
deriving DecidableEq, Repr

/-- The snapshot assigned in the `catch` branch of the newer `loadScheduleData`. -/
def emptySnapshot : ScheduleSnapshot :=
  { schedule := [], tasks := [], tests := [], generated_plan := [],
    preferences := ⟨none, none⟩, study_windows := [] }

/-- The message written to the detail panel when loading fails. -/
def loadErrorNotice : Block :=
  Block.errorNotice "Error Loading Schedule".toList
    "Could not fetch schedule data. Please try again later.".toList

namespace Ced

/-- `loadScheduleData()`, newer variant, given the outcome of its fetch. A rejected fetch, a
response that is not `ok` (the function throws itself) and an unreadable body all end in the
`catch` branch, which does not throw. -/
def loadScheduleData (fetched : FetchOutcome) (s : AppState) : AppState :=
  match fetched with
  | FetchOutcome.response true (some data) =>
    { s with scheduleData :=
      { schedule := data.schedule.getD [],
        tasks := data.tasks.getD [],
        tests := data.tests.getD [],
        generated_plan := data.generated_plan.getD [],
        preferences := data.preferences.getD ⟨some "07:00".toList, some "23:00".toList⟩,
        study_windows := data.study_windows.getD [] } }
  | _ => { s with scheduleData := emptySnapshot, detailsBox := [loadErrorNotice] }

/-- The pair `await loadScheduleData(); displayDayDetails();` that ends `renderWeek` and
follows a successful `/chat`, `/add_task` or `/save_personalization` request. -/
def loadThenDisplay (now : Int) (localeCompare : Str → Str → Int) (fetched : FetchOutcome)
    (s : AppState) : AppState :=
  displayDayDetails now localeCompare (loadScheduleData fetched s)

end Ced

namespace Old

/-- What the older `loadScheduleData` gets from its fetch: a failure (rejected request or
unreadable body), or a JSON body with its `error` flag. A body without error is taken to
carry the arrays `schedule`, `tasks` and `tests`. -/
inductive FetchResult where
  | failed
  | body (error : Bool) (data : ScheduleSnapshot)
deriving DecidableEq, Repr

/-- `loadScheduleData()`, older variant. -/
def loadScheduleData (fetched : FetchResult) (s : AppState) : AppState :=
  match fetched with
  | FetchResult.body false data => { s with scheduleData := data }
  | _ => { s with scheduleData :=
      { schedule := [], tasks := [], tests := [], generated_plan := [] } }

end Old

/-! ## Rendering the week -/

def dayNames : List Str :=
  ["Sun".toList, "Mon".toList, "Tue".toList, "Wed".toList, "Thu".toList, "Fri".toList,
   "Sat".toList]

/-- The lookup `dayNames[date.getDay()]`: `none` is `undefined`. -/
def dayNameOf (day : Num) : Option Str :=
  match day with
  | some k => if 0 ≤ k then dayNames.get? k.toNat else none
  | none => none

namespace Ced

/-- The loop of `renderWeek`, newer variant: `n` iterations from the iterator time value
`it`. The iterator is a private copy of `currentWeekStart` and `date` a private copy of the
iterator, so both are carried as time values. No card is written for an invalid date. -/
def renderCards (now : Int) (selectedDateString : Str) : Nat → Num → List DayCard
  | 0, _ => []
  | n + 1, it =>
    let date := it
    let dateString := getLocalDateString now date
    let isActive := decide (dateString = selectedDateString)
    let card : List DayCard :=
      match dayNameOf (JSDate.getDay date) with
      | some name => [⟨dateString, isActive, name, numToString (JSDate.getDate date)⟩]
      | none => []
    card ++ renderCards now selectedDateString n
      (JSDate.setDate it (numAdd (JSDate.getDate it) (some 1)))

/-- `renderWeek(dateToSelect)`, newer variant, given the outcome of the fetch it awaits;
`dateToSelect` is `none` for `null`. The wrapper element is taken to exist. -/
def renderWeek (now : Int) (localeCompare : Str → Str → Int) (fetched : FetchOutcome)
    (s : AppState) (dateToSelect : Option Ref) : AppState :=
  let currentDateIterator := s.store.read s.currentWeekStart
  let fresh := s.store.alloc (s.store.read (dateToSelect.getD s.currentWeekStart))
  let store := fresh.2.write fresh.1 (JSDate.setHours (fresh.2.read fresh.1) 0 0 0 0)
  let selectedDateString := getLocalDateString now (store.read fresh.1)
  let cards := renderCards now selectedDateString 7 currentDateIterator
  let s := { s with store := store, selectedDate := fresh.1, cards := cards }
  orAbort s ((updateSelectors s).map (loadThenDisplay now localeCompare fetched))

/-- `loadPreviousWeek()`, newer variant. -/
def loadPreviousWeek (now : Int) (localeCompare : Str → Str → Int) (fetched : FetchOutcome)
    (s : AppState) : AppState :=
  let cws := s.store.read s.currentWeekStart
  let store := s.store.write s.currentWeekStart
    (JSDate.setDate cws (numSub (JSDate.getDate cws) (some 7)))
  let copy := store.alloc (store.read s.currentWeekStart)
  renderWeek now localeCompare fetched { s with store := copy.2 } (some copy.1)

/-- `loadNextWeek()`, newer variant. -/
def loadNextWeek (now : Int) (localeCompare : Str → Str → Int) (fetched : FetchOutcome)
    (s : AppState) : AppState :=
  let cws := s.store.read s.currentWeekStart
  let store := s.store.write s.currentWeekStart
    (JSDate.setDate cws (numAdd (JSDate.getDate cws) (some 7)))
  let copy := store.alloc (store.read s.currentWeekStart)
  renderWeek now localeCompare fetched { s with store := copy.2 } (some copy.1)

/-- `handleDateSelectorChange()`, newer variant. -/
def handleDateSelectorChange (now : Int) (localeCompare : Str → Str → Int)
    (fetched : FetchOutcome) (s : AppState) : AppState :=
  let newMonth := parseInt s.monthSelect.value
  let newYear := parseInt s.yearSelect.value
  let newDate := s.store.alloc (JSDate.ofYMD newYear newMonth (some 1))
  let weekStart := getWeekStart newDate.2 newDate.1
  renderWeek now localeCompare fetched
    { s with store := weekStart.2, currentWeekStart := weekStart.1 } (some newDate.1)

end Ced

namespace Old

/-- The loop of `renderWeek`, older variant: a card is written in every iteration, showing
`undefined` and `NaN` for an invalid date. -/
def renderCards (selectedDateString : Str) : Nat → Num → List DayCard
  | 0, _ => []
  | n + 1, it =>
    let date := it
    let dateString := getLocalDateString date
    let isActive := decide (dateString = selectedDateString)
    let card : DayCard :=
      ⟨dateString, isActive, (dayNameOf (JSDate.getDay date)).getD "undefined".toList,
        numToString (JSDate.getDate date)⟩
    card :: renderCards selectedDateString n
      (JSDate.setDate it (numAdd (JSDate.getDate it) (some 1)))

/-- `renderWeek(dateToSelect)`, older variant: a date that is passed becomes `selectedDate`
itself, otherwise a copy of `currentWeekStart` does. -/
def renderWeek (fetched : FetchResult) (s : AppState) (dateToSelect : Option Ref) :
    AppState :=
  let currentDate := s.store.read s.currentWeekStart
  let chosen : Ref × DateStore :=
    match dateToSelect with
    | some d => (d, s.store)
    | none => s.store.alloc (s.store.read s.currentWeekStart)
  let selectedDateString := getLocalDateString (chosen.2.read chosen.1)
  let cards := renderCards selectedDateString 7 currentDate
  let s := { s with store := chosen.2, selectedDate := chosen.1, cards := cards }
  orAbort s ((updateSelectors s).map fun s => displayDayDetails (loadScheduleData fetched s))

/-- `loadPreviousWeek()`, older variant. -/
def loadPreviousWeek (fetched : FetchResult) (s : AppState) : AppState :=
  let cws := s.store.read s.currentWeekStart
  let store := s.store.write s.currentWeekStart
    (JSDate.setDate cws (numSub (JSDate.getDate cws) (some 7)))
  renderWeek fetched { s with store := store } none

/-- `loadNextWeek()`, older variant. -/
def loadNextWeek (fetched : FetchResult) (s : AppState) : AppState :=
  let cws := s.store.read s.currentWeekStart
  let store := s.store.write s.currentWeekStart
    (JSDate.setDate cws (numAdd (JSDate.getDate cws) (some 7)))
  renderWeek fetched { s with store := store } none

/-- `handleDateSelectorChange()`, older variant. -/
def handleDateSelectorChange (fetched : FetchResult) (s : AppState) : AppState :=
  let newMonth := parseInt s.monthSelect.value
  let newYear := parseInt s.yearSelect.value
  let newDate := s.store.alloc (JSDate.ofYMD newYear newMonth (some 1))
  let weekStart := getWeekStart newDate.2 newDate.1
  renderWeek fetched
    { s with store := weekStart.2, currentWeekStart := weekStart.1 } (some newDate.1)

end Old

/-! ## Page load -/

/-- The drop-downs after `initializeSelectors()` has filled the two empty `select`
elements: months `0`..`11` and the years `deviceYear`, `deviceYear + 1`, `deviceYear + 2`.
The script selects nothing at this point, so each drop-down shows its first option. -/
def initializeSelectors (now : Int) : Select × Select :=
  let deviceYear := JSDate.getFullYear (some now)
  let months := (List.range 12).map fun (index : Nat) => numToString (some (index : Int))
  let years := (List.range 3).map fun (i : Nat) =>
    numToString (numAdd deviceYear (some (i : Int)))
  (⟨months, months.headD []⟩, ⟨years, years.headD []⟩)

/-- The state when the `DOMContentLoaded` handler starts: the two module-level dates hold
the clock reading `now`, nothing is rendered. -/
def moduleState (now : Int) : AppState :=
  { store := [some now, some now],
    currentWeekStart := 0,
    selectedDate := 1,
    scheduleData := { schedule := [], tasks := [], tests := [], generated_plan := [] },
    cards := [],
    monthSelect := (initializeSelectors now).1,
    yearSelect := (initializeSelectors now).2,
    detailsBox := [] }

namespace Ced

/-- The part of the `DOMContentLoaded` handler that sets up the calendar, newer variant:
`initializeSelectors()`, `currentWeekStart = getWeekStart(new Date())`, `renderWeek()`.
The clock reads `now` throughout. -/
def pageLoad (now : Int) (localeCompare : Str → Str → Int) (fetched : FetchOutcome) :
    AppState :=
  let s := moduleState now
  let today := s.store.alloc (some now)
  let weekStart := getWeekStart today.2 today.1
  renderWeek now localeCompare fetched
    { s with store := weekStart.2, currentWeekStart := weekStart.1 } none

end Ced

namespace Old

/-- The `DOMContentLoaded` handler, older variant. -/
def pageLoad (now : Int) (fetched : FetchResult) : AppState :=
  let s := moduleState now
  let today := s.store.alloc (some now)
  let weekStart := getWeekStart today.2 today.1
  renderWeek fetched { s with store := weekStart.2, currentWeekStart := weekStart.1 } none

end Old

/-! ## The daily check-in -/

/-- The body posted to `/chat`. -/
structure ChatPost where
  message : Str
  year : Str
deriving DecidableEq, Repr

/-- `triggerDailyCheckin()`: `lastCheckin` is the stored item `lastDailyCheckin` (`none` for
`null`), `toLocaleDateString` the host's rendering of a local day number. Returns the body
posted, if any, and the stored item afterwards; the item is written right after the request
is issued, whatever becomes of the request. -/
def triggerDailyCheckin (toLocaleDateString : Int → Str) (now : Int)
    (lastCheckin : Option Str) : Option ChatPost × Option Str :=
  let today := toLocaleDateString (Day (LocalTime now))
  if lastCheckin ≠ some today then
    (some ⟨"trigger:daily_checkin".toList, numToString (JSDate.getFullYear (some now))⟩,
      some today)
  else (none, lastCheckin)

/-- Successive page loads at the clock readings `clocks`, starting from the stored item
`lastCheckin`: the number of loads on local day `day` that posted the check-in. -/
def checkinsOnDay (toLocaleDateString : Int → Str) : Option Str → List Int → Int → Nat
  | _, [], _ => 0
  | lastCheckin, now :: rest, day =>
    (if (triggerDailyCheckin toLocaleDateString now lastCheckin).1.isSome ∧
        Day (LocalTime now) = day then 1 else 0) +
      checkinsOnDay toLocaleDateString
        (triggerDailyCheckin toLocaleDateString now lastCheckin).2 rest day

/-! ## Vocabulary of the later statements -/

/-- The titles of the section headings of a panel, in document order. -/
def headingTitles (box : List Block) : List Str :=
  box.filterMap fun b =>
    match b with
    | Block.heading t => some t
    | _ => none

/-- Whether a panel shows a placeholder message. -/
def hasPlaceholder (box : List Block) : Bool :=
  box.any fun b =>
    match b with
    | Block.placeholder _ => true
    | _ => false

/-- Whether the fetch of `/get_schedule` failed for the newer `loadScheduleData`: a network
error, a status that is not OK, or an unreadable body. -/
def FetchOutcome.failed : FetchOutcome → Bool
  | FetchOutcome.networkError => true
  | FetchOutcome.response false _ => true
  | FetchOutcome.response true none => true
  | FetchOutcome.response true (some _) => false

/-- A zero-padded 24-hour time `HH:MM`. -/
def IsHHMM (s : Str) : Prop :=
  ∃ h m : Int, 0 ≤ h ∧ h < 24 ∧ 0 ≤ m ∧ m < 60 ∧ s = twoDigits h ++ ':' :: twoDigits m

/-- Minutes since midnight of a time `HH:MM`. -/
def minutesOf (s : Str) : Int :=
  60 * (decimalValue (s.take 2) : Int) + (decimalValue (s.drop 3) : Int)

/-- The sample page with a generated plan: two blocks on 15 November 2025, listed with the
later one first, and one block on the next day. -/
def samplePlanPage (tv : Num) : AppState :=
  { samplePage tv with
    scheduleData :=
      { sampleSnapshot with
        generated_plan :=
          [⟨"Revise".toList, "2025-11-15".toList, "14:00".toList, "15:00".toList⟩,
           ⟨"Read".toList, "2025-11-15".toList, "09:30".toList, "10:00".toList⟩,
           ⟨"Essay".toList, "2025-11-16".toList, "08:00".toList, "09:00".toList⟩] } }

/-! ## Vocabulary of the calendar invariants -/

/-- The card that `renderWeek` writes for the valid date with time value `t` while the
selected date renders as `selectedDateString`. -/
def cardOf (selectedDateString : Str) (t : Int) : DayCard :=
  ⟨Old.getLocalDateString (some t),
    decide (Old.getLocalDateString (some t) = selectedDateString),
    (dayNameOf (JSDate.getDay (some t))).getD "undefined".toList,
    numToString (JSDate.getDate (some t))⟩

/-- The cards of the `n` days from the time value `c` on. -/
def cardsFrom (selectedDateString : Str) (n : Nat) (c : Int) : List DayCard :=
  (List.range n).map fun (i : Nat) => cardOf selectedDateString (c + (i : Int) * msPerDay)

/-- The rendered years `a`, `a + 1`, .., `b`. -/
def yearStrings (a b : Int) : List Str :=
  (List.range (b + 1 - a).toNat).map fun (i : Nat) => numToString (some (a + (i : Int)))

/-- The year options left by `updateSelectors` for the selected year `year`, the first
option being read with `parse` (`parseInt` in the newer variant, `Number` in the older one);
the options stay as they are when the function throws. -/
def yearOptionsAfter (parse : Str → Num) (options : List Str) (year : Num) : List Str :=
  if numToString year ∈ options then options
  else
    match options with
    | [] => []
    | first :: _ =>
      if numLt year (parse first) then numToString year :: options
      else options ++ [numToString year]

/-- Two states agree on the dates, the cards and the drop-downs. -/
def SameCalendar (x y : AppState) : Prop :=
  x.store = y.store ∧ x.currentWeekStart = y.currentWeekStart ∧
  x.selectedDate = y.selectedDate ∧ x.cards = y.cards ∧
  x.monthSelect = y.monthSelect ∧ x.yearSelect = y.yearSelect

/-- The seven days of the displayed week are representable dates in years from 100 on
(`new Date(year, month, day)` reads a year from 0 to 99 as 1900 + year, and a time value
beyond ±8.64e15 ms is an Invalid Date). -/
def WeekInRange (s : AppState) : Prop :=
  ∃ c : Int, s.store.read s.currentWeekStart = some c ∧ -maxTime ≤ c ∧
    c + 6 * msPerDay ≤ maxTime ∧ 100 ≤ YearFromTime c

/-- The user picks the options `month` and `year` in the two drop-downs. -/
def chooseMonthYear (s : AppState) (month year : Str) : AppState :=
  { s with monthSelect := { s.monthSelect with value := month },
           yearSelect := { s.yearSelect with value := year } }

/-- The calendar is consistent: the week start and the selected date are valid, the
selected date is one of the seven days from the week start on, the cards are those of the
seven days with the flag of the selected one set, the month options are `0`..`11`, and the
year options are the consecutive years `a`..`b`, among them the selected year. -/
def CalendarInvariant (s : AppState) : Prop :=
  ∃ c u a b : Int,
    s.store.read s.currentWeekStart = some c ∧ s.store.read s.selectedDate = some u ∧
    -maxTime ≤ c ∧ c + 6 * msPerDay ≤ maxTime ∧ 100 ≤ YearFromTime c ∧
    Day c ≤ Day u ∧ Day u ≤ Day c + 6 ∧
    s.cards = cardsFrom (Old.getLocalDateString (some u)) 7 c ∧
    s.monthSelect.options = (initializeSelectors 0).1.options ∧
    s.yearSelect.options = yearStrings a b ∧ 100 ≤ a ∧
    a ≤ YearFromTime u ∧ YearFromTime u ≤ b

namespace Ced

/-- States of the newer variant reached from page load by week navigation, drop-down changes
and clicks on rendered cards, every displayed week being in range. The clock reading and the
outcome of the fetch are arbitrary at each step. -/
inductive ReachableInRange (localeCompare : Str → Str → Int) : AppState → Prop where
  | load (now : Int) (fetched : FetchOutcome) :
    WeekInRange (pageLoad now localeCompare fetched) →
    ReachableInRange localeCompare (pageLoad now localeCompare fetched)
  | previous (now : Int) (fetched : FetchOutcome) (s : AppState) :
    ReachableInRange localeCompare s →
    WeekInRange (loadPreviousWeek now localeCompare fetched s) →
    ReachableInRange localeCompare (loadPreviousWeek now localeCompare fetched s)
  | next (now : Int) (fetched : FetchOutcome) (s : AppState) :
    ReachableInRange localeCompare s →
    WeekInRange (loadNextWeek now localeCompare fetched s) →
    ReachableInRange localeCompare (loadNextWeek now localeCompare fetched s)
  | change (now : Int) (fetched : FetchOutcome) (s : AppState) (month year : Str) :
    ReachableInRange localeCompare s →
    month ∈ s.monthSelect.options → year ∈ s.yearSelect.options →
    WeekInRange
      (handleDateSelectorChange now localeCompare fetched (chooseMonthYear s month year)) →
    ReachableInRange localeCompare
      (handleDateSelectorChange now localeCompare fetched (chooseMonthYear s month year))
  | click (now : Int) (s : AppState) (element : Nat) (card : DayCard) :
    ReachableInRange localeCompare s → s.cards.get? element = some card →
    ReachableInRange localeCompare
      (handleDayClick now localeCompare s element card.dateString)

end Ced

namespace Old

/-- States of the older variant reached from page load by week navigation, drop-down changes
and clicks on rendered cards, every displayed week being in range. -/
inductive ReachableInRange : AppState → Prop where
  | load (now : Int) (fetched : FetchResult) :
    WeekInRange (pageLoad now fetched) → ReachableInRange (pageLoad now fetched)
  | previous (fetched : FetchResult) (s : AppState) :
    ReachableInRange s → WeekInRange (loadPreviousWeek fetched s) →
    ReachableInRange (loadPreviousWeek fetched s)
  | next (fetched : FetchResult) (s : AppState) :
    ReachableInRange s → WeekInRange (loadNextWeek fetched s) →
    ReachableInRange (loadNextWeek fetched s)
  | change (fetched : FetchResult) (s : AppState) (month year : Str) :
    ReachableInRange s → month ∈ s.monthSelect.options → year ∈ s.yearSelect.options →
    WeekInRange (handleDateSelectorChange fetched (chooseMonthYear s month year)) →
    ReachableInRange (handleDateSelectorChange fetched (chooseMonthYear s month year))
  | click (s : AppState) (element : Nat) (card : DayCard) :
    ReachableInRange s → s.cards.get? element = some card →
    ReachableInRange (handleDayClick s element card.dateString)

end Old

/-! ## Hosts with daylight saving

The `Date` methods above are those of a host whose local time is UTC. Below are the same
methods, and `getWeekStart` of both variants, on a host in an arbitrary time zone, as
ECMA-262 defines them through `LocalTZA(t, isUTC)`. -/

/-- The time zone of the host. `offsetAtUTC t` is `LocalTZA(t, true)`, the offset of local
time from UTC in effect at the UTC time `t`; `offsetAtLocal t` is `LocalTZA(t, false)`, the
offset with which the local time `t` is read, which for a local time that a clock change
skips or repeats is the offset before the change. -/
structure TimeZone where
  offsetAtUTC : Int → Int
  offsetAtLocal : Int → Int

/-- A zone with a constant offset from UTC. -/
def TimeZone.fixed (offset : Int) : TimeZone :=
  ⟨fun _ => offset, fun _ => offset⟩

/-- A zone whose clocks change once, at the UTC time `instant`, from the offset `before` to
the offset `after`. The local times from `instant + before` to `instant + after` are skipped
when the clocks go forward, those from `instant + after` to `instant + before` occur twice
when they go back; both are read with the offset `before`. -/
def TimeZone.oneChange (instant before after : Int) : TimeZone :=
  ⟨fun t => if t < instant then before else after,
   fun t => if t < instant + max before after then before else after⟩

/-- Cuba around 9 March 2025: at 05:00 UTC the clocks go from 00:00 (UTC-5) to 01:00
(UTC-4), so local midnight of that Sunday does not exist. -/
def havana2025 : TimeZone := TimeZone.oneChange 1741496400000 (-18000000) (-14400000)

/-- New York around 9 March 2025: at 07:00 UTC the clocks go from 02:00 (UTC-5) to 03:00
(UTC-4). -/
def newYork2025 : TimeZone := TimeZone.oneChange 1741503600000 (-18000000) (-14400000)

namespace Zoned

/-- `LocalTime(t)` of ECMA-262 for the zone `z`. -/
def LocalTime (z : TimeZone) (t : Int) : Int := t + z.offsetAtUTC t

/-- `UTC(t)` of ECMA-262 for the zone `z`. -/
def UTC (z : TimeZone) (t : Int) : Int := t - z.offsetAtLocal t

namespace JSDate

def getDate (z : TimeZone) (tv : Num) : Num := tv.map fun t => DateFromTime (LocalTime z t)
def getDay (z : TimeZone) (tv : Num) : Num := tv.map fun t => WeekDay (LocalTime z t)
def getHours (z : TimeZone) (tv : Num) : Num := tv.map fun t => HourFromTime (LocalTime z t)
def getMinutes (z : TimeZone) (tv : Num) : Num := tv.map fun t => MinFromTime (LocalTime z t)
def getSeconds (z : TimeZone) (tv : Num) : Num := tv.map fun t => SecFromTime (LocalTime z t)
def getMilliseconds (z : TimeZone) (tv : Num) : Num :=
  tv.map fun t => msFromTime (LocalTime z t)

/-- The time value after `setDate(dt)`. -/
def setDate (z : TimeZone) (tv : Num) (dt : Num) : Num :=
  match tv, dt with
  | some t0, some d =>
    let t := LocalTime z t0
    let newDate := MakeDate (MakeDay (YearFromTime t) (MonthFromTime t) d) (TimeWithinDay t)
    TimeClip (UTC z newDate)
  | _, _ => none

/-- The time value after `setHours(hour, min, sec, ms)`. -/
def setHours (z : TimeZone) (tv : Num) (hour min sec ms : Int) : Num :=
  match tv with
  | some t0 =>
    let t := LocalTime z t0
    let date := MakeDate (Day t) (MakeTime hour min sec ms)
    TimeClip (UTC z date)
  | none => none

end JSDate

namespace Old

/-- `getWeekStart(date)`, older variant, on a host in the zone `z`. -/
def getWeekStart (z : TimeZone) (σ : DateStore) (date : Ref) : Ref × DateStore :=
  let (d, σ) := σ.alloc (σ.read date)
  let day := JSDate.getDay z (σ.read d)
  let diff := numSub (JSDate.getDate z (σ.read d)) day
  let σ := σ.write d (JSDate.setDate z (σ.read d) diff)
  (d, σ)

end Old

namespace Ced

/-- `getWeekStart(date)`, newer variant, on a host in the zone `z`. -/
def getWeekStart (z : TimeZone) (σ : DateStore) (date : Ref) : Ref × DateStore :=
  let (d, σ) := σ.alloc (σ.read date)
  let dayOfWeek := JSDate.getDay z (σ.read d)
  let diff := numSub (JSDate.getDate z (σ.read d)) dayOfWeek
  let σ := σ.write d (JSDate.setDate z (σ.read d) diff)
  let σ := σ.write d (JSDate.setHours z (σ.read d) 0 0 0 0)
  (d, σ)

end Ced

end Zoned

/-! # Properties -/

/-! ## Calendar arithmetic -/

theorem LocalTime_eq (t : Int) : LocalTime t = t := by simp [LocalTime, LocalTZA]

theorem DayFromYear_lower (y day : Int) (h : y = 1970 + (400 * day) / 146097) :
    DayFromYear (y - 1) ≤ day := by
  unfold DayFromYear
  omega

theorem DayFromYear_upper (y day : Int) (h : y = 1970 + (400 * day) / 146097) :
    day < DayFromYear (y + 2) := by
  unfold DayFromYear
  omega

/-- `YearOfDay day` is a year whose first day is on or before `day` and whose successor
starts after `day`. -/
theorem YearOfDay_spec (day : Int) :
    DayFromYear (YearOfDay day) ≤ day ∧ day < DayFromYear (YearOfDay day + 1) := by
  have h1 := DayFromYear_lower _ day rfl
  have h2 := DayFromYear_upper _ day rfl
  unfold YearOfDay
  simp only []
  split_ifs with ha hb
  · refine ⟨ha, ?_⟩
    have e : (1970 + 400 * day / 146097 + 1 + 1) = (1970 + 400 * day / 146097 + 2) := by ring
    rw [e]; exact h2
  · refine ⟨h1, ?_⟩
    have e : (1970 + 400 * day / 146097 - 1 + 1) = (1970 + 400 * day / 146097) := by ring
    rw [e]; exact hb
  · exact ⟨by omega, by omega⟩

theorem DayFromYear_succ (y : Int) : DayFromYear (y + 1) = DayFromYear y + DaysInYear y := by
  unfold DayFromYear DaysInYear
  split_ifs <;> omega

theorem DayFromYear_mono {y z : Int} (h : y ≤ z) : DayFromYear y ≤ DayFromYear z := by
  unfold DayFromYear
  omega

/-- The year of a day is determined by the two bounds of `YearOfDay_spec`; in particular
`YearOfDay day` is the largest year starting on or before `day`. -/
theorem YearOfDay_unique (day y : Int) (h1 : DayFromYear y ≤ day)
    (h2 : day < DayFromYear (y + 1)) : YearOfDay day = y := by
  obtain ⟨s1, s2⟩ := YearOfDay_spec day
  by_contra hne
  rcases lt_or_gt_of_ne hne with hlt | hgt
  · have := DayFromYear_mono (show YearOfDay day + 1 ≤ y by omega)
    omega
  · have := DayFromYear_mono (show y + 1 ≤ YearOfDay day by omega)
    omega

theorem DaysInYear_cases (y : Int) : DaysInYear y = 365 ∨ DaysInYear y = 366 := by
  unfold DaysInYear
  split_ifs <;> simp

theorem DayWithinYear_bounds (t : Int) :
    0 ≤ DayWithinYear t ∧ DayWithinYear t < 365 + InLeapYear t := by
  obtain ⟨s1, s2⟩ := YearOfDay_spec (Day t)
  have hs := DayFromYear_succ (YearOfDay (Day t))
  unfold DayWithinYear InLeapYear YearFromTime
  rcases DaysInYear_cases (YearOfDay (Day t)) with h | h <;> simp [h] <;> omega

theorem ite_elim {c : Prop} [Decidable c] {a b : Int} (Q : Int → Prop)
    (ha : c → Q a) (hb : ¬c → Q b) : Q (if c then a else b) := by
  split
  · exact ha ‹_›
  · exact hb ‹_›

theorem monthOfYearDay_bounds (dwy leap : Int) :
    0 ≤ monthOfYearDay dwy leap ∧ monthOfYearDay dwy leap ≤ 11 := by
  unfold monthOfYearDay
  iterate 11
    (refine ite_elim (fun m => 0 ≤ m ∧ m ≤ 11) (fun _ => by omega) (fun _ => ?_))
  omega

/-- The month found for a day of the year starts on or before that day, at most 30 days
earlier. -/
theorem monthStart_monthOfYearDay (dwy leap : Int) (h0 : 0 ≤ dwy)
    (hl : 0 ≤ leap ∧ leap ≤ 1) (h1 : dwy < 365 + leap) :
    monthStart (monthOfYearDay dwy leap) leap ≤ dwy ∧
    dwy < monthStart (monthOfYearDay dwy leap) leap + 31 := by
  unfold monthOfYearDay
  iterate 11
    (refine ite_elim (fun m => monthStart m leap ≤ dwy ∧ dwy < monthStart m leap + 31)
      (fun _ => by simp only [monthStart]; norm_num; omega) (fun _ => ?_))
  simp only [monthStart]; norm_num; omega

theorem MonthFromTime_bounds (t : Int) : 0 ≤ MonthFromTime t ∧ MonthFromTime t ≤ 11 :=
  monthOfYearDay_bounds _ _

theorem InLeapYear_cases (t : Int) : InLeapYear t = 0 ∨ InLeapYear t = 1 := by
  unfold InLeapYear
  split_ifs <;> simp

theorem DateFromTime_bounds (t : Int) : 1 ≤ DateFromTime t ∧ DateFromTime t ≤ 31 := by
  obtain ⟨b1, b2⟩ := DayWithinYear_bounds t
  have hl : 0 ≤ InLeapYear t ∧ InLeapYear t ≤ 1 := by
    rcases InLeapYear_cases t with h | h <;> omega
  have := monthStart_monthOfYearDay (DayWithinYear t) (InLeapYear t) b1 hl b2
  unfold DateFromTime MonthFromTime
  omega

theorem WeekDay_bounds (t : Int) : 0 ≤ WeekDay t ∧ WeekDay t ≤ 6 := by
  unfold WeekDay
  omega

/-- The carry-over of `setDate`: moving the day of the month of `t` by `-k` moves the day
number by `-k`, whatever month or year boundary is crossed. -/
theorem MakeDay_shift (t k : Int) :
    MakeDay (YearFromTime t) (MonthFromTime t) (DateFromTime t - k) = Day t - k := by
  obtain ⟨m1, m2⟩ := MonthFromTime_bounds t
  have e1 : MonthFromTime t / 12 = 0 := by omega
  have e2 : MonthFromTime t % 12 = MonthFromTime t := by omega
  unfold MakeDay
  simp only [e1, e2, add_zero]
  unfold DateFromTime DayWithinYear InLeapYear
  omega

theorem Day_MakeDate (day time : Int) (h0 : 0 ≤ time) (h1 : time < msPerDay) :
    Day (MakeDate day time) = day := by
  unfold Day MakeDate msPerDay at *
  omega

theorem TimeWithinDay_MakeDate (day time : Int) (h0 : 0 ≤ time) (h1 : time < msPerDay) :
    TimeWithinDay (MakeDate day time) = time := by
  unfold TimeWithinDay MakeDate msPerDay at *
  omega

/-! ## The heap of dates -/

theorem read_alloc_new (σ : DateStore) (tv : Num) :
    (σ.alloc tv).2.read (σ.alloc tv).1 = tv := by
  simp [DateStore.alloc, DateStore.read]

theorem read_alloc_old (σ : DateStore) (tv : Num) (r : Nat) (h : r < σ.length) :
    (σ.alloc tv).2.read r = σ.read r := by
  simp [DateStore.alloc, DateStore.read, List.getElem?_append_left h]

theorem read_write_same (σ : DateStore) (tv : Num) (r : Nat) (h : r < σ.length) :
    (σ.write r tv).read r = tv := by
  simp [DateStore.write, DateStore.read, List.getElem?_set_self h]

theorem read_write_other (σ : DateStore) (tv : Num) (r q : Nat) (h : r ≠ q) :
    (σ.write r tv).read q = σ.read q := by
  simp [DateStore.write, DateStore.read, List.getElem?_set_ne h]

theorem lt_length_of_read (σ : DateStore) (r : Nat) (t : Int) (h : σ.read r = some t) :
    r < σ.length := by
  by_contra hn
  have : σ[r]? = none := List.getElem?_eq_none (by omega)
  simp [DateStore.read, this] at h

/-- The week start of the newer variant is a fresh object; its time value is obtained from
the argument's by `setDate` and `setHours`. -/
theorem ced_getWeekStart_fst (σ : DateStore) (date : Nat) :
    (Ced.getWeekStart σ date).1 = σ.length := rfl

theorem ced_getWeekStart_read (σ : DateStore) (date : Nat) :
    (Ced.getWeekStart σ date).2.read (Ced.getWeekStart σ date).1 =
      JSDate.setHours (JSDate.setDate (σ.read date)
        (numSub (JSDate.getDate (σ.read date)) (JSDate.getDay (σ.read date)))) 0 0 0 0 := by
  unfold Ced.getWeekStart
  simp only [DateStore.alloc]
  have hl : σ.length < (σ ++ [σ.read date]).length := by simp
  have e : DateStore.read (σ ++ [σ.read date]) σ.length = σ.read date := by
    simp [DateStore.read]
  rw [e, read_write_same _ _ _ (by simp [DateStore.write]), read_write_same _ _ _ hl]

theorem ced_getWeekStart_read_old (σ : DateStore) (date r : Nat) (h : r < σ.length) :
    (Ced.getWeekStart σ date).2.read r = σ.read r := by
  unfold Ced.getWeekStart
  simp only [DateStore.alloc]
  rw [read_write_other _ _ σ.length r (by omega), read_write_other _ _ σ.length r (by omega)]
  simp [DateStore.read, List.getElem?_append_left h]

theorem old_getWeekStart_read (σ : DateStore) (date : Nat) :
    (Old.getWeekStart σ date).2.read (Old.getWeekStart σ date).1 =
      JSDate.setDate (σ.read date)
        (numSub (JSDate.getDate (σ.read date)) (JSDate.getDay (σ.read date))) := by
  unfold Old.getWeekStart
  simp only [DateStore.alloc]
  have hl : σ.length < (σ ++ [σ.read date]).length := by simp
  have e : DateStore.read (σ ++ [σ.read date]) σ.length = σ.read date := by
    simp [DateStore.read]
  rw [e, read_write_same _ _ _ hl]

theorem old_getWeekStart_read_old (σ : DateStore) (date r : Nat) (h : r < σ.length) :
    (Old.getWeekStart σ date).2.read r = σ.read r := by
  unfold Old.getWeekStart
  simp only [DateStore.alloc]
  rw [read_write_other _ _ σ.length r (by omega)]
  simp [DateStore.read, List.getElem?_append_left h]

/-! ## `getWeekStart` -/

/-- Time value after `d.setDate(d.getDate() - d.getDay())`: the same time of day on the
Sunday on or before, when that is not before the earliest time value. -/
theorem setDate_weekStart (t : Int) (hhi : t ≤ maxTime)
    (hw : -maxTime ≤ (Day t - WeekDay t) * msPerDay + TimeWithinDay t) :
    JSDate.setDate (some t) (numSub (JSDate.getDate (some t)) (JSDate.getDay (some t))) =
      some ((Day t - WeekDay t) * msPerDay + TimeWithinDay t) := by
  simp only [JSDate.setDate, JSDate.getDate, JSDate.getDay, numSub, Option.map, LocalTime,
    LocalTZA, UTC, add_zero, sub_zero] at *
  rw [MakeDay_shift]
  unfold TimeClip MakeDate
  have hb := WeekDay_bounds t
  have h1 : 0 ≤ TimeWithinDay t ∧ TimeWithinDay t < 86400000 := by
    unfold TimeWithinDay msPerDay; omega
  have h2 : t = Day t * 86400000 + TimeWithinDay t := by
    unfold Day TimeWithinDay msPerDay; omega
  rw [if_neg]
  unfold msPerDay maxTime at *
  omega

/-- Time value after `setHours(0, 0, 0, 0)`: midnight of the same day. -/
theorem setHours_midnight (v : Int) (hhi : v ≤ maxTime) (hlo : -maxTime ≤ Day v * msPerDay) :
    JSDate.setHours (some v) 0 0 0 0 = some (Day v * msPerDay) := by
  simp only [JSDate.setHours, LocalTime, LocalTZA, UTC, add_zero, sub_zero, MakeTime,
    MakeDate, zero_mul]
  unfold TimeClip
  have h2 : Day v * 86400000 ≤ v := by
    unfold Day msPerDay; omega
  rw [if_neg]
  unfold msPerDay maxTime at *
  omega

/-- Time value of the newer variant's week start: midnight of the Sunday on or before. -/
theorem ced_getWeekStart_value (σ : DateStore) (date : Nat) (t : Int)
    (hd : σ.read date = some t) (hhi : t ≤ maxTime)
    (hw : -maxTime ≤ (Day t - WeekDay t) * msPerDay) :
    (Ced.getWeekStart σ date).2.read (Ced.getWeekStart σ date).1 =
      some ((Day t - WeekDay t) * msPerDay) := by
  have h1 : 0 ≤ TimeWithinDay t ∧ TimeWithinDay t < msPerDay := by
    unfold TimeWithinDay msPerDay; omega
  have hb := WeekDay_bounds t
  have h2 : t = Day t * msPerDay + TimeWithinDay t := by
    unfold Day TimeWithinDay msPerDay; omega
  rw [ced_getWeekStart_read, hd, setDate_weekStart t hhi (by omega)]
  have hD : Day ((Day t - WeekDay t) * msPerDay + TimeWithinDay t) = Day t - WeekDay t :=
    Day_MakeDate _ _ h1.1 h1.2
  rw [setHours_midnight _ (by unfold msPerDay at *; omega) (by rw [hD]; exact hw), hD]

/-- Time value of the older variant's week start: the argument's time of day on the Sunday
on or before. -/
theorem old_getWeekStart_value (σ : DateStore) (date : Nat) (t : Int)
    (hd : σ.read date = some t) (hhi : t ≤ maxTime)
    (hw : -maxTime ≤ (Day t - WeekDay t) * msPerDay + TimeWithinDay t) :
    (Old.getWeekStart σ date).2.read (Old.getWeekStart σ date).1 =
      some ((Day t - WeekDay t) * msPerDay + TimeWithinDay t) := by
  rw [old_getWeekStart_read, hd, setDate_weekStart t hhi hw]

theorem WeekDay_sunday (D tod : Int) (h0 : 0 ≤ tod) (h1 : tod < msPerDay)
    (hD : (D + 4) % 7 = 0) : WeekDay (D * msPerDay + tod) = 0 := by
  have := Day_MakeDate D tod h0 h1
  unfold MakeDate at this
  unfold WeekDay
  rw [this]; exact hD

/-! ## Claims on `getWeekStart` -/

/-- C2 (amended): in both variants, for every valid date `d` whose week's Sunday is not
before the earliest time value, the day number of `getWeekStart(d)` is the day number of `d`
minus `dayOfWeek(d)`, which is between 0 and 6 days back, whatever month or year boundary
the subtraction crosses. -/
theorem C2_getWeekStart_calendar_date (σ : DateStore) (date : Ref) (t : Int)
    (hd : σ.read date = some t) (_hlo : -maxTime ≤ t) (hhi : t ≤ maxTime)
    (hw : -maxTime ≤ (Day (LocalTime t) - WeekDay (LocalTime t)) * msPerDay) :
    ∃ tc tp : Int,
      (Ced.getWeekStart σ date).2.read (Ced.getWeekStart σ date).1 = some tc ∧
      (Old.getWeekStart σ date).2.read (Old.getWeekStart σ date).1 = some tp ∧
      Day (LocalTime tc) = Day (LocalTime t) - WeekDay (LocalTime t) ∧
      Day (LocalTime tp) = Day (LocalTime t) - WeekDay (LocalTime t) ∧
      0 ≤ WeekDay (LocalTime t) ∧ WeekDay (LocalTime t) ≤ 6 := by
  simp only [LocalTime_eq] at *
  have h1 : 0 ≤ TimeWithinDay t ∧ TimeWithinDay t < msPerDay := by
    unfold TimeWithinDay msPerDay; omega
  have hb := WeekDay_bounds t
  refine ⟨_, _, ced_getWeekStart_value σ date t hd hhi hw,
    old_getWeekStart_value σ date t hd hhi (by omega), ?_, ?_, hb.1, hb.2⟩
  · have := Day_MakeDate (Day t - WeekDay t) 0 (le_refl 0) (by decide)
    simpa [MakeDate] using this
  · exact Day_MakeDate _ _ h1.1 h1.2

/-- Instance of C2 crossing a year boundary: 1 January 2025 is a Wednesday, `setDate` is
called with `1 - 3 = -2`, and the week starts on 29 December 2024. -/
theorem C2_witness :
    (DateStore.read [some 1735689600000] 0 = some 1735689600000 ∧
      -maxTime ≤ (1735689600000 : Int) ∧ (1735689600000 : Int) ≤ maxTime ∧
      -maxTime ≤ (Day (LocalTime 1735689600000) - WeekDay (LocalTime 1735689600000))
        * msPerDay) ∧
    ∃ tc tp : Int,
      (Ced.getWeekStart [some 1735689600000] 0).2.read
        (Ced.getWeekStart [some 1735689600000] 0).1 = some tc ∧
      (Old.getWeekStart [some 1735689600000] 0).2.read
        (Old.getWeekStart [some 1735689600000] 0).1 = some tp ∧
      Day (LocalTime tc) = Day (LocalTime 1735689600000) - WeekDay (LocalTime 1735689600000) ∧
      Day (LocalTime tp) = Day (LocalTime 1735689600000) - WeekDay (LocalTime 1735689600000) ∧
      0 ≤ WeekDay (LocalTime 1735689600000) ∧ WeekDay (LocalTime 1735689600000) ≤ 6 :=
  ⟨⟨rfl, by decide, by decide, by decide⟩,
   C2_getWeekStart_calendar_date [some 1735689600000] 0 1735689600000 rfl (by decide)
     (by decide) (by decide)⟩

/-- C2 as stated fails at the earliest valid date (time value -8.64e15, a Tuesday): in both
variants `setDate` leaves the time range and the result is an invalid date, which has no
calendar date. -/
theorem C2_counterexample :
    DateStore.read [some (-8640000000000000)] 0 = some (-8640000000000000) ∧
    -maxTime ≤ (-8640000000000000 : Int) ∧ (-8640000000000000 : Int) ≤ maxTime ∧
    WeekDay (LocalTime (-8640000000000000)) = 2 ∧
    (Ced.getWeekStart [some (-8640000000000000)] 0).2.read
      (Ced.getWeekStart [some (-8640000000000000)] 0).1 = none ∧
    (Old.getWeekStart [some (-8640000000000000)] 0).2.read
      (Old.getWeekStart [some (-8640000000000000)] 0).1 = none := by
  decide

/-! ## Decimal renderings -/

theorem toDigitsCore_succ (f n : Nat) (ds : List Char) :
    Nat.toDigitsCore 10 (f + 1) n ds =
      if n / 10 = 0 then Nat.digitChar (n % 10) :: ds
      else Nat.toDigitsCore 10 f (n / 10) (Nat.digitChar (n % 10) :: ds) := by
  simp [Nat.toDigitsCore]

theorem toDigits_one (n : Nat) (h : n < 10) : Nat.toDigits 10 n = [Nat.digitChar n] := by
  unfold Nat.toDigits
  rw [toDigitsCore_succ, if_pos (by omega), Nat.mod_eq_of_lt h]

theorem toDigits_two (n : Nat) (h0 : 10 ≤ n) (h : n < 100) :
    Nat.toDigits 10 n = [Nat.digitChar (n / 10), Nat.digitChar (n % 10)] := by
  unfold Nat.toDigits
  obtain ⟨f, hf⟩ : ∃ f, n + 1 = f + 2 := ⟨n - 1, by omega⟩
  rw [hf, toDigitsCore_succ, if_neg (by omega), toDigitsCore_succ, if_pos (by omega)]
  rw [Nat.mod_eq_of_lt (show n / 10 < 10 by omega)]

theorem toDigits_four (n : Nat) (h0 : 1000 ≤ n) (h : n < 10000) :
    Nat.toDigits 10 n = [Nat.digitChar (n / 1000), Nat.digitChar (n / 100 % 10),
      Nat.digitChar (n / 10 % 10), Nat.digitChar (n % 10)] := by
  unfold Nat.toDigits
  obtain ⟨f, hf⟩ : ∃ f, n + 1 = f + 4 := ⟨n - 3, by omega⟩
  rw [hf, toDigitsCore_succ, if_neg (by omega), toDigitsCore_succ, if_neg (by omega),
    toDigitsCore_succ, if_neg (by omega), toDigitsCore_succ, if_pos (by omega)]
  have e1 : n / 10 / 10 / 10 % 10 = n / 1000 := by omega
  have e2 : n / 10 / 10 % 10 = n / 100 % 10 := by omega
  rw [e1, e2]

theorem padStart_two (n : Int) (h0 : 0 ≤ n) (h : n < 100) :
    padStart (numToString (some n)) 2 "0".toList = twoDigits n := by
  obtain ⟨k, rfl⟩ := Int.eq_ofNat_of_zero_le h0
  have hk : k < 100 := by omega
  simp only [numToString, twoDigits]
  rw [if_neg (by omega)]
  simp only [Int.toNat_ofNat]
  have e1 : ((k : Int) / 10).toNat = k / 10 := by omega
  have e2 : ((k : Int) % 10).toNat = k % 10 := by omega
  rw [e1, e2]
  by_cases h10 : k < 10
  · rw [toDigits_one k h10]
    have : k / 10 = 0 := by omega
    rw [this, Nat.mod_eq_of_lt h10]
    rfl
  · rw [toDigits_two k (by omega) hk]
    rfl

theorem numToString_four (n : Int) (h0 : 1000 ≤ n) (h : n < 10000) :
    numToString (some n) = fourDigits n := by
  obtain ⟨k, rfl⟩ := Int.eq_ofNat_of_zero_le (show (0:Int) ≤ n by omega)
  simp only [numToString, fourDigits]
  rw [if_neg (by omega)]
  simp only [Int.toNat_ofNat]
  rw [toDigits_four k (by omega) (by omega)]
  have e1 : ((k : Int) / 1000).toNat = k / 1000 := by omega
  have e2 : ((k : Int) / 100 % 10).toNat = k / 100 % 10 := by omega
  have e3 : ((k : Int) / 10 % 10).toNat = k / 10 % 10 := by omega
  have e4 : ((k : Int) % 10).toNat = k % 10 := by omega
  rw [e1, e2, e3, e4]

theorem digitChar_toNat (a : Nat) (h : a < 10) : (Nat.digitChar a).toNat = 48 + a := by
  interval_cases a <;> rfl

theorem digitChar_isDigit (a : Nat) (h : a < 10) : isDecimalDigit (Nat.digitChar a) = true := by
  interval_cases a <;> rfl

theorem twoDigits_isDigit (n : Int) (h0 : 0 ≤ n) (h : n < 100) :
    (twoDigits n).all isDecimalDigit = true := by
  simp only [twoDigits, List.all_cons, List.all_nil, Bool.and_true, Bool.and_eq_true]
  exact ⟨digitChar_isDigit _ (by omega), digitChar_isDigit _ (by omega)⟩

theorem fourDigits_isDigit (n : Int) (h0 : 0 ≤ n) (h : n < 10000) :
    (fourDigits n).all isDecimalDigit = true := by
  simp only [fourDigits, List.all_cons, List.all_nil, Bool.and_true, Bool.and_eq_true]
  exact ⟨digitChar_isDigit _ (by omega), digitChar_isDigit _ (by omega),
    digitChar_isDigit _ (by omega), digitChar_isDigit _ (by omega)⟩

/-! ## `getLocalDateString` -/

/-- The older formatter on a valid date: year, month and day joined by `-`, month and day
as two digits. -/
theorem old_getLocalDateString_some (t : Int) :
    Old.getLocalDateString (some t) =
      numToString (some (YearFromTime t)) ++ '-' ::
        (twoDigits (MonthFromTime t + 1) ++ '-' :: twoDigits (DateFromTime t)) := by
  have hm := MonthFromTime_bounds t
  have hd := DateFromTime_bounds t
  simp only [Old.getLocalDateString, JSDate.getFullYear, JSDate.getMonth, JSDate.getDate,
    Option.map, numAdd, LocalTime_eq]
  rw [padStart_two _ (by omega) (by omega), padStart_two _ (by omega) (by omega)]
  simp

/-- On a valid date the newer formatter takes its second branch and agrees with the
older one. -/
theorem ced_getLocalDateString_some (now t : Int) :
    Ced.getLocalDateString now (some t) = Old.getLocalDateString (some t) := by
  simp [Ced.getLocalDateString, Old.getLocalDateString]

/-- C5: for every valid date, with local year `y`, month `m` (1..12) and day `dd` (1..31),
`getLocalDateString` (both variants) is the decimal year, `-`, the two digits of `m`, `-`,
the two digits of `dd`; when `1000 ≤ y ≤ 9999` the year is its four digits and the result
has exactly 10 characters. -/
theorem C5_getLocalDateString_format (now t : Int) :
    (1 ≤ MonthFromTime (LocalTime t) + 1 ∧ MonthFromTime (LocalTime t) + 1 ≤ 12) ∧
    (1 ≤ DateFromTime (LocalTime t) ∧ DateFromTime (LocalTime t) ≤ 31) ∧
    Old.getLocalDateString (some t) =
      numToString (some (YearFromTime (LocalTime t))) ++ '-' ::
        (twoDigits (MonthFromTime (LocalTime t) + 1) ++ '-' ::
          twoDigits (DateFromTime (LocalTime t))) ∧
    Ced.getLocalDateString now (some t) = Old.getLocalDateString (some t) ∧
    (twoDigits (MonthFromTime (LocalTime t) + 1)).all isDecimalDigit = true ∧
    (twoDigits (DateFromTime (LocalTime t))).all isDecimalDigit = true ∧
    (1000 ≤ YearFromTime (LocalTime t) ∧ YearFromTime (LocalTime t) ≤ 9999 →
      Old.getLocalDateString (some t) =
        fourDigits (YearFromTime (LocalTime t)) ++ '-' ::
          (twoDigits (MonthFromTime (LocalTime t) + 1) ++ '-' ::
            twoDigits (DateFromTime (LocalTime t))) ∧
      (fourDigits (YearFromTime (LocalTime t))).all isDecimalDigit = true ∧
      (Old.getLocalDateString (some t)).length = 10 ∧
      (Ced.getLocalDateString now (some t)).length = 10) := by
  simp only [LocalTime_eq]
  have hm := MonthFromTime_bounds t
  have hd := DateFromTime_bounds t
  refine ⟨⟨by omega, by omega⟩, hd, old_getLocalDateString_some t,
    ced_getLocalDateString_some now t, twoDigits_isDigit _ (by omega) (by omega),
    twoDigits_isDigit _ (by omega) (by omega), ?_⟩
  rintro ⟨h0, h1⟩
  rw [ced_getLocalDateString_some, old_getLocalDateString_some,
    numToString_four _ h0 (by omega)]
  refine ⟨rfl, fourDigits_isDigit _ (by omega) (by omega), ?_, ?_⟩ <;>
    simp [fourDigits, twoDigits]

/-- Instance of C5: 5 November 2026 is rendered as `2026-11-05` by both variants. -/
theorem C5_witness :
    (1000 ≤ YearFromTime (LocalTime 1793882096789) ∧
      YearFromTime (LocalTime 1793882096789) ≤ 9999) ∧
    Old.getLocalDateString (some 1793882096789) = "2026-11-05".toList ∧
    Ced.getLocalDateString 0 (some 1793882096789) = "2026-11-05".toList ∧
    (Old.getLocalDateString (some 1793882096789)).length = 10 :=
  ⟨by decide, by decide, by decide,
   ((C5_getLocalDateString_format 0 1793882096789).2.2.2.2.2.2 (by decide)).2.2.1⟩

/-! ## Order of dates and order of their renderings -/

theorem fields_of_Day_eq (a b : Int) (h : Day a = Day b) :
    YearFromTime a = YearFromTime b ∧ MonthFromTime a = MonthFromTime b ∧
      DateFromTime a = DateFromTime b := by
  have hy : YearFromTime a = YearFromTime b := by unfold YearFromTime; rw [h]
  have hl : InLeapYear a = InLeapYear b := by unfold InLeapYear; rw [hy]
  have hw : DayWithinYear a = DayWithinYear b := by unfold DayWithinYear; rw [h, hy]
  have hm : MonthFromTime a = MonthFromTime b := by unfold MonthFromTime; rw [hw, hl]
  exact ⟨hy, hm, by unfold DateFromTime; rw [hw, hm, hl]⟩

theorem monthOfYearDay_mono (x y l : Int) (h : x ≤ y) :
    monthOfYearDay x l ≤ monthOfYearDay y l := by
  unfold monthOfYearDay
  iterate 11
    (refine ite_elim (fun m => m ≤ _) (fun _ => by omega) (fun _ => ?_))
  omega

/-- An earlier day has a lexicographically smaller (year, month, date) triple. -/
theorem civil_mono (a b : Int) (h : Day a ≤ Day b) :
    YearFromTime a < YearFromTime b ∨
    (YearFromTime a = YearFromTime b ∧
      (MonthFromTime a < MonthFromTime b ∨
        (MonthFromTime a = MonthFromTime b ∧ DateFromTime a ≤ DateFromTime b))) := by
  obtain ⟨a1, _⟩ := YearOfDay_spec (Day a)
  obtain ⟨_, b2⟩ := YearOfDay_spec (Day b)
  have hle : YearFromTime a ≤ YearFromTime b := by
    unfold YearFromTime
    by_contra hn
    have := DayFromYear_mono (show YearOfDay (Day b) + 1 ≤ YearOfDay (Day a) by omega)
    omega
  rcases lt_or_eq_of_le hle with hlt | heq
  · exact Or.inl hlt
  · refine Or.inr ⟨heq, ?_⟩
    have hl : InLeapYear a = InLeapYear b := by unfold InLeapYear; rw [heq]
    have hw : DayWithinYear a ≤ DayWithinYear b := by
      unfold DayWithinYear; rw [heq]; omega
    have hm : MonthFromTime a ≤ MonthFromTime b := by
      unfold MonthFromTime; rw [hl]; exact monthOfYearDay_mono _ _ _ hw
    rcases lt_or_eq_of_le hm with hmlt | hmeq
    · exact Or.inl hmlt
    · refine Or.inr ⟨hmeq, ?_⟩
      unfold DateFromTime
      rw [hmeq, hl]; omega

theorem strLt_digit (a b : Nat) (ha : a < 10) (hb : b < 10) (r s : Str) :
    strLt (Nat.digitChar a :: r) (Nat.digitChar b :: s) =
      if a < b then true else if b < a then false else strLt r s := by
  simp only [strLt, digitChar_toNat a ha, digitChar_toNat b hb, Nat.add_lt_add_iff_left]

theorem strLt_twoDigits (a b : Int) (ha0 : 0 ≤ a) (ha : a < 100) (hb0 : 0 ≤ b) (hb : b < 100)
    (r s : Str) :
    strLt (twoDigits a ++ r) (twoDigits b ++ s) =
      if a < b then true else if b < a then false else strLt r s := by
  simp only [twoDigits, List.cons_append, List.nil_append]
  rw [strLt_digit _ _ (by omega) (by omega), strLt_digit _ _ (by omega) (by omega)]
  by_cases h1 : (a / 10).toNat < (b / 10).toNat
  · rw [if_pos h1, if_pos (by omega)]
  · rw [if_neg h1]
    by_cases h2 : (b / 10).toNat < (a / 10).toNat
    · rw [if_pos h2, if_neg (by omega), if_pos (by omega)]
    · rw [if_neg h2]
      by_cases h3 : (a % 10).toNat < (b % 10).toNat
      · rw [if_pos h3, if_pos (by omega)]
      · rw [if_neg h3]
        by_cases h4 : (b % 10).toNat < (a % 10).toNat
        · rw [if_pos h4, if_neg (by omega), if_pos (by omega)]
        · rw [if_neg h4, if_neg (by omega), if_neg (by omega)]

theorem strLt_dash (r s : Str) : strLt ('-' :: r) ('-' :: s) = strLt r s := by
  simp [strLt]

theorem toDigitsCore_acc (f : Nat) : ∀ (n : Nat) (ds : List Char),
    Nat.toDigitsCore 10 f n ds = Nat.toDigitsCore 10 f n [] ++ ds := by
  induction f with
  | zero => intro n ds; simp [Nat.toDigitsCore]
  | succ f ih =>
    intro n ds
    rw [toDigitsCore_succ, toDigitsCore_succ]
    by_cases h : n / 10 = 0
    · simp [h]
    · rw [if_neg h, if_neg h, ih (n / 10) (Nat.digitChar (n % 10) :: ds),
        ih (n / 10) [Nat.digitChar (n % 10)]]
      simp

theorem toDigitsCore_fuel (f : Nat) : ∀ (g n : Nat), n < f → n < g →
    Nat.toDigitsCore 10 f n [] = Nat.toDigitsCore 10 g n [] := by
  induction f with
  | zero => intro g n h; omega
  | succ f ih =>
    intro g n hf hg
    obtain ⟨g', rfl⟩ : ∃ g', g = g' + 1 := ⟨g - 1, by omega⟩
    rw [toDigitsCore_succ, toDigitsCore_succ]
    by_cases h : n / 10 = 0
    · simp [h]
    · rw [if_neg h, if_neg h, toDigitsCore_acc f, toDigitsCore_acc g',
        ih g' (n / 10) (by omega) (by omega)]

/-- The decimal digits of `n ≥ 10` are those of `n / 10` followed by the last digit. -/
theorem toDigits_step (n : Nat) (h : 10 ≤ n) :
    Nat.toDigits 10 n = Nat.toDigits 10 (n / 10) ++ [Nat.digitChar (n % 10)] := by
  unfold Nat.toDigits
  rw [toDigitsCore_succ, if_neg (by omega), toDigitsCore_acc,
    toDigitsCore_fuel n (n / 10 + 1) (n / 10) (by omega) (by omega)]

theorem toDigits_length_pos (n : Nat) : 0 < (Nat.toDigits 10 n).length := by
  by_cases h : n < 10
  · rw [toDigits_one n h]; simp
  · rw [toDigits_step n (by omega)]; simp

/-- Decimal numerals with the same number of digits are ordered like the numbers. -/
theorem strLt_toDigits : ∀ (b a : Nat) (r s : Str),
    (Nat.toDigits 10 a).length = (Nat.toDigits 10 b).length →
    strLt (Nat.toDigits 10 a ++ r) (Nat.toDigits 10 b ++ s) =
      if a < b then true else if b < a then false else strLt r s := by
  intro b
  induction b using Nat.strong_induction_on with
  | _ b ih =>
    intro a r s hlen
    by_cases hb : b < 10
    · by_cases ha : a < 10
      · rw [toDigits_one a ha, toDigits_one b hb]
        exact strLt_digit a b ha hb r s
      · exfalso
        rw [toDigits_step a (by omega), toDigits_one b hb] at hlen
        have := toDigits_length_pos (a / 10)
        simp only [List.length_append, List.length_singleton, List.length_cons,
          List.length_nil] at hlen
        omega
    · by_cases ha : a < 10
      · exfalso
        rw [toDigits_step b (by omega), toDigits_one a ha] at hlen
        have := toDigits_length_pos (b / 10)
        simp only [List.length_append, List.length_singleton, List.length_cons,
          List.length_nil] at hlen
        omega
      · rw [toDigits_step a (by omega), toDigits_step b (by omega)] at hlen ⊢
        have hlen2 : (Nat.toDigits 10 (a / 10)).length = (Nat.toDigits 10 (b / 10)).length := by
          simpa using hlen
        rw [List.append_assoc, List.append_assoc, ih (b / 10) (by omega) (a / 10) _ _ hlen2]
        simp only [List.singleton_append]
        rw [strLt_digit _ _ (by omega) (by omega)]
        by_cases h1 : a / 10 < b / 10
        · rw [if_pos h1, if_pos (by omega)]
        · rw [if_neg h1]
          by_cases h2 : b / 10 < a / 10
          · rw [if_pos h2, if_neg (by omega), if_pos (by omega)]
          · rw [if_neg h2]
            by_cases h3 : a % 10 < b % 10
            · rw [if_pos h3, if_pos (by omega)]
            · rw [if_neg h3]
              by_cases h4 : b % 10 < a % 10
              · rw [if_pos h4, if_neg (by omega), if_pos (by omega)]
              · rw [if_neg h4, if_neg (by omega), if_neg (by omega)]

/-- Renderings `year-MM-DD` whose years have the same number of digits are ordered like
the (year, month, day) triples. -/
theorem strLe_ymd (y1 y2 : Nat) (m1 d1 m2 d2 : Int)
    (hlen : (Nat.toDigits 10 y1).length = (Nat.toDigits 10 y2).length)
    (hm1 : 0 ≤ m1 ∧ m1 < 100) (hm2 : 0 ≤ m2 ∧ m2 < 100)
    (hd1 : 0 ≤ d1 ∧ d1 < 100) (hd2 : 0 ≤ d2 ∧ d2 < 100)
    (h : y1 < y2 ∨ (y1 = y2 ∧ (m1 < m2 ∨ (m1 = m2 ∧ d1 ≤ d2)))) :
    strLe (Nat.toDigits 10 y1 ++ '-' :: (twoDigits m1 ++ '-' :: twoDigits d1))
      (Nat.toDigits 10 y2 ++ '-' :: (twoDigits m2 ++ '-' :: twoDigits d2)) = true := by
  unfold strLe
  rw [strLt_toDigits y1 y2 _ _ hlen.symm, strLt_dash,
    strLt_twoDigits _ _ hm2.1 hm2.2 hm1.1 hm1.2, strLt_dash]
  have e : ∀ x : Int, twoDigits x = twoDigits x ++ [] := fun x => by simp
  rw [e d2, e d1, strLt_twoDigits _ _ hd2.1 hd2.2 hd1.1 hd1.2]
  by_cases g1 : y2 < y1
  · exfalso; omega
  · rw [if_neg g1]
    by_cases g2 : y1 < y2
    · rw [if_pos g2]; rfl
    · rw [if_neg g2]
      by_cases g3 : m2 < m1
      · exfalso; omega
      · rw [if_neg g3]
        by_cases g4 : m1 < m2
        · rw [if_pos g4]; rfl
        · rw [if_neg g4, if_neg (by omega)]
          by_cases g5 : d1 < d2
          · rw [if_pos g5]; rfl
          · rw [if_neg g5]; rfl

theorem numToString_nonneg (y : Int) (h : 0 ≤ y) :
    numToString (some y) = Nat.toDigits 10 y.toNat := by
  simp only [numToString]
  rw [if_neg (by omega)]

/-- C4 (amended): in both variants, for every valid date `d` whose week's Sunday (`d` minus
`dayOfWeek(d)` days) is not before the earliest time value and falls in a non-negative year
with as many decimal digits as the year of `d` (as whenever both years lie in 1000..9999),
`getLocalDateString(getWeekStart(d))` is lexicographically less than or equal to
`getLocalDateString(d)`. -/
theorem C4_weekStart_string_le (σ : DateStore) (date : Ref) (now t : Int)
    (hd : σ.read date = some t) (hhi : t ≤ maxTime)
    (hw : -maxTime ≤ (Day (LocalTime t) - WeekDay (LocalTime t)) * msPerDay)
    (hy0 : 0 ≤ YearFromTime (LocalTime t - WeekDay (LocalTime t) * msPerDay))
    (hlen :
      (numToString (some (YearFromTime (LocalTime t - WeekDay (LocalTime t) * msPerDay)))).length
        = (numToString (some (YearFromTime (LocalTime t)))).length) :
    strLe
      (Ced.getLocalDateString now
        ((Ced.getWeekStart σ date).2.read (Ced.getWeekStart σ date).1))
      (Ced.getLocalDateString now (σ.read date)) = true ∧
    strLe
      (Old.getLocalDateString
        ((Old.getWeekStart σ date).2.read (Old.getWeekStart σ date).1))
      (Old.getLocalDateString (σ.read date)) = true := by
  simp only [LocalTime_eq] at hw hy0 hlen
  have hb := WeekDay_bounds t
  have h1 : 0 ≤ TimeWithinDay t ∧ TimeWithinDay t < msPerDay := by
    unfold TimeWithinDay msPerDay; omega
  have hDw : Day (t - WeekDay t * msPerDay) = Day t - WeekDay t := by
    unfold Day msPerDay; omega
  have hDc : Day ((Day t - WeekDay t) * msPerDay) = Day t - WeekDay t := by
    have := Day_MakeDate (Day t - WeekDay t) 0 (le_refl 0) (by decide)
    simpa [MakeDate] using this
  have hDo : Day ((Day t - WeekDay t) * msPerDay + TimeWithinDay t) = Day t - WeekDay t :=
    Day_MakeDate _ _ h1.1 h1.2
  have hmono := civil_mono (t - WeekDay t * msPerDay) t (by rw [hDw]; omega)
  have hyd0 : 0 ≤ YearFromTime t := by omega
  have hmt := MonthFromTime_bounds t
  have hdt := DateFromTime_bounds t
  have hmw := MonthFromTime_bounds (t - WeekDay t * msPerDay)
  have hdw := DateFromTime_bounds (t - WeekDay t * msPerDay)
  rw [ced_getWeekStart_value σ date t hd hhi hw,
    old_getWeekStart_value σ date t hd hhi (by omega), hd,
    ced_getLocalDateString_some, ced_getLocalDateString_some,
    old_getLocalDateString_some, old_getLocalDateString_some, old_getLocalDateString_some]
  obtain ⟨ey, em, ed⟩ := fields_of_Day_eq _ _ (hDc.trans hDw.symm)
  obtain ⟨fy, fm, fd⟩ := fields_of_Day_eq _ _ (hDo.trans hDw.symm)
  rw [ey, em, ed, fy, fm, fd]
  rw [numToString_nonneg _ hy0, numToString_nonneg _ hyd0] at hlen ⊢
  have key := strLe_ymd (YearFromTime (t - WeekDay t * msPerDay)).toNat
    (YearFromTime t).toNat
    (MonthFromTime (t - WeekDay t * msPerDay) + 1) (DateFromTime (t - WeekDay t * msPerDay))
    (MonthFromTime t + 1) (DateFromTime t) hlen
    ⟨by omega, by omega⟩ ⟨by omega, by omega⟩ ⟨by omega, by omega⟩ ⟨by omega, by omega⟩
    (by omega)
  exact ⟨key, key⟩

/-- Instance of C4: Wednesday 1 January 2025, whose week starts on 29 December 2024. -/
theorem C4_witness :
    (DateStore.read [some 1735689600000] 0 = some 1735689600000 ∧
      (1735689600000 : Int) ≤ maxTime ∧
      -maxTime ≤ (Day (LocalTime 1735689600000) - WeekDay (LocalTime 1735689600000))
        * msPerDay ∧
      0 ≤ YearFromTime (LocalTime 1735689600000
        - WeekDay (LocalTime 1735689600000) * msPerDay) ∧
      (numToString (some (YearFromTime (LocalTime 1735689600000
        - WeekDay (LocalTime 1735689600000) * msPerDay)))).length
        = (numToString (some (YearFromTime (LocalTime 1735689600000)))).length) ∧
    Ced.getLocalDateString 0 ((Ced.getWeekStart [some 1735689600000] 0).2.read
      (Ced.getWeekStart [some 1735689600000] 0).1) = "2024-12-29".toList ∧
    Ced.getLocalDateString 0 (DateStore.read [some 1735689600000] 0) = "2025-01-01".toList ∧
    strLe
      (Ced.getLocalDateString 0 ((Ced.getWeekStart [some 1735689600000] 0).2.read
        (Ced.getWeekStart [some 1735689600000] 0).1))
      (Ced.getLocalDateString 0 (DateStore.read [some 1735689600000] 0)) = true :=
  ⟨⟨rfl, by decide, by decide, by decide, by decide⟩, by decide, by decide,
   (C4_weekStart_string_le [some 1735689600000] 0 0 1735689600000 rfl (by decide)
     (by decide) (by decide) (by decide)).1⟩

/-- C4 as stated fails where the year loses a digit: Wednesday 1 January 1000 (time value
-30610224000000) is rendered `1000-01-01`, its week start `999-12-29`, and `9` sorts after
`1`. -/
theorem C4_counterexample :
    DateStore.read [some (-30610224000000)] 0 = some (-30610224000000) ∧
    -maxTime ≤ (-30610224000000 : Int) ∧ (-30610224000000 : Int) ≤ maxTime ∧
    Ced.getLocalDateString 0 (DateStore.read [some (-30610224000000)] 0)
      = "1000-01-01".toList ∧
    Ced.getLocalDateString 0 ((Ced.getWeekStart [some (-30610224000000)] 0).2.read
      (Ced.getWeekStart [some (-30610224000000)] 0).1) = "999-12-29".toList ∧
    strLe
      (Ced.getLocalDateString 0 ((Ced.getWeekStart [some (-30610224000000)] 0).2.read
        (Ced.getWeekStart [some (-30610224000000)] 0).1))
      (Ced.getLocalDateString 0 (DateStore.read [some (-30610224000000)] 0)) = false ∧
    strLe
      (Old.getLocalDateString ((Old.getWeekStart [some (-30610224000000)] 0).2.read
        (Old.getWeekStart [some (-30610224000000)] 0).1))
      (Old.getLocalDateString (DateStore.read [some (-30610224000000)] 0)) = false := by
  decide

/-! ## Splitting and parsing -/

theorem split_of_no_sep (sep : Char) (a : Str) (h : ∀ c ∈ a, c ≠ sep) :
    split a sep = [a] := by
  induction a with
  | nil => rfl
  | cons c cs ih =>
    have hc : c ≠ sep := h c (List.mem_cons_self _ _)
    have ih2 := ih (fun x hx => h x (List.mem_cons_of_mem _ hx))
    simp [split, hc, ih2]

theorem split_append (sep : Char) (a rest : Str) (h : ∀ c ∈ a, c ≠ sep) :
    split (a ++ sep :: rest) sep = a :: split rest sep := by
  induction a with
  | nil => simp [split]
  | cons c cs ih =>
    have hc : c ≠ sep := h c (List.mem_cons_self _ _)
    have ih2 := ih (fun x hx => h x (List.mem_cons_of_mem _ hx))
    simp [split, hc, ih2]

theorem isDecimalDigit_bounds (c : Char) (h : isDecimalDigit c = true) :
    48 ≤ c.toNat ∧ c.toNat ≤ 57 := by
  simpa [isDecimalDigit] using h

theorem not_whiteSpace_of_digit (c : Char) (h : isDecimalDigit c = true) :
    isWhiteSpace c = false := by
  have hb := isDecimalDigit_bounds c h
  simp only [isWhiteSpace, Bool.or_eq_false_iff, Bool.and_eq_false_imp, decide_eq_true_eq,
    decide_eq_false_iff_not, List.mem_cons, List.mem_singleton, List.not_mem_nil, or_false]
  omega

theorem ne_of_digit (c x : Char) (h : isDecimalDigit c = true)
    (hx : x.toNat < 48 ∨ 57 < x.toNat) : c ≠ x := by
  have hb := isDecimalDigit_bounds c h
  intro e
  subst e
  omega

theorem stripSign_of_digit (c : Char) (cs : Str) (h : isDecimalDigit c = true) :
    stripSign (c :: cs) = (1, c :: cs) := by
  have h1 : c ≠ '-' := ne_of_digit c '-' h (by decide)
  have h2 : c ≠ '+' := ne_of_digit c '+' h (by decide)
  unfold stripSign
  split
  · rename_i heq; simp at heq; exact absurd heq.1 h1
  · rename_i heq; simp at heq; exact absurd heq.1 h2
  · rfl

theorem trimStart_of_digit (c : Char) (cs : Str) (h : isDecimalDigit c = true) :
    trimStart (c :: cs) = c :: cs := by
  simp [trimStart, List.dropWhile, not_whiteSpace_of_digit c h]

theorem trimEnd_of_digits (ds : Str) (h : ds.all isDecimalDigit = true) : trimEnd ds = ds := by
  unfold trimEnd
  have : ds.reverse.dropWhile isWhiteSpace = ds.reverse := by
    cases hr : ds.reverse with
    | nil => rfl
    | cons c cs =>
      have hc : c ∈ ds := by
        have : c ∈ ds.reverse := by rw [hr]; exact List.mem_cons_self _ _
        simpa using this
      have hd : isDecimalDigit c = true := (List.all_eq_true.mp h) c hc
      simp [List.dropWhile, not_whiteSpace_of_digit c hd]
  rw [this, List.reverse_reverse]

/-- A non-empty run of decimal digits is read by `parseInt` as its value. -/
theorem parseInt_digits (ds : Str) (hne : ds ≠ []) (h : ds.all isDecimalDigit = true) :
    parseInt ds = some ((decimalValue ds : Nat) : Int) := by
  obtain ⟨c, cs, rfl⟩ := List.exists_cons_of_ne_nil hne
  have hc : isDecimalDigit c = true := (List.all_eq_true.mp h) c (List.mem_cons_self _ _)
  have ht : (c :: cs).takeWhile isDecimalDigit = c :: cs :=
    List.takeWhile_eq_self_iff.mpr (fun x hx => (List.all_eq_true.mp h) x hx)
  simp only [parseInt, trimStart_of_digit c cs hc, stripSign_of_digit c cs hc, ht]
  simp

/-- A non-empty run of decimal digits is converted by `Number` to its value. -/
theorem Number_digits (ds : Str) (hne : ds ≠ []) (h : ds.all isDecimalDigit = true) :
    Number ds = some ((decimalValue ds : Nat) : Int) := by
  obtain ⟨c, cs, rfl⟩ := List.exists_cons_of_ne_nil hne
  have hc : isDecimalDigit c = true := (List.all_eq_true.mp h) c (List.mem_cons_self _ _)
  have htr : trim (c :: cs) = c :: cs := by
    unfold trim
    rw [trimStart_of_digit c cs hc, trimEnd_of_digits _ h]
  simp only [Number, htr, stripSign_of_digit c cs hc]
  simp [h]

theorem digitValue_digitChar (a : Nat) (h : a < 10) : digitValue (Nat.digitChar a) = a := by
  unfold digitValue
  rw [digitChar_toNat a h]
  omega

theorem decimalValue_twoDigits (n : Int) (h0 : 0 ≤ n) (h : n < 100) :
    (decimalValue (twoDigits n) : Int) = n := by
  simp only [decimalValue, twoDigits, List.foldl]
  rw [digitValue_digitChar _ (by omega), digitValue_digitChar _ (by omega)]
  omega

theorem decimalValue_fourDigits (n : Int) (h0 : 0 ≤ n) (h : n < 10000) :
    (decimalValue (fourDigits n) : Int) = n := by
  simp only [decimalValue, fourDigits, List.foldl]
  rw [digitValue_digitChar _ (by omega), digitValue_digitChar _ (by omega),
    digitValue_digitChar _ (by omega), digitValue_digitChar _ (by omega)]
  omega

theorem parseInt_twoDigits (n : Int) (h0 : 0 ≤ n) (h : n < 100) :
    parseInt (twoDigits n) = some n := by
  rw [parseInt_digits _ (by simp [twoDigits]) (twoDigits_isDigit n h0 h),
    decimalValue_twoDigits n h0 h]

theorem parseInt_fourDigits (n : Int) (h0 : 0 ≤ n) (h : n < 10000) :
    parseInt (fourDigits n) = some n := by
  rw [parseInt_digits _ (by simp [fourDigits]) (fourDigits_isDigit n h0 h),
    decimalValue_fourDigits n h0 h]

theorem Number_twoDigits (n : Int) (h0 : 0 ≤ n) (h : n < 100) :
    Number (twoDigits n) = some n := by
  rw [Number_digits _ (by simp [twoDigits]) (twoDigits_isDigit n h0 h),
    decimalValue_twoDigits n h0 h]

theorem Number_fourDigits (n : Int) (h0 : 0 ≤ n) (h : n < 10000) :
    Number (fourDigits n) = some n := by
  rw [Number_digits _ (by simp [fourDigits]) (fourDigits_isDigit n h0 h),
    decimalValue_fourDigits n h0 h]

theorem digits_no_sep (ds : Str) (sep : Char) (h : ds.all isDecimalDigit = true)
    (hs : sep.toNat < 48 ∨ 57 < sep.toNat) : ∀ c ∈ ds, c ≠ sep :=
  fun c hc => ne_of_digit c sep ((List.all_eq_true.mp h) c hc) hs

/-! ## `formatTime12Hour` -/

theorem numToString_small (n : Int) (h0 : 0 ≤ n) (h : n < 100) :
    numToString (some n) =
      if n < 10 then [Nat.digitChar n.toNat] else twoDigits n := by
  obtain ⟨k, rfl⟩ := Int.eq_ofNat_of_zero_le h0
  simp only [numToString, twoDigits]
  rw [if_neg (by omega)]
  simp only [Int.toNat_ofNat]
  have e1 : ((k : Int) / 10).toNat = k / 10 := by omega
  have e2 : ((k : Int) % 10).toNat = k % 10 := by omega
  rw [e1, e2]
  by_cases h10 : k < 10
  · rw [toDigits_one k h10, if_pos (by omega)]
  · rw [toDigits_two k (by omega) (by omega), if_neg (by omega)]

theorem twoDigits_small (n : Int) (h0 : 0 ≤ n) (h : n < 10) :
    twoDigits n = '0' :: [Nat.digitChar n.toNat] := by
  have e1 : n / 10 = 0 := by omega
  have e2 : n % 10 = n := by omega
  simp only [twoDigits, e1, e2]
  rfl

/-- The string handed to `formatTime12Hour` for a zero-padded time is split at its colon
into the two digit pairs. -/
theorem split_time (h m : Int) (hh : 0 ≤ h ∧ h < 100) (hm : 0 ≤ m ∧ m < 100) :
    split (twoDigits h ++ ':' :: twoDigits m) ':' = [twoDigits h, twoDigits m] := by
  rw [split_append ':' _ _ (digits_no_sep _ ':' (twoDigits_isDigit h hh.1 hh.2)
      (Or.inr (by decide))),
    split_of_no_sep ':' _ (digits_no_sep _ ':' (twoDigits_isDigit m hm.1 hm.2)
      (Or.inr (by decide)))]

/-- The expression `hourNum % 12 || 12` for a non-negative hour. -/
theorem hour12_eq (h : Int) (h0 : 0 ≤ h) :
    (if numTruthy (numRem (some h) (some 12)) then numRem (some h) (some 12) else some 12) =
      some (if h % 12 = 0 then 12 else h % 12) := by
  have hrem : Int.tmod h 12 = h % 12 := Int.tmod_eq_emod h0 (by decide)
  have e : numRem (some h) (some 12) = some (h % 12) := by
    simp [numRem, hrem]
  rw [e]
  by_cases hz : h % 12 = 0
  · simp [numTruthy, hz]
  · simp [numTruthy, hz]

/-- C7: for every hour `h` in 0..23 and minute `m` in 0..59, `formatTime12Hour` applied to
the zero-padded string `HH:MM` returns the 12-hour hour without leading zero (12 when
`h mod 12 = 0`), a colon, the minute as two digits, a space and `AM` when `h < 12`, `PM`
otherwise; `00:00`, `13:05` and `14:30` give `12:00 AM`, `1:05 PM` and `2:30 PM`. -/
theorem C7_formatTime12Hour (h m : Int) (hh : 0 ≤ h ∧ h < 24) (hm : 0 ≤ m ∧ m < 60) :
    Ced.formatTime12Hour (twoDigits h ++ ':' :: twoDigits m) =
      (if (if h % 12 = 0 then 12 else h % 12) < 10
        then [Nat.digitChar (if h % 12 = 0 then 12 else h % 12).toNat]
        else twoDigits (if h % 12 = 0 then 12 else h % 12)) ++
      ':' :: (twoDigits m ++ ' ' :: (if h < 12 then "AM".toList else "PM".toList)) ∧
    Ced.formatTime12Hour "00:00".toList = "12:00 AM".toList ∧
    Ced.formatTime12Hour "13:05".toList = "1:05 PM".toList ∧
    Ced.formatTime12Hour "14:30".toList = "2:30 PM".toList := by
  refine ⟨?_, by decide, by decide, by decide⟩
  have hne : ¬ (twoDigits h ++ ':' :: twoDigits m = [] ∨
      ¬ includes (twoDigits h ++ ':' :: twoDigits m) ':' = true) := by
    simp [twoDigits, includes]
  unfold Ced.formatTime12Hour
  rw [if_neg hne]
  simp only [split_time h m ⟨hh.1, by omega⟩ ⟨hm.1, by omega⟩, List.getD_cons_zero,
    List.getD_cons_succ, parseInt_twoDigits h hh.1 (by omega),
    parseInt_twoDigits m hm.1 (by omega), hour12_eq h hh.1]
  have hmin : (if numLt (some m) (some 10) = true then "0".toList ++ numToString (some m)
      else numToString (some m)) = twoDigits m := by
    rw [numToString_small m hm.1 (by omega)]
    by_cases h10 : m < 10
    · simp only [numLt, h10, decide_True, if_true]
      rw [twoDigits_small m hm.1 h10]; rfl
    · simp only [numLt, h10, decide_False, if_false]; simp
  have hampm : (if numGe (some h) (some 12) = true then "PM".toList else "AM".toList)
      = (if h < 12 then "AM".toList else "PM".toList) := by
    by_cases h12 : h < 12
    · rw [if_pos h12, if_neg (by simpa [numGe] using h12)]
    · rw [if_neg h12, if_pos (by simpa [numGe] using h12)]
  have hhour : numToString (some (if h % 12 = 0 then 12 else h % 12))
      = (if (if h % 12 = 0 then 12 else h % 12) < 10
        then [Nat.digitChar (if h % 12 = 0 then 12 else h % 12).toNat]
        else twoDigits (if h % 12 = 0 then 12 else h % 12)) :=
    numToString_small _ (by split <;> omega) (by split <;> omega)
  rw [hmin, hampm, hhour]
  simp

/-- Instance of C7: `23:59` gives `11:59 PM`. -/
theorem C7_witness :
    ((0 : Int) ≤ 23 ∧ (23 : Int) < 24) ∧ ((0 : Int) ≤ 59 ∧ (59 : Int) < 60) ∧
    twoDigits 23 ++ ':' :: twoDigits 59 = "23:59".toList ∧
    Ced.formatTime12Hour (twoDigits 23 ++ ':' :: twoDigits 59) = "11:59 PM".toList :=
  ⟨by decide, by decide, by decide,
   (C7_formatTime12Hour 23 59 (by decide) (by decide)).1.trans (by decide)⟩

/-- C8 (failing input): a string with a colon but without numbers is not returned
unchanged: `ab:cd` becomes `12:NaN AM`, and the out-of-range `25:99` becomes `1:99 PM`;
only the empty string and strings without a colon come back as they are. -/
theorem C8_formatTime12Hour_malformed :
    Ced.formatTime12Hour "ab:cd".toList = "12:NaN AM".toList ∧
    Ced.formatTime12Hour "ab:cd".toList ≠ "ab:cd".toList ∧
    Ced.formatTime12Hour "25:99".toList = "1:99 PM".toList ∧
    Ced.formatTime12Hour "".toList = "".toList ∧
    Ced.formatTime12Hour "1430".toList = "1430".toList := by
  decide

/-! ## Sections of the detail panel -/

theorem sectionOf_none (title : Str) (pre : List Block)
    (h : ∀ b ∈ pre, b ≠ Block.heading title) : sectionOf title pre = [] := by
  induction pre with
  | nil => rfl
  | cons b bs ih =>
    have hb : b ≠ Block.heading title := h b (List.mem_cons_self _ _)
    simp only [sectionOf, hb, if_false]
    exact ih (fun x hx => h x (List.mem_cons_of_mem _ hx))

theorem sectionOf_skip (title : Str) (pre rest : List Block)
    (h : ∀ b ∈ pre, b ≠ Block.heading title) :
    sectionOf title (pre ++ rest) = sectionOf title rest := by
  induction pre with
  | nil => rfl
  | cons b bs ih =>
    have hb : b ≠ Block.heading title := h b (List.mem_cons_self _ _)
    simp only [List.cons_append, sectionOf, hb, if_false]
    exact ih (fun x hx => h x (List.mem_cons_of_mem _ hx))

theorem takeWhile_lines (lines rest : List Block)
    (hl : ∀ b ∈ lines, b.isHeading = false)
    (hr : rest = [] ∨ ∃ t more, rest = Block.heading t :: more) :
    (lines ++ rest).takeWhile (fun x => !x.isHeading) = lines := by
  induction lines with
  | nil =>
    rcases hr with rfl | ⟨t, more, rfl⟩
    · rfl
    · simp [List.takeWhile_cons, Block.isHeading]
  | cons b bs ih =>
    have hb : b.isHeading = false := hl b (List.mem_cons_self _ _)
    rw [List.cons_append, List.takeWhile_cons, hb, Bool.not_false, if_pos rfl,
      ih (fun x hx => hl x (List.mem_cons_of_mem _ hx))]

/-- A section found after blocks that do not carry its title consists of the lines up to
the next heading. -/
theorem sectionOf_found (title : Str) (pre lines rest : List Block)
    (h : ∀ b ∈ pre, b ≠ Block.heading title)
    (hl : ∀ b ∈ lines, b.isHeading = false)
    (hr : rest = [] ∨ ∃ t more, rest = Block.heading t :: more) :
    sectionOf title (pre ++ Block.heading title :: (lines ++ rest)) = lines := by
  rw [sectionOf_skip title pre _ h]
  simp only [sectionOf, if_true]
  exact takeWhile_lines lines rest hl hr

/-! ## `handleDayClick` -/

theorem Day_bounds_of_year (t : Int) (h0 : 1000 ≤ YearFromTime t) (h1 : YearFromTime t ≤ 9999) :
    -354285 ≤ Day t ∧ Day t < 2932897 := by
  obtain ⟨s1, s2⟩ := YearOfDay_spec (Day t)
  have m1 := DayFromYear_mono h0
  have m2 := DayFromYear_mono (show YearFromTime t + 1 ≤ 10000 by omega)
  have c1 : DayFromYear 1000 = -354285 := by decide
  have c2 : DayFromYear 10000 = 2932897 := by decide
  unfold YearFromTime at m1 m2
  omega

/-- Rebuilding a date from its own year, month and day of the month with
`new Date(year, month, day)` gives local midnight of the same day. -/
theorem ofYMD_fields (t : Int) (h0 : 1000 ≤ YearFromTime t) (h1 : YearFromTime t ≤ 9999) :
    JSDate.ofYMD (some (YearFromTime t)) (some (MonthFromTime t)) (some (DateFromTime t)) =
      some (Day t * msPerDay) := by
  have hb := Day_bounds_of_year t h0 h1
  have hs := MakeDay_shift t 0
  rw [sub_zero, sub_zero] at hs
  simp only [JSDate.ofYMD, UTC, LocalTZA, sub_zero, MakeTime, MakeDate, zero_mul, add_zero]
  rw [if_neg (by omega), hs]
  unfold TimeClip
  rw [if_neg]
  unfold maxTime msPerDay
  omega

theorem old_updateSelectors_store (s s' : AppState) (h : Old.updateSelectors s = some s') :
    s'.store = s.store ∧ s'.selectedDate = s.selectedDate := by
  unfold Old.updateSelectors at h
  simp only [Option.map_eq_some'] at h
  obtain ⟨ys, _, rfl⟩ := h
  exact ⟨rfl, rfl⟩

theorem ced_updateSelectors_store (s s' : AppState) (h : Ced.updateSelectors s = some s') :
    s'.store = s.store ∧ s'.selectedDate = s.selectedDate := by
  unfold Ced.updateSelectors at h
  simp only [Option.map_eq_some'] at h
  obtain ⟨ys, _, rfl⟩ := h
  exact ⟨rfl, rfl⟩

/-- The older click handler allocates the parsed date and makes it the selection; the
drop-downs and the panel do not touch the heap. -/
theorem old_handleDayClick_selected (s : AppState) (element : Nat) (dateString : Str) :
    (Old.handleDayClick s element dateString).store.read
        (Old.handleDayClick s element dateString).selectedDate =
      JSDate.ofYMD (((split dateString '-').map parseInt).getD 0 none)
        (numSub (((split dateString '-').map parseInt).getD 1 none) (some 1))
        (((split dateString '-').map parseInt).getD 2 none) := by
  unfold Old.handleDayClick
  simp only []
  generalize hs1 : ({ s with
      store := (s.store.alloc _).2, selectedDate := (s.store.alloc _).1,
      cards := _ } : AppState) = s1
  have e1 : s1.store.read s1.selectedDate = JSDate.ofYMD
      (((split dateString '-').map parseInt).getD 0 none)
      (numSub (((split dateString '-').map parseInt).getD 1 none) (some 1))
      (((split dateString '-').map parseInt).getD 2 none) := by
    rw [← hs1]; exact read_alloc_new _ _
  cases hu : Old.updateSelectors s1 with
  | none => simpa [orAbort] using e1
  | some s2 =>
    obtain ⟨a, b⟩ := old_updateSelectors_store s1 s2 hu
    simp only [orAbort, Option.map_some', Option.getD_some, Old.displayDayDetails]
    rw [a, b]; exact e1

/-- The newer click handler allocates the parsed date and makes it the selection. -/
theorem ced_handleDayClick_selected (now : Int) (lc : Str → Str → Int) (s : AppState)
    (element : Nat) (dateString : Str) :
    (Ced.handleDayClick now lc s element dateString).store.read
        (Ced.handleDayClick now lc s element dateString).selectedDate =
      JSDate.ofYMD (((split dateString '-').map Number).getD 0 none)
        (numSub (((split dateString '-').map Number).getD 1 none) (some 1))
        (((split dateString '-').map Number).getD 2 none) := by
  unfold Ced.handleDayClick
  simp only []
  generalize hs1 : ({ s with
      store := (s.store.alloc _).2, selectedDate := (s.store.alloc _).1,
      cards := _ } : AppState) = s1
  have e1 : s1.store.read s1.selectedDate = JSDate.ofYMD
      (((split dateString '-').map Number).getD 0 none)
      (numSub (((split dateString '-').map Number).getD 1 none) (some 1))
      (((split dateString '-').map Number).getD 2 none) := by
    rw [← hs1]; exact read_alloc_new _ _
  cases hu : Ced.updateSelectors s1 with
  | none => simpa [orAbort] using e1
  | some s2 =>
    obtain ⟨a, b⟩ := ced_updateSelectors_store s1 s2 hu
    simp only [orAbort, Option.map_some', Option.getD_some, Ced.displayDayDetails]
    rw [a, b]; exact e1

/-- A rendered four-digit-year date string splits at its dashes into year, month, day. -/
theorem split_date (y m d : Int) (hy : 0 ≤ y ∧ y < 10000) (hm : 0 ≤ m ∧ m < 100)
    (hd : 0 ≤ d ∧ d < 100) :
    split (fourDigits y ++ '-' :: (twoDigits m ++ '-' :: twoDigits d)) '-' =
      [fourDigits y, twoDigits m, twoDigits d] := by
  rw [split_append '-' _ _ (digits_no_sep _ '-' (fourDigits_isDigit y hy.1 hy.2)
      (Or.inl (by decide))),
    split_append '-' _ _ (digits_no_sep _ '-' (twoDigits_isDigit m hm.1 hm.2)
      (Or.inl (by decide))),
    split_of_no_sep '-' _ (digits_no_sep _ '-' (twoDigits_isDigit d hd.1 hd.2)
      (Or.inl (by decide)))]

/-- C6: for every date `d` with a four-digit year (1000..9999), `handleDayClick` called with
the string `getLocalDateString(d)` leaves `selectedDate` on a valid date with the same local
year, month and day as `d`, whose `getLocalDateString` is the string that was clicked; this
holds in both variants, for any page state and clicked card. -/
theorem C6_handleDayClick_roundtrip (now : Int) (localeCompare : Str → Str → Int)
    (s : AppState) (element : Nat) (t : Int)
    (hy : 1000 ≤ YearFromTime (LocalTime t) ∧ YearFromTime (LocalTime t) ≤ 9999) :
    (∃ u : Int,
      (Ced.handleDayClick now localeCompare s element
          (Ced.getLocalDateString now (some t))).store.read
        (Ced.handleDayClick now localeCompare s element
          (Ced.getLocalDateString now (some t))).selectedDate = some u ∧
      YearFromTime (LocalTime u) = YearFromTime (LocalTime t) ∧
      MonthFromTime (LocalTime u) = MonthFromTime (LocalTime t) ∧
      DateFromTime (LocalTime u) = DateFromTime (LocalTime t) ∧
      Ced.getLocalDateString now (some u) = Ced.getLocalDateString now (some t)) ∧
    (∃ u : Int,
      (Old.handleDayClick s element (Old.getLocalDateString (some t))).store.read
        (Old.handleDayClick s element (Old.getLocalDateString (some t))).selectedDate
          = some u ∧
      YearFromTime (LocalTime u) = YearFromTime (LocalTime t) ∧
      MonthFromTime (LocalTime u) = MonthFromTime (LocalTime t) ∧
      DateFromTime (LocalTime u) = DateFromTime (LocalTime t) ∧
      Old.getLocalDateString (some u) = Old.getLocalDateString (some t)) := by
  simp only [LocalTime_eq] at *
  have hm := MonthFromTime_bounds t
  have hd := DateFromTime_bounds t
  have hD : Day (Day t * msPerDay) = Day t := by
    have := Day_MakeDate (Day t) 0 (le_refl 0) (by decide)
    simpa [MakeDate] using this
  obtain ⟨ey, em, ed⟩ := fields_of_Day_eq _ _ hD
  have hstr : Old.getLocalDateString (some (Day t * msPerDay)) =
      Old.getLocalDateString (some t) := by
    rw [old_getLocalDateString_some, old_getLocalDateString_some, ey, em, ed]
  have hfmt : Old.getLocalDateString (some t) =
      fourDigits (YearFromTime t) ++ '-' ::
        (twoDigits (MonthFromTime t + 1) ++ '-' :: twoDigits (DateFromTime t)) := by
    rw [old_getLocalDateString_some, numToString_four _ hy.1 (by omega)]
  have hsplit := split_date (YearFromTime t) (MonthFromTime t + 1) (DateFromTime t)
    ⟨by omega, by omega⟩ ⟨by omega, by omega⟩ ⟨by omega, by omega⟩
  have hsub : numSub (some (MonthFromTime t + 1)) (some 1) = some (MonthFromTime t) := by
    simp [numSub]
  refine ⟨⟨Day t * msPerDay, ?_, ey, em, ed, ?_⟩, ⟨Day t * msPerDay, ?_, ey, em, ed, hstr⟩⟩
  · rw [ced_handleDayClick_selected, ced_getLocalDateString_some, hfmt, hsplit]
    simp only [List.map_cons, List.map_nil, List.getD_cons_zero, List.getD_cons_succ,
      Number_fourDigits _ (show (0 : Int) ≤ YearFromTime t by omega) (by omega),
      Number_twoDigits _ (show (0 : Int) ≤ MonthFromTime t + 1 by omega) (by omega),
      Number_twoDigits _ (show (0 : Int) ≤ DateFromTime t by omega) (by omega), hsub]
    exact ofYMD_fields t hy.1 hy.2
  · rw [ced_getLocalDateString_some, ced_getLocalDateString_some, hstr]
  · rw [old_handleDayClick_selected, hfmt, hsplit]
    simp only [List.map_cons, List.map_nil, List.getD_cons_zero, List.getD_cons_succ,
      parseInt_fourDigits _ (show (0 : Int) ≤ YearFromTime t by omega) (by omega),
      parseInt_twoDigits _ (show (0 : Int) ≤ MonthFromTime t + 1 by omega) (by omega),
      parseInt_twoDigits _ (show (0 : Int) ≤ DateFromTime t by omega) (by omega), hsub]
    exact ofYMD_fields t hy.1 hy.2

/-- Instance of C6: clicking the card of 15 November 2025 on the sample page. -/
theorem C6_witness :
    (1000 ≤ YearFromTime (LocalTime 1763164800000) ∧
      YearFromTime (LocalTime 1763164800000) ≤ 9999) ∧
    Ced.getLocalDateString 0 (some 1763164800000) = "2025-11-15".toList ∧
    ∃ u : Int,
      (Ced.handleDayClick 0 codeUnitCompare (samplePage (some 1762646400000)) 6
          (Ced.getLocalDateString 0 (some 1763164800000))).store.read
        (Ced.handleDayClick 0 codeUnitCompare (samplePage (some 1762646400000)) 6
          (Ced.getLocalDateString 0 (some 1763164800000))).selectedDate = some u ∧
      YearFromTime (LocalTime u) = YearFromTime (LocalTime 1763164800000) ∧
      MonthFromTime (LocalTime u) = MonthFromTime (LocalTime 1763164800000) ∧
      DateFromTime (LocalTime u) = DateFromTime (LocalTime 1763164800000) ∧
      Ced.getLocalDateString 0 (some u) = Ced.getLocalDateString 0 (some 1763164800000) :=
  ⟨by decide, by decide,
   (C6_handleDayClick_roundtrip 0 codeUnitCompare (samplePage (some 1762646400000)) 6
      1763164800000 (by decide)).1⟩

/-! ## The blocks written by `displayDayDetails` -/

theorem ne_heading_of_line (title : Str) (b : Block) (h : b.isHeading = false) :
    b ≠ Block.heading title := by
  intro e
  rw [e] at h
  simp [Block.isHeading] at h

theorem lines_of_map {α : Type} (f : α → Block) (l : List α)
    (hf : ∀ x, (f x).isHeading = false) : ∀ b ∈ l.map f, b.isHeading = false := by
  intro b hb
  obtain ⟨x, _, rfl⟩ := List.mem_map.mp hb
  exact hf x

/-- A section with another title holds no heading with the title looked for. -/
theorem ne_heading_part (title t : Str) (ht : t ≠ title) (lines : List Block)
    (hl : ∀ b ∈ lines, b.isHeading = false) (c : Prop) [Decidable c] :
    ∀ b ∈ (if c then [] else Block.heading t :: lines), b ≠ Block.heading title := by
  intro b hb
  split at hb
  · simp at hb
  · rcases List.mem_cons.mp hb with rfl | hm
    · intro e; exact ht (Block.heading.inj e)
    · exact ne_heading_of_line title b (hl b hm)

theorem ne_heading_tail (title text : Str) (c : Prop) [Decidable c] :
    ∀ b ∈ (if c then [Block.placeholder text] else []), b ≠ Block.heading title := by
  intro b hb
  split at hb
  · rcases List.mem_singleton.mp hb with rfl
    exact ne_heading_of_line title _ rfl
  · simp at hb

theorem ne_heading_header (title a b : Str) :
    ∀ x ∈ [Block.header a b], x ≠ Block.heading title := by
  intro x hx
  rcases List.mem_singleton.mp hx with rfl
  exact ne_heading_of_line _ _ rfl

theorem ne_heading_append (title : Str) (l1 l2 : List Block)
    (h1 : ∀ b ∈ l1, b ≠ Block.heading title) (h2 : ∀ b ∈ l2, b ≠ Block.heading title) :
    ∀ b ∈ l1 ++ l2, b ≠ Block.heading title := by
  intro b hb
  rcases List.mem_append.mp hb with hb | hb
  · exact h1 b hb
  · exact h2 b hb

theorem part_nil_or_heading (t : Str) (lines : List Block) (c : Prop) [Decidable c] :
    (if c then [] else Block.heading t :: lines) = [] ∨
      ∃ t2 more, (if c then [] else Block.heading t :: lines) = Block.heading t2 :: more := by
  split
  · exact Or.inl rfl
  · exact Or.inr ⟨t, lines, rfl⟩

/-- The blocks written by the older `displayDayDetails`, section by section. -/
theorem old_displayDayDetails_box (s : AppState) :
    (Old.displayDayDetails s).detailsBox =
      [Block.header (weekdayLong (s.store.read s.selectedDate))
        (shortDate (s.store.read s.selectedDate))] ++
      ((if classesToday s.scheduleData (weekdayLong (s.store.read s.selectedDate)) = []
        then []
        else Block.heading "Classes".toList ::
          (classesToday s.scheduleData (weekdayLong (s.store.read s.selectedDate))).map
            fun item => Block.classLine item.subject item.start_time item.end_time) ++
      ((if tasksToday s.scheduleData (Old.getLocalDateString (s.store.read s.selectedDate))
          = [] then []
        else Block.heading "Tasks Due".toList ::
          (tasksToday s.scheduleData
            (Old.getLocalDateString (s.store.read s.selectedDate))).map
              fun item => Block.taskLine item.name item.task_type (item.deadline.getD [])) ++
      ((if testsToday s.scheduleData (Old.getLocalDateString (s.store.read s.selectedDate))
          = [] then []
        else Block.heading "Tests/Quizzes".toList ::
          (testsToday s.scheduleData
            (Old.getLocalDateString (s.store.read s.selectedDate))).map
              fun item => Block.testLine item.name item.test_type) ++
      (if classesToday s.scheduleData (weekdayLong (s.store.read s.selectedDate)) = [] ∧
          tasksToday s.scheduleData (Old.getLocalDateString (s.store.read s.selectedDate))
            = [] ∧
          testsToday s.scheduleData (Old.getLocalDateString (s.store.read s.selectedDate))
            = []
        then [Block.placeholder
          "No schedule for this day. Chat with me to add a class, task, or test!".toList]
        else [])))) := by
  unfold Old.displayDayDetails
  simp only []
  generalize classesToday s.scheduleData (weekdayLong (s.store.read s.selectedDate)) = cs
  generalize tasksToday s.scheduleData
    (Old.getLocalDateString (s.store.read s.selectedDate)) = ts
  generalize testsToday s.scheduleData
    (Old.getLocalDateString (s.store.read s.selectedDate)) = qs
  rcases cs with _ | ⟨c, cs⟩ <;> rcases ts with _ | ⟨t, ts⟩ <;> rcases qs with _ | ⟨q, qs⟩ <;>
    simp

/-- The blocks written by the newer `displayDayDetails`, section by section. -/
theorem ced_displayDayDetails_box (now : Int) (lc : Str → Str → Int) (s : AppState) :
    (Ced.displayDayDetails now lc s).detailsBox =
      [Block.header (weekdayLong (s.store.read s.selectedDate))
        (shortDate (s.store.read s.selectedDate))] ++
      ((if generatedPlanToday s.scheduleData
          (Ced.getLocalDateString now (s.store.read s.selectedDate)) = [] then []
        else Block.heading "My Study Plan".toList ::
          (Ced.sortBy (fun a b => lc a.start_time b.start_time)
            (generatedPlanToday s.scheduleData
              (Ced.getLocalDateString now (s.store.read s.selectedDate)))).map
            fun item => Block.planLine item.task (Ced.formatTime12Hour item.start_time)
              (Ced.formatTime12Hour item.end_time)) ++
      ((if classesToday s.scheduleData (weekdayLong (s.store.read s.selectedDate)) = []
        then []
        else Block.heading "Classes".toList ::
          (classesToday s.scheduleData (weekdayLong (s.store.read s.selectedDate))).map
            fun item => Block.classLine item.subject (Ced.formatTime12Hour item.start_time)
              (Ced.formatTime12Hour item.end_time)) ++
      ((if tasksToday s.scheduleData
          (Ced.getLocalDateString now (s.store.read s.selectedDate)) = [] then []
        else Block.heading "Tasks Due".toList ::
          (tasksToday s.scheduleData
            (Ced.getLocalDateString now (s.store.read s.selectedDate))).map
              fun item => Block.taskLine item.name item.task_type (item.deadline.getD [])) ++
      ((if testsToday s.scheduleData
          (Ced.getLocalDateString now (s.store.read s.selectedDate)) = [] then []
        else Block.heading "Tests/Quizzes".toList ::
          (testsToday s.scheduleData
            (Ced.getLocalDateString now (s.store.read s.selectedDate))).map
              fun item => Block.testLine item.name item.test_type) ++
      (if generatedPlanToday s.scheduleData
            (Ced.getLocalDateString now (s.store.read s.selectedDate)) = [] ∧
          classesToday s.scheduleData (weekdayLong (s.store.read s.selectedDate)) = [] ∧
          tasksToday s.scheduleData
            (Ced.getLocalDateString now (s.store.read s.selectedDate)) = [] ∧
          testsToday s.scheduleData
            (Ced.getLocalDateString now (s.store.read s.selectedDate)) = []
        then [Block.placeholder
          "No schedule for this day. Chat with me to add items!".toList]
        else []))))) := by
  unfold Ced.displayDayDetails
  simp only []
  generalize generatedPlanToday s.scheduleData
    (Ced.getLocalDateString now (s.store.read s.selectedDate)) = ps
  generalize classesToday s.scheduleData (weekdayLong (s.store.read s.selectedDate)) = cs
  generalize tasksToday s.scheduleData
    (Ced.getLocalDateString now (s.store.read s.selectedDate)) = ts
  generalize testsToday s.scheduleData
    (Ced.getLocalDateString now (s.store.read s.selectedDate)) = qs
  rcases ps with _ | ⟨p, ps⟩ <;> rcases cs with _ | ⟨c, cs⟩ <;>
    rcases ts with _ | ⟨t, ts⟩ <;> rcases qs with _ | ⟨q, qs⟩ <;> simp

/-- Reading one section back: after blocks without its heading, a section written as
"heading and lines, unless there are no lines" is read back as exactly those lines, provided
what follows starts a new section or is empty. -/
theorem sectionOf_part {α : Type} (title : Str) (pre rest : List Block) (l : List α)
    (f : α → Block) (c : Prop) [Decidable c] (hc : c ↔ l = [])
    (hf : ∀ x, (f x).isHeading = false)
    (hpre : ∀ b ∈ pre, b ≠ Block.heading title)
    (hnone : ∀ b ∈ rest, b ≠ Block.heading title)
    (hrest : l ≠ [] → (rest = [] ∨ ∃ t more, rest = Block.heading t :: more)) :
    sectionOf title (pre ++ ((if c then [] else Block.heading title :: l.map f) ++ rest))
      = l.map f := by
  rw [sectionOf_skip title pre _ hpre]
  rcases l with _ | ⟨x, xs⟩
  · rw [if_pos (hc.mpr rfl), List.nil_append]
    exact sectionOf_none title rest hnone
  · rw [if_neg (fun h => by simpa using hc.mp h), List.cons_append]
    have := sectionOf_found title [] ((x :: xs).map f) rest (by simp)
      (lines_of_map f _ hf) (hrest (by simp))
    simpa using this

theorem ne_heading_part_map {α : Type} (title t : Str) (ht : t ≠ title) (l : List α)
    (f : α → Block) (hf : ∀ x, (f x).isHeading = false) (c : Prop) [Decidable c] :
    ∀ b ∈ (if c then [] else Block.heading t :: l.map f), b ≠ Block.heading title :=
  ne_heading_part title t ht _ (lines_of_map f l hf) c

theorem old_tests_section (s : AppState) :
    sectionOf "Tests/Quizzes".toList (Old.displayDayDetails s).detailsBox =
      (testsToday s.scheduleData (Old.getLocalDateString (s.store.read s.selectedDate))).map
        fun item => Block.testLine item.name item.test_type := by
  rw [old_displayDayDetails_box]
  have := sectionOf_part "Tests/Quizzes".toList
    ([Block.header (weekdayLong (s.store.read s.selectedDate))
        (shortDate (s.store.read s.selectedDate))] ++
      ((if classesToday s.scheduleData (weekdayLong (s.store.read s.selectedDate)) = []
        then []
        else Block.heading "Classes".toList ::
          (classesToday s.scheduleData (weekdayLong (s.store.read s.selectedDate))).map
            fun item => Block.classLine item.subject item.start_time item.end_time) ++
      (if tasksToday s.scheduleData (Old.getLocalDateString (s.store.read s.selectedDate))
          = [] then []
        else Block.heading "Tasks Due".toList ::
          (tasksToday s.scheduleData
            (Old.getLocalDateString (s.store.read s.selectedDate))).map
              fun item => Block.taskLine item.name item.task_type (item.deadline.getD []))))
    (if classesToday s.scheduleData (weekdayLong (s.store.read s.selectedDate)) = [] ∧
          tasksToday s.scheduleData (Old.getLocalDateString (s.store.read s.selectedDate))
            = [] ∧
          testsToday s.scheduleData (Old.getLocalDateString (s.store.read s.selectedDate))
            = []
        then [Block.placeholder
          "No schedule for this day. Chat with me to add a class, task, or test!".toList]
        else [])
    (testsToday s.scheduleData (Old.getLocalDateString (s.store.read s.selectedDate)))
    (fun item => Block.testLine item.name item.test_type) _ Iff.rfl (fun _ => rfl)
    (ne_heading_append _ _ _ (ne_heading_header _ _ _)
      (ne_heading_append _ _ _
        (ne_heading_part_map _ _ (by decide) _ _ (by intro; rfl) _)
        (ne_heading_part_map _ _ (by decide) _ _ (by intro; rfl) _)))
    (ne_heading_tail _ _ _)
    (fun hl => Or.inl (if_neg (fun h => hl h.2.2)))
  simpa only [List.append_assoc] using this

theorem old_tasks_section (s : AppState) :
    sectionOf "Tasks Due".toList (Old.displayDayDetails s).detailsBox =
      (tasksToday s.scheduleData (Old.getLocalDateString (s.store.read s.selectedDate))).map
        fun item => Block.taskLine item.name item.task_type (item.deadline.getD []) := by
  rw [old_displayDayDetails_box]
  have := sectionOf_part "Tasks Due".toList
    ([Block.header (weekdayLong (s.store.read s.selectedDate))
        (shortDate (s.store.read s.selectedDate))] ++
      (if classesToday s.scheduleData (weekdayLong (s.store.read s.selectedDate)) = []
        then []
        else Block.heading "Classes".toList ::
          (classesToday s.scheduleData (weekdayLong (s.store.read s.selectedDate))).map
            fun item => Block.classLine item.subject item.start_time item.end_time))
    ((if testsToday s.scheduleData (Old.getLocalDateString (s.store.read s.selectedDate))
          = [] then []
        else Block.heading "Tests/Quizzes".toList ::
          (testsToday s.scheduleData
            (Old.getLocalDateString (s.store.read s.selectedDate))).map
              fun item => Block.testLine item.name item.test_type) ++
      (if classesToday s.scheduleData (weekdayLong (s.store.read s.selectedDate)) = [] ∧
          tasksToday s.scheduleData (Old.getLocalDateString (s.store.read s.selectedDate))
            = [] ∧
          testsToday s.scheduleData (Old.getLocalDateString (s.store.read s.selectedDate))
            = []
        then [Block.placeholder
          "No schedule for this day. Chat with me to add a class, task, or test!".toList]
        else []))
    (tasksToday s.scheduleData (Old.getLocalDateString (s.store.read s.selectedDate)))
    (fun item => Block.taskLine item.name item.task_type (item.deadline.getD []))
    _ Iff.rfl (fun _ => rfl)
    (ne_heading_append _ _ _ (ne_heading_header _ _ _)
      (ne_heading_part_map _ _ (by decide) _ _ (by intro; rfl) _))
    (ne_heading_append _ _ _
      (ne_heading_part_map _ _ (by decide) _ _ (by intro; rfl) _)
      (ne_heading_tail _ _ _))
    (fun hl => by
      simp only [hl, false_and, and_false, if_false, List.append_nil]
      exact part_nil_or_heading _ _ _)
  simpa only [List.append_assoc] using this

theorem ced_tests_section (now : Int) (lc : Str → Str → Int) (s : AppState) :
    sectionOf "Tests/Quizzes".toList (Ced.displayDayDetails now lc s).detailsBox =
      (testsToday s.scheduleData
        (Ced.getLocalDateString now (s.store.read s.selectedDate))).map
        fun item => Block.testLine item.name item.test_type := by
  rw [ced_displayDayDetails_box]
  have := sectionOf_part "Tests/Quizzes".toList
    ([Block.header (weekdayLong (s.store.read s.selectedDate))
        (shortDate (s.store.read s.selectedDate))] ++
      ((if generatedPlanToday s.scheduleData
          (Ced.getLocalDateString now (s.store.read s.selectedDate)) = [] then []
        else Block.heading "My Study Plan".toList ::
          (Ced.sortBy (fun a b => lc a.start_time b.start_time)
            (generatedPlanToday s.scheduleData
              (Ced.getLocalDateString now (s.store.read s.selectedDate)))).map
            fun item => Block.planLine item.task (Ced.formatTime12Hour item.start_time)
              (Ced.formatTime12Hour item.end_time)) ++
      ((if classesToday s.scheduleData (weekdayLong (s.store.read s.selectedDate)) = []
        then []
        else Block.heading "Classes".toList ::
          (classesToday s.scheduleData (weekdayLong (s.store.read s.selectedDate))).map
            fun item => Block.classLine item.subject (Ced.formatTime12Hour item.start_time)
              (Ced.formatTime12Hour item.end_time)) ++
      (if tasksToday s.scheduleData
          (Ced.getLocalDateString now (s.store.read s.selectedDate)) = [] then []
        else Block.heading "Tasks Due".toList ::
          (tasksToday s.scheduleData
            (Ced.getLocalDateString now (s.store.read s.selectedDate))).map
              fun item => Block.taskLine item.name item.task_type (item.deadline.getD [])))))
    (if generatedPlanToday s.scheduleData
            (Ced.getLocalDateString now (s.store.read s.selectedDate)) = [] ∧
          classesToday s.scheduleData (weekdayLong (s.store.read s.selectedDate)) = [] ∧
          tasksToday s.scheduleData
            (Ced.getLocalDateString now (s.store.read s.selectedDate)) = [] ∧
          testsToday s.scheduleData
            (Ced.getLocalDateString now (s.store.read s.selectedDate)) = []
        then [Block.placeholder
          "No schedule for this day. Chat with me to add items!".toList]
        else [])
    (testsToday s.scheduleData (Ced.getLocalDateString now (s.store.read s.selectedDate)))
    (fun item => Block.testLine item.name item.test_type) _ Iff.rfl (fun _ => rfl)
    (ne_heading_append _ _ _ (ne_heading_header _ _ _)
      (ne_heading_append _ _ _
        (ne_heading_part_map _ _ (by decide) _ _ (by intro; rfl) _)
        (ne_heading_append _ _ _
          (ne_heading_part_map _ _ (by decide) _ _ (by intro; rfl) _)
          (ne_heading_part_map _ _ (by decide) _ _ (by intro; rfl) _))))
    (ne_heading_tail _ _ _)
    (fun hl => Or.inl (by simp only [hl, and_false, if_false]))
  simpa only [List.append_assoc] using this

theorem ced_tasks_section (now : Int) (lc : Str → Str → Int) (s : AppState) :
    sectionOf "Tasks Due".toList (Ced.displayDayDetails now lc s).detailsBox =
      (tasksToday s.scheduleData
        (Ced.getLocalDateString now (s.store.read s.selectedDate))).map
        fun item => Block.taskLine item.name item.task_type (item.deadline.getD []) := by
  rw [ced_displayDayDetails_box]
  have := sectionOf_part "Tasks Due".toList
    ([Block.header (weekdayLong (s.store.read s.selectedDate))
        (shortDate (s.store.read s.selectedDate))] ++
      ((if generatedPlanToday s.scheduleData
          (Ced.getLocalDateString now (s.store.read s.selectedDate)) = [] then []
        else Block.heading "My Study Plan".toList ::
          (Ced.sortBy (fun a b => lc a.start_time b.start_time)
            (generatedPlanToday s.scheduleData
              (Ced.getLocalDateString now (s.store.read s.selectedDate)))).map
            fun item => Block.planLine item.task (Ced.formatTime12Hour item.start_time)
              (Ced.formatTime12Hour item.end_time)) ++
      (if classesToday s.scheduleData (weekdayLong (s.store.read s.selectedDate)) = []
        then []
        else Block.heading "Classes".toList ::
          (classesToday s.scheduleData (weekdayLong (s.store.read s.selectedDate))).map
            fun item => Block.classLine item.subject (Ced.formatTime12Hour item.start_time)
              (Ced.formatTime12Hour item.end_time))))
    ((if testsToday s.scheduleData
          (Ced.getLocalDateString now (s.store.read s.selectedDate)) = [] then []
        else Block.heading "Tests/Quizzes".toList ::
          (testsToday s.scheduleData
            (Ced.getLocalDateString now (s.store.read s.selectedDate))).map
              fun item => Block.testLine item.name item.test_type) ++
      (if generatedPlanToday s.scheduleData
            (Ced.getLocalDateString now (s.store.read s.selectedDate)) = [] ∧
          classesToday s.scheduleData (weekdayLong (s.store.read s.selectedDate)) = [] ∧
          tasksToday s.scheduleData
            (Ced.getLocalDateString now (s.store.read s.selectedDate)) = [] ∧
          testsToday s.scheduleData
            (Ced.getLocalDateString now (s.store.read s.selectedDate)) = []
        then [Block.placeholder
          "No schedule for this day. Chat with me to add items!".toList]
        else []))
    (tasksToday s.scheduleData (Ced.getLocalDateString now (s.store.read s.selectedDate)))
    (fun item => Block.taskLine item.name item.task_type (item.deadline.getD []))
    _ Iff.rfl (fun _ => rfl)
    (ne_heading_append _ _ _ (ne_heading_header _ _ _)
      (ne_heading_append _ _ _
        (ne_heading_part_map _ _ (by decide) _ _ (by intro; rfl) _)
        (ne_heading_part_map _ _ (by decide) _ _ (by intro; rfl) _)))
    (ne_heading_append _ _ _
      (ne_heading_part_map _ _ (by decide) _ _ (by intro; rfl) _)
      (ne_heading_tail _ _ _))
    (fun hl => by
      simp only [hl, false_and, and_false, if_false, List.append_nil]
      exact part_nil_or_heading _ _ _)
  simpa only [List.append_assoc] using this

/-! ## Claims on the day-detail panel -/

/-- C9: in both variants, for every snapshot and selected date, the Tests/Quizzes section
written by `displayDayDetails` lists exactly the tests whose `date` equals
`getLocalDateString(selectedDate)`, in snapshot order; a test dated `2025-11-15` is shown
when 15 November 2025 is selected and not when 16 November 2025 is. -/
theorem C9_tests_section (now : Int) (localeCompare : Str → Str → Int) (s : AppState) :
    sectionOf "Tests/Quizzes".toList (Old.displayDayDetails s).detailsBox =
      (s.scheduleData.tests.filter fun item =>
        item.date = Old.getLocalDateString (s.store.read s.selectedDate)).map
          (fun item => Block.testLine item.name item.test_type) ∧
    sectionOf "Tests/Quizzes".toList (Ced.displayDayDetails now localeCompare s).detailsBox =
      (s.scheduleData.tests.filter fun item =>
        item.date = Ced.getLocalDateString now (s.store.read s.selectedDate)).map
          (fun item => Block.testLine item.name item.test_type) ∧
    (∀ (dateString : Str) (item : TestEntry),
      item ∈ (s.scheduleData.tests.filter fun item => item.date = dateString) ↔
        item ∈ s.scheduleData.tests ∧ item.date = dateString) ∧
    (∀ dateString : Str,
      (s.scheduleData.tests.filter fun item => item.date = dateString).Sublist
        s.scheduleData.tests) ∧
    sectionOf "Tests/Quizzes".toList
      (Old.displayDayDetails (samplePage (some 1763164800000))).detailsBox =
        [Block.testLine "Quiz 1".toList "quiz".toList] ∧
    sectionOf "Tests/Quizzes".toList
      (Old.displayDayDetails (samplePage (some 1763251200000))).detailsBox = [] ∧
    sectionOf "Tests/Quizzes".toList
      (Ced.displayDayDetails 0 codeUnitCompare (samplePage (some 1763164800000))).detailsBox =
        [Block.testLine "Quiz 1".toList "quiz".toList] ∧
    sectionOf "Tests/Quizzes".toList
      (Ced.displayDayDetails 0 codeUnitCompare (samplePage (some 1763251200000))).detailsBox
        = [] := by
  refine ⟨old_tests_section s, ced_tests_section now localeCompare s, ?_, ?_,
    by decide, by decide, by decide, by decide⟩
  · intro dateString item
    simp [List.mem_filter]
  · intro dateString
    exact List.filter_sublist _

/-- The dates selected in the examples of C9 are 15 and 16 November 2025. -/
theorem C9_witness :
    Old.getLocalDateString ((samplePage (some 1763164800000)).store.read
      (samplePage (some 1763164800000)).selectedDate) = "2025-11-15".toList ∧
    Old.getLocalDateString ((samplePage (some 1763251200000)).store.read
      (samplePage (some 1763251200000)).selectedDate) = "2025-11-16".toList ∧
    sectionOf "Tests/Quizzes".toList
      (Old.displayDayDetails (samplePage (some 1763164800000))).detailsBox =
        [Block.testLine "Quiz 1".toList "quiz".toList] :=
  ⟨by decide, by decide,
   (C9_tests_section 0 codeUnitCompare (samplePage (some 1763164800000))).2.2.2.2.1⟩

theorem taskDueOn_iff (dateString : Str) (item : TaskEntry) :
    taskDueOn dateString item = true ↔
      ∃ d, item.deadline = some d ∧ d ≠ [] ∧ dateString <+: d := by
  unfold taskDueOn startsWith
  cases item.deadline with
  | none => simp
  | some d => simp [List.isPrefixOf_iff_prefix]

theorem taskDueOn_take (dateString d : Str) (item : TaskEntry) (hl : dateString.length = 10)
    (hd : item.deadline = some d) :
    taskDueOn dateString item = true ↔ d.take 10 = dateString := by
  rw [taskDueOn_iff]
  constructor
  · rintro ⟨d2, h1, _, h3⟩
    rw [hd] at h1
    cases h1
    have := List.prefix_iff_eq_take.mp h3
    rw [hl] at this
    exact this.symm
  · intro h
    refine ⟨d, hd, ?_, ?_⟩
    · intro e
      rw [e] at h
      rw [← h] at hl
      simp at hl
    · rw [← h]
      exact List.take_prefix _ _

theorem getLocalDateString_length (t : Int) (h0 : 1000 ≤ YearFromTime t)
    (h1 : YearFromTime t ≤ 9999) : (Old.getLocalDateString (some t)).length = 10 := by
  rw [old_getLocalDateString_some, numToString_four _ h0 (by omega)]
  simp [fourDigits, twoDigits]

/-- C10: in both variants, for every snapshot and selected date, the Tasks Due section
written by `displayDayDetails` lists exactly the tasks whose deadline is a non-empty string
starting with `getLocalDateString(selectedDate)`, in snapshot order; when the selected date
has a four-digit year, a task with a deadline string is listed exactly when the first ten
characters of the deadline (its date part) equal the selected date string. -/
theorem C10_tasks_section (now : Int) (localeCompare : Str → Str → Int) (s : AppState) :
    sectionOf "Tasks Due".toList (Old.displayDayDetails s).detailsBox =
      (s.scheduleData.tasks.filter
        (taskDueOn (Old.getLocalDateString (s.store.read s.selectedDate)))).map
          (fun item => Block.taskLine item.name item.task_type (item.deadline.getD [])) ∧
    sectionOf "Tasks Due".toList (Ced.displayDayDetails now localeCompare s).detailsBox =
      (s.scheduleData.tasks.filter
        (taskDueOn (Ced.getLocalDateString now (s.store.read s.selectedDate)))).map
          (fun item => Block.taskLine item.name item.task_type (item.deadline.getD [])) ∧
    (∀ (dateString : Str) (item : TaskEntry),
      item ∈ s.scheduleData.tasks.filter (taskDueOn dateString) ↔
        item ∈ s.scheduleData.tasks ∧
          ∃ d, item.deadline = some d ∧ d ≠ [] ∧ dateString <+: d) ∧
    (∀ (t : Int) (item : TaskEntry) (d : Str),
      s.store.read s.selectedDate = some t →
      1000 ≤ YearFromTime (LocalTime t) ∧ YearFromTime (LocalTime t) ≤ 9999 →
      item.deadline = some d →
      ((item ∈ s.scheduleData.tasks.filter
          (taskDueOn (Old.getLocalDateString (s.store.read s.selectedDate))) ↔
        item ∈ s.scheduleData.tasks ∧
          d.take 10 = Old.getLocalDateString (s.store.read s.selectedDate)) ∧
       (item ∈ s.scheduleData.tasks.filter
          (taskDueOn (Ced.getLocalDateString now (s.store.read s.selectedDate))) ↔
        item ∈ s.scheduleData.tasks ∧
          d.take 10 = Ced.getLocalDateString now (s.store.read s.selectedDate)))) := by
  refine ⟨old_tasks_section s, ced_tasks_section now localeCompare s, ?_, ?_⟩
  · intro dateString item
    rw [List.mem_filter, taskDueOn_iff]
  · intro t item d hsel hy hd
    rw [LocalTime_eq] at hy
    have hlen := getLocalDateString_length t hy.1 hy.2
    rw [hsel, ced_getLocalDateString_some, List.mem_filter,
      taskDueOn_take _ d item hlen hd]
    exact ⟨Iff.rfl, Iff.rfl⟩

/-- Instance of C10 on the sample page with 15 November 2025 selected: the essay due
`2025-11-15 18:30:00` is the one task listed. -/
theorem C10_witness :
    (DateStore.read (samplePage (some 1763164800000)).store
        (samplePage (some 1763164800000)).selectedDate = some 1763164800000 ∧
      (1000 ≤ YearFromTime (LocalTime 1763164800000) ∧
        YearFromTime (LocalTime 1763164800000) ≤ 9999)) ∧
    sectionOf "Tasks Due".toList
      (Old.displayDayDetails (samplePage (some 1763164800000))).detailsBox =
        [Block.taskLine "Essay".toList "homework".toList "2025-11-15 18:30:00".toList] ∧
    ((⟨"Essay".toList, "homework".toList, some "2025-11-15 18:30:00".toList⟩ : TaskEntry) ∈
        (samplePage (some 1763164800000)).scheduleData.tasks.filter
          (taskDueOn (Old.getLocalDateString
            ((samplePage (some 1763164800000)).store.read
              (samplePage (some 1763164800000)).selectedDate))) ↔
      (⟨"Essay".toList, "homework".toList, some "2025-11-15 18:30:00".toList⟩ : TaskEntry) ∈
        (samplePage (some 1763164800000)).scheduleData.tasks ∧
      "2025-11-15 18:30:00".toList.take 10 = Old.getLocalDateString
        ((samplePage (some 1763164800000)).store.read
          (samplePage (some 1763164800000)).selectedDate)) :=
  ⟨⟨rfl, by decide⟩, by decide,
   ((C10_tasks_section 0 codeUnitCompare (samplePage (some 1763164800000))).2.2.2
      1763164800000 ⟨"Essay".toList, "homework".toList, some "2025-11-15 18:30:00".toList⟩
      "2025-11-15 18:30:00".toList rfl (by decide) rfl).1⟩

/-! ## Order of the sections, loading failures, daily check-in -/

theorem headingTitles_append (a b : List Block) :
    headingTitles (a ++ b) = headingTitles a ++ headingTitles b := by
  simp [headingTitles, List.filterMap_append]

theorem headingTitles_lines {α : Type} (f : α → Block) (l : List α)
    (hf : ∀ x, (f x).isHeading = false) : headingTitles (l.map f) = [] := by
  induction l with
  | nil => rfl
  | cons x xs ih =>
    have hx := hf x
    simp only [List.map_cons, headingTitles, List.filterMap_cons] at ih ⊢
    cases hfx : f x <;> simp_all [Block.isHeading]

/-- The headings of a section written as "heading and lines, unless there are no lines". -/
theorem headingTitles_part {α : Type} (t : Str) (f : α → Block) (l : List α) (c : Prop)
    [Decidable c] (hf : ∀ x, (f x).isHeading = false) :
    headingTitles (if c then [] else Block.heading t :: l.map f) =
      if c then [] else [t] := by
  split
  · rfl
  · have := headingTitles_lines f l hf
    simp only [headingTitles, List.filterMap_cons] at this ⊢
    rw [this]

theorem hasPlaceholder_append (a b : List Block) :
    hasPlaceholder (a ++ b) = (hasPlaceholder a || hasPlaceholder b) := by
  simp [hasPlaceholder, List.any_append]

theorem hasPlaceholder_lines {α : Type} (f : α → Block) (l : List α)
    (hf : ∀ x, hasPlaceholder [f x] = false) : hasPlaceholder (l.map f) = false := by
  induction l with
  | nil => rfl
  | cons x xs ih =>
    have hx := hf x
    simp only [hasPlaceholder, List.any_cons, List.any_nil, Bool.or_false, List.map_cons]
      at hx ih ⊢
    rw [hx, ih]; rfl

theorem hasPlaceholder_part {α : Type} (t : Str) (f : α → Block) (l : List α) (c : Prop)
    [Decidable c] (hf : ∀ x, hasPlaceholder [f x] = false) :
    hasPlaceholder (if c then [] else Block.heading t :: l.map f) = false := by
  split
  · rfl
  · have := hasPlaceholder_lines f l hf
    simp only [hasPlaceholder, List.any_cons, Bool.false_or] at this ⊢
    exact this

/-- C12: in the newer variant, for every snapshot and selected date, the panel written by
`displayDayDetails` is the header followed by the sections generated plan, classes, tasks
due, tests/quizzes in this order, each consisting of its heading and its lines and present
if and only if its filtered list is non-empty, and the placeholder beginning
`No schedule for this day` is shown if and only if all four filtered lists are empty. -/
theorem C12_sections_order (now : Int) (localeCompare : Str → Str → Int) (s : AppState) :
    headingTitles (Ced.displayDayDetails now localeCompare s).detailsBox =
      (if generatedPlanToday s.scheduleData
          (Ced.getLocalDateString now (s.store.read s.selectedDate)) = [] then []
        else ["My Study Plan".toList]) ++
      ((if classesToday s.scheduleData (weekdayLong (s.store.read s.selectedDate)) = []
        then [] else ["Classes".toList]) ++
      ((if tasksToday s.scheduleData
          (Ced.getLocalDateString now (s.store.read s.selectedDate)) = [] then []
        else ["Tasks Due".toList]) ++
      (if testsToday s.scheduleData
          (Ced.getLocalDateString now (s.store.read s.selectedDate)) = [] then []
        else ["Tests/Quizzes".toList]))) ∧
    (hasPlaceholder (Ced.displayDayDetails now localeCompare s).detailsBox = true ↔
      generatedPlanToday s.scheduleData
          (Ced.getLocalDateString now (s.store.read s.selectedDate)) = [] ∧
      classesToday s.scheduleData (weekdayLong (s.store.read s.selectedDate)) = [] ∧
      tasksToday s.scheduleData
          (Ced.getLocalDateString now (s.store.read s.selectedDate)) = [] ∧
      testsToday s.scheduleData
          (Ced.getLocalDateString now (s.store.read s.selectedDate)) = []) ∧
    (Ced.displayDayDetails now localeCompare s).detailsBox =
      [Block.header (weekdayLong (s.store.read s.selectedDate))
        (shortDate (s.store.read s.selectedDate))] ++
      ((if generatedPlanToday s.scheduleData
          (Ced.getLocalDateString now (s.store.read s.selectedDate)) = [] then []
        else Block.heading "My Study Plan".toList ::
          (Ced.sortBy (fun a b => localeCompare a.start_time b.start_time)
            (generatedPlanToday s.scheduleData
              (Ced.getLocalDateString now (s.store.read s.selectedDate)))).map
            fun item => Block.planLine item.task (Ced.formatTime12Hour item.start_time)
              (Ced.formatTime12Hour item.end_time)) ++
      ((if classesToday s.scheduleData (weekdayLong (s.store.read s.selectedDate)) = []
        then []
        else Block.heading "Classes".toList ::
          (classesToday s.scheduleData (weekdayLong (s.store.read s.selectedDate))).map
            fun item => Block.classLine item.subject (Ced.formatTime12Hour item.start_time)
              (Ced.formatTime12Hour item.end_time)) ++
      ((if tasksToday s.scheduleData
          (Ced.getLocalDateString now (s.store.read s.selectedDate)) = [] then []
        else Block.heading "Tasks Due".toList ::
          (tasksToday s.scheduleData
            (Ced.getLocalDateString now (s.store.read s.selectedDate))).map
              fun item => Block.taskLine item.name item.task_type (item.deadline.getD [])) ++
      ((if testsToday s.scheduleData
          (Ced.getLocalDateString now (s.store.read s.selectedDate)) = [] then []
        else Block.heading "Tests/Quizzes".toList ::
          (testsToday s.scheduleData
            (Ced.getLocalDateString now (s.store.read s.selectedDate))).map
              fun item => Block.testLine item.name item.test_type) ++
      (if generatedPlanToday s.scheduleData
            (Ced.getLocalDateString now (s.store.read s.selectedDate)) = [] ∧
          classesToday s.scheduleData (weekdayLong (s.store.read s.selectedDate)) = [] ∧
          tasksToday s.scheduleData
            (Ced.getLocalDateString now (s.store.read s.selectedDate)) = [] ∧
          testsToday s.scheduleData
            (Ced.getLocalDateString now (s.store.read s.selectedDate)) = []
        then [Block.placeholder
          "No schedule for this day. Chat with me to add items!".toList]
        else []))))) ∧
    "No schedule for this day".toList <+:
      "No schedule for this day. Chat with me to add items!".toList := by
  refine ⟨?_, ?_, ced_displayDayDetails_box now localeCompare s, by decide⟩
  · rw [ced_displayDayDetails_box, headingTitles_append, headingTitles_append,
      headingTitles_append, headingTitles_append, headingTitles_append,
      headingTitles_part _ _ _ _ (by intro; rfl), headingTitles_part _ _ _ _ (by intro; rfl),
      headingTitles_part _ _ _ _ (by intro; rfl), headingTitles_part _ _ _ _ (by intro; rfl)]
    have h1 : ∀ a b : Str, headingTitles [Block.header a b] = [] := fun _ _ => rfl
    have h2 : ∀ (c : Prop) [Decidable c] (t : Str),
        headingTitles (if c then [Block.placeholder t] else []) = [] := by
      intro c _ t; split <;> rfl
    rw [h1, h2]
    simp
  · rw [ced_displayDayDetails_box, hasPlaceholder_append, hasPlaceholder_append,
      hasPlaceholder_append, hasPlaceholder_append, hasPlaceholder_append,
      hasPlaceholder_part _ _ _ _ (by intro; rfl), hasPlaceholder_part _ _ _ _ (by intro; rfl),
      hasPlaceholder_part _ _ _ _ (by intro; rfl), hasPlaceholder_part _ _ _ _ (by intro; rfl)]
    have h1 : ∀ a b : Str, hasPlaceholder [Block.header a b] = false := fun _ _ => rfl
    rw [h1]
    simp only [Bool.false_or]
    split
    · rename_i h; simpa [hasPlaceholder] using h
    · rename_i h; simpa [hasPlaceholder] using h

/-- C13: in the newer variant, whenever the fetch of `/get_schedule` fails (network error,
status that is not OK, or unreadable body), `loadScheduleData` returns with `scheduleData`
holding empty `schedule`, `tasks`, `tests`, `generated_plan` and `study_windows`, whatever
the previous snapshot was, and with the detail panel showing exactly the
`Error Loading Schedule` message; the rest of the state is untouched. -/
theorem C13_loadScheduleData_failure (fetched : FetchOutcome) (s : AppState)
    (hfail : fetched.failed = true) :
    (Ced.loadScheduleData fetched s).scheduleData.schedule = [] ∧
    (Ced.loadScheduleData fetched s).scheduleData.tasks = [] ∧
    (Ced.loadScheduleData fetched s).scheduleData.tests = [] ∧
    (Ced.loadScheduleData fetched s).scheduleData.generated_plan = [] ∧
    (Ced.loadScheduleData fetched s).scheduleData.study_windows = [] ∧
    (Ced.loadScheduleData fetched s).detailsBox =
      [Block.errorNotice "Error Loading Schedule".toList
        "Could not fetch schedule data. Please try again later.".toList] ∧
    (Ced.loadScheduleData fetched s).store = s.store ∧
    (Ced.loadScheduleData fetched s).currentWeekStart = s.currentWeekStart ∧
    (Ced.loadScheduleData fetched s).selectedDate = s.selectedDate ∧
    (Ced.loadScheduleData fetched s).cards = s.cards := by
  rcases fetched with _ | ⟨ok, body⟩
  · simp [Ced.loadScheduleData, emptySnapshot, loadErrorNotice]
  · rcases ok with _ | _
    · simp [Ced.loadScheduleData, emptySnapshot, loadErrorNotice]
    · rcases body with _ | data
      · simp [Ced.loadScheduleData, emptySnapshot, loadErrorNotice]
      · simp [FetchOutcome.failed] at hfail

/-- Instance of C13: a 500 response received while the sample page shows a snapshot. -/
theorem C13_witness :
    (FetchOutcome.response false none).failed = true ∧
    (samplePage (some 1763164800000)).scheduleData.tests ≠ [] ∧
    (Ced.loadScheduleData (FetchOutcome.response false none)
      (samplePage (some 1763164800000))).scheduleData.tests = [] ∧
    (Ced.loadScheduleData (FetchOutcome.response false none)
      (samplePage (some 1763164800000))).detailsBox =
        [Block.errorNotice "Error Loading Schedule".toList
          "Could not fetch schedule data. Please try again later.".toList] :=
  ⟨rfl, by decide,
   (C13_loadScheduleData_failure (FetchOutcome.response false none)
      (samplePage (some 1763164800000)) rfl).2.2.1,
   (C13_loadScheduleData_failure (FetchOutcome.response false none)
      (samplePage (some 1763164800000)) rfl).2.2.2.2.2.1⟩

theorem triggerDailyCheckin_stored (fmt : Int → Str) (now : Int) (last : Option Str) :
    (triggerDailyCheckin fmt now last).2 = some (fmt (Day (LocalTime now))) := by
  unfold triggerDailyCheckin
  by_cases h : last = some (fmt (Day (LocalTime now)))
  · simp [h]
  · simp [h]

theorem triggerDailyCheckin_posted (fmt : Int → Str) (now : Int) (last : Option Str) :
    (triggerDailyCheckin fmt now last).1.isSome = true ↔
      last ≠ some (fmt (Day (LocalTime now))) := by
  unfold triggerDailyCheckin
  by_cases h : last = some (fmt (Day (LocalTime now)))
  · simp [h]
  · simp [h]

/-- Over loads on non-decreasing days, a day that is already the stored one and is not
after the next loads gets no check-in, and any day gets at most one. -/
theorem checkinsOnDay_bound (fmt : Int → Str) (clocks : List Int) :
    ∀ last : Option Str,
      clocks.Pairwise (fun a b => Day (LocalTime a) ≤ Day (LocalTime b)) →
      (∀ day : Int, checkinsOnDay fmt last clocks day ≤ 1) ∧
      (∀ day : Int, last = some (fmt day) → (∀ c ∈ clocks, day ≤ Day (LocalTime c)) →
        checkinsOnDay fmt last clocks day = 0) := by
  induction clocks with
  | nil => intro last _; exact ⟨fun _ => by simp [checkinsOnDay], fun _ _ _ => rfl⟩
  | cons now rest ih =>
    intro last hp
    obtain ⟨hhead, htail⟩ := List.pairwise_cons.mp hp
    obtain ⟨ih1, ih2⟩ := ih (triggerDailyCheckin fmt now last).2 htail
    have hst := triggerDailyCheckin_stored fmt now last
    have hzero := ih2 (Day (LocalTime now)) hst (fun c hc => hhead c hc)
    constructor
    · intro day
      unfold checkinsOnDay
      by_cases hd : Day (LocalTime now) = day
      · rw [← hd, hzero]
        split <;> omega
      · rw [if_neg (fun h => hd h.2)]
        have := ih1 day
        omega
    · intro day hlast hall
      unfold checkinsOnDay
      by_cases hd : Day (LocalTime now) = day
      · have hnp : ¬ ((triggerDailyCheckin fmt now last).1.isSome = true) := by
          rw [triggerDailyCheckin_posted, hd]
          exact fun h => h hlast
        rw [if_neg (fun h => hnp h.1), ← hd, hzero]
      · rw [if_neg (fun h => hd h.2), Nat.zero_add]
        have hlt : day < Day (LocalTime now) := by
          have := hall now (List.mem_cons_self _ _)
          omega
        -- no later load falls on `day`
        have hnone : ∀ (l : List Int) (st : Option Str),
            (∀ c ∈ l, day < Day (LocalTime c)) → checkinsOnDay fmt st l day = 0 := by
          intro l
          induction l with
          | nil => intro _ _; rfl
          | cons c cs ihc =>
            intro st hc
            unfold checkinsOnDay
            have h1 := hc c (List.mem_cons_self _ _)
            rw [if_neg (fun h => by omega), Nat.zero_add]
            exact ihc _ (fun x hx => hc x (List.mem_cons_of_mem _ hx))
        exact hnone rest _ (fun c hc => by have := hhead c hc; omega)

/-- C17: with the stored item `lastDailyCheckin` as explicit state, a page load posts the
`trigger:daily_checkin` message if and only if the stored value differs from today's date
string, and afterwards the stored value is today's date string, whatever becomes of the
request; hence over page loads on non-decreasing calendar days, each day sees at most one
post. -/
theorem C17_daily_checkin (toLocaleDateString : Int → Str) :
    (∀ (now : Int) (lastCheckin : Option Str),
      ((triggerDailyCheckin toLocaleDateString now lastCheckin).1.isSome = true ↔
        lastCheckin ≠ some (toLocaleDateString (Day (LocalTime now)))) ∧
      (∀ post, (triggerDailyCheckin toLocaleDateString now lastCheckin).1 = some post →
        post.message = "trigger:daily_checkin".toList) ∧
      (triggerDailyCheckin toLocaleDateString now lastCheckin).2 =
        some (toLocaleDateString (Day (LocalTime now)))) ∧
    (∀ (lastCheckin : Option Str) (clocks : List Int),
      clocks.Pairwise (fun a b => Day (LocalTime a) ≤ Day (LocalTime b)) →
      ∀ day : Int, checkinsOnDay toLocaleDateString lastCheckin clocks day ≤ 1) := by
  refine ⟨fun now last => ⟨triggerDailyCheckin_posted _ now last, ?_,
    triggerDailyCheckin_stored _ now last⟩, fun last clocks hp day =>
      (checkinsOnDay_bound _ clocks last hp).1 day⟩
  intro post hpost
  unfold triggerDailyCheckin at hpost
  by_cases h : last = some (toLocaleDateString (Day (LocalTime now)))
  · simp [h] at hpost
  · simp [h] at hpost
    rw [← hpost]
    rfl

/-- Instance of C17: three loads on 15 November 2025 (two) and 16 November 2025, starting
with nothing stored, post once on each of the two days. -/
theorem C17_witness :
    [1763164800123, 1763200000000, 1763264900123].Pairwise
      (fun a b : Int => Day (LocalTime a) ≤ Day (LocalTime b)) ∧
    checkinsOnDay (fun day => numToString (some day)) none
      [1763164800123, 1763200000000, 1763264900123] (Day (LocalTime 1763164800123)) ≤ 1 ∧
    checkinsOnDay (fun day => numToString (some day)) none
      [1763164800123, 1763200000000, 1763264900123] (Day (LocalTime 1763164800123)) = 1 :=
  ⟨by decide,
   (C17_daily_checkin (fun day => numToString (some day))).2 none
     [1763164800123, 1763200000000, 1763264900123] (by decide)
     (Day (LocalTime 1763164800123)),
   by decide⟩

/-! ## The generated plan -/

theorem insertBy_perm (cmp : PlanEntry → PlanEntry → Int) (x : PlanEntry) :
    ∀ l : List PlanEntry, (Ced.insertBy cmp x l).Perm (x :: l) := by
  intro l
  induction l with
  | nil => exact List.Perm.refl _
  | cons y ys ih =>
    unfold Ced.insertBy
    split
    · exact List.Perm.refl _
    · exact (List.Perm.cons y ih).trans (List.Perm.swap x y ys)

theorem foldl_insertBy_perm (cmp : PlanEntry → PlanEntry → Int) :
    ∀ (l acc : List PlanEntry),
      (l.foldl (fun acc x => Ced.insertBy cmp x acc) acc).Perm (acc ++ l) := by
  intro l
  induction l with
  | nil => intro acc; simp
  | cons x xs ih =>
    intro acc
    rw [List.foldl_cons]
    refine (ih _).trans ?_
    have h1 := insertBy_perm cmp x acc
    have h2 : (Ced.insertBy cmp x acc ++ xs).Perm ((x :: acc) ++ xs) :=
      List.Perm.append_right xs h1
    refine h2.trans ?_
    simp only [List.cons_append]
    exact (List.perm_middle).symm

/-- The sort returns a permutation of its argument. -/
theorem sortBy_perm (cmp : PlanEntry → PlanEntry → Int) (l : List PlanEntry) :
    (Ced.sortBy cmp l).Perm l := by
  have := foldl_insertBy_perm cmp l []
  simpa [Ced.sortBy] using this

/-- Insertion keeps a list ordered by `key` when the comparator is positive exactly for a
larger key. -/
theorem insertBy_sorted (cmp : PlanEntry → PlanEntry → Int) (key : PlanEntry → Int)
    (S : PlanEntry → Prop)
    (hcmp : ∀ a b, S a → S b → (0 < cmp a b ↔ key b < key a)) (x : PlanEntry) (hx : S x) :
    ∀ l : List PlanEntry, (∀ y ∈ l, S y) → l.Pairwise (fun a b => key a ≤ key b) →
      (Ced.insertBy cmp x l).Pairwise (fun a b => key a ≤ key b) := by
  intro l
  induction l with
  | nil => intro _ _; simp [Ced.insertBy]
  | cons y ys ih =>
    intro hS hp
    obtain ⟨hy, hys⟩ := List.pairwise_cons.mp hp
    have hSy : S y := hS y (List.mem_cons_self _ _)
    unfold Ced.insertBy
    split
    · rename_i hgt
      have hlt : key x < key y := (hcmp y x hSy hx).mp hgt
      refine List.pairwise_cons.mpr ⟨?_, hp⟩
      intro z hz
      rcases List.mem_cons.mp hz with rfl | hz
      · omega
      · have := hy z hz; omega
    · rename_i hgt
      have hle : key y ≤ key x := by
        by_contra hn
        exact hgt ((hcmp y x hSy hx).mpr (by omega))
      refine List.pairwise_cons.mpr ⟨?_, ih (fun z hz => hS z (List.mem_cons_of_mem _ hz)) hys⟩
      intro z hz
      rcases List.mem_cons.mp ((insertBy_perm cmp x ys).subset hz) with rfl | hz
      · exact hle
      · exact hy z hz

theorem foldl_insertBy_sorted (cmp : PlanEntry → PlanEntry → Int) (key : PlanEntry → Int)
    (S : PlanEntry → Prop)
    (hcmp : ∀ a b, S a → S b → (0 < cmp a b ↔ key b < key a)) :
    ∀ (l acc : List PlanEntry), (∀ y ∈ l, S y) → (∀ y ∈ acc, S y) →
      acc.Pairwise (fun a b => key a ≤ key b) →
      (l.foldl (fun acc x => Ced.insertBy cmp x acc) acc).Pairwise
        (fun a b => key a ≤ key b) := by
  intro l
  induction l with
  | nil => intro acc _ _ hp; exact hp
  | cons x xs ih =>
    intro acc hl hacc hp
    rw [List.foldl_cons]
    have hx : S x := hl x (List.mem_cons_self _ _)
    refine ih _ (fun y hy => hl y (List.mem_cons_of_mem _ hy)) ?_
      (insertBy_sorted cmp key S hcmp x hx acc hacc hp)
    intro y hy
    rcases List.mem_cons.mp ((insertBy_perm cmp x acc).subset hy) with rfl | hy
    · exact hx
    · exact hacc y hy

/-- The sort orders by `key` when the comparator is positive exactly for a larger key. -/
theorem sortBy_sorted (cmp : PlanEntry → PlanEntry → Int) (key : PlanEntry → Int)
    (S : PlanEntry → Prop)
    (hcmp : ∀ a b, S a → S b → (0 < cmp a b ↔ key b < key a))
    (l : List PlanEntry) (hl : ∀ y ∈ l, S y) :
    (Ced.sortBy cmp l).Pairwise (fun a b => key a ≤ key b) :=
  foldl_insertBy_sorted cmp key S hcmp l [] hl (by simp) List.Pairwise.nil

theorem strLt_colon (r s : Str) : strLt (':' :: r) (':' :: s) = strLt r s := by
  simp [strLt]

theorem minutesOf_hhmm (h m : Int) (hh : 0 ≤ h ∧ h < 100) (hm : 0 ≤ m ∧ m < 100) :
    minutesOf (twoDigits h ++ ':' :: twoDigits m) = 60 * h + m := by
  have e1 : (twoDigits h ++ ':' :: twoDigits m).take 2 = twoDigits h := by
    simp [twoDigits]
  have e2 : (twoDigits h ++ ':' :: twoDigits m).drop 3 = twoDigits m := by
    simp [twoDigits]
  unfold minutesOf
  rw [e1, e2, decimalValue_twoDigits h hh.1 hh.2, decimalValue_twoDigits m hm.1 hm.2]

/-- On zero-padded times the code-unit order of the strings is the chronological order. -/
theorem strLt_iff_minutes (a b : Str) (ha : IsHHMM a) (hb : IsHHMM b) :
    strLt a b = true ↔ minutesOf a < minutesOf b := by
  obtain ⟨h1, m1, a1, a2, a3, a4, rfl⟩ := ha
  obtain ⟨h2, m2, b1, b2, b3, b4, rfl⟩ := hb
  rw [minutesOf_hhmm h1 m1 ⟨a1, by omega⟩ ⟨a3, by omega⟩,
    minutesOf_hhmm h2 m2 ⟨b1, by omega⟩ ⟨b3, by omega⟩,
    strLt_twoDigits _ _ a1 (by omega) b1 (by omega), strLt_colon]
  have e : ∀ x : Int, twoDigits x = twoDigits x ++ [] := fun x => by simp
  rw [e m1, e m2, strLt_twoDigits _ _ a3 (by omega) b3 (by omega)]
  by_cases g1 : h1 < h2
  · rw [if_pos g1]; simp; omega
  · rw [if_neg g1]
    by_cases g2 : h2 < h1
    · rw [if_pos g2]; simp; omega
    · rw [if_neg g2]
      by_cases g3 : m1 < m2
      · rw [if_pos g3]; simp; omega
      · rw [if_neg g3]
        by_cases g4 : m2 < m1
        · rw [if_pos g4]; simp; omega
        · rw [if_neg g4]; simp [strLt]; omega

theorem nil_or_heading_append (a b : List Block)
    (ha : a = [] ∨ ∃ t more, a = Block.heading t :: more)
    (hb : b = [] ∨ ∃ t more, b = Block.heading t :: more) :
    a ++ b = [] ∨ ∃ t more, a ++ b = Block.heading t :: more := by
  rcases ha with rfl | ⟨t, more, rfl⟩
  · simpa using hb
  · exact Or.inr ⟨t, more ++ b, rfl⟩

theorem sortBy_eq_nil_iff (cmp : PlanEntry → PlanEntry → Int) (l : List PlanEntry) :
    l = [] ↔ Ced.sortBy cmp l = [] := by
  constructor
  · rintro rfl; rfl
  · intro h
    have := sortBy_perm cmp l
    rw [h] at this
    exact List.Perm.nil_eq this |>.symm

/-- The plan section of the newer panel holds the sorted plan entries of the day. -/
theorem ced_plan_section (now : Int) (lc : Str → Str → Int) (s : AppState) :
    sectionOf "My Study Plan".toList (Ced.displayDayDetails now lc s).detailsBox =
      (Ced.sortBy (fun a b => lc a.start_time b.start_time)
        (generatedPlanToday s.scheduleData
          (Ced.getLocalDateString now (s.store.read s.selectedDate)))).map
        fun item => Block.planLine item.task (Ced.formatTime12Hour item.start_time)
          (Ced.formatTime12Hour item.end_time) := by
  rw [ced_displayDayDetails_box]
  exact sectionOf_part "My Study Plan".toList
    [Block.header (weekdayLong (s.store.read s.selectedDate))
        (shortDate (s.store.read s.selectedDate))]
    ((if classesToday s.scheduleData (weekdayLong (s.store.read s.selectedDate)) = []
        then []
        else Block.heading "Classes".toList ::
          (classesToday s.scheduleData (weekdayLong (s.store.read s.selectedDate))).map
            fun item => Block.classLine item.subject (Ced.formatTime12Hour item.start_time)
              (Ced.formatTime12Hour item.end_time)) ++
      ((if tasksToday s.scheduleData
          (Ced.getLocalDateString now (s.store.read s.selectedDate)) = [] then []
        else Block.heading "Tasks Due".toList ::
          (tasksToday s.scheduleData
            (Ced.getLocalDateString now (s.store.read s.selectedDate))).map
              fun item => Block.taskLine item.name item.task_type (item.deadline.getD [])) ++
      ((if testsToday s.scheduleData
          (Ced.getLocalDateString now (s.store.read s.selectedDate)) = [] then []
        else Block.heading "Tests/Quizzes".toList ::
          (testsToday s.scheduleData
            (Ced.getLocalDateString now (s.store.read s.selectedDate))).map
              fun item => Block.testLine item.name item.test_type) ++
      (if generatedPlanToday s.scheduleData
            (Ced.getLocalDateString now (s.store.read s.selectedDate)) = [] ∧
          classesToday s.scheduleData (weekdayLong (s.store.read s.selectedDate)) = [] ∧
          tasksToday s.scheduleData
            (Ced.getLocalDateString now (s.store.read s.selectedDate)) = [] ∧
          testsToday s.scheduleData
            (Ced.getLocalDateString now (s.store.read s.selectedDate)) = []
        then [Block.placeholder
          "No schedule for this day. Chat with me to add items!".toList]
        else []))))
    (Ced.sortBy (fun a b => lc a.start_time b.start_time)
      (generatedPlanToday s.scheduleData
        (Ced.getLocalDateString now (s.store.read s.selectedDate))))
    (fun item => Block.planLine item.task (Ced.formatTime12Hour item.start_time)
      (Ced.formatTime12Hour item.end_time))
    _ (sortBy_eq_nil_iff _ _) (fun _ => rfl)
    (ne_heading_header _ _ _)
    (ne_heading_append _ _ _
      (ne_heading_part_map _ _ (by decide) _ _ (by intro; rfl) _)
      (ne_heading_append _ _ _
        (ne_heading_part_map _ _ (by decide) _ _ (by intro; rfl) _)
        (ne_heading_append _ _ _
          (ne_heading_part_map _ _ (by decide) _ _ (by intro; rfl) _)
          (ne_heading_tail _ _ _))))
    (fun hl => by
      have hp : generatedPlanToday s.scheduleData
          (Ced.getLocalDateString now (s.store.read s.selectedDate)) ≠ [] :=
        fun h => hl ((sortBy_eq_nil_iff _ _).mp h)
      simp only [hp, false_and, if_false, List.append_nil]
      exact nil_or_heading_append _ _ (part_nil_or_heading _ _ _)
        (nil_or_heading_append _ _ (part_nil_or_heading _ _ _) (part_nil_or_heading _ _ _)))

/-- C11: in the newer variant, when the start times of the generated plan are zero-padded
`HH:MM` strings (and the host collation orders such strings by code units), the plan lines
written by `displayDayDetails` are a permutation of exactly the plan entries dated
`getLocalDateString(selectedDate)`, in non-decreasing order of minutes since midnight; on
such strings the lexicographic order and the chronological order coincide. -/
theorem C11_plan_sorted (now : Int) (localeCompare : Str → Str → Int) (s : AppState)
    (hlc : ∀ a b : Str, IsHHMM a → IsHHMM b →
      (0 < localeCompare a b ↔ strLt b a = true))
    (hfmt : ∀ item ∈ s.scheduleData.generated_plan, IsHHMM item.start_time) :
    sectionOf "My Study Plan".toList
        (Ced.displayDayDetails now localeCompare s).detailsBox =
      (Ced.sortBy (fun a b => localeCompare a.start_time b.start_time)
        (s.scheduleData.generated_plan.filter fun item =>
          item.date = Ced.getLocalDateString now (s.store.read s.selectedDate))).map
        (fun item => Block.planLine item.task (Ced.formatTime12Hour item.start_time)
          (Ced.formatTime12Hour item.end_time)) ∧
    (Ced.sortBy (fun a b => localeCompare a.start_time b.start_time)
      (s.scheduleData.generated_plan.filter fun item =>
        item.date = Ced.getLocalDateString now (s.store.read s.selectedDate))).Perm
      (s.scheduleData.generated_plan.filter fun item =>
        item.date = Ced.getLocalDateString now (s.store.read s.selectedDate)) ∧
    (Ced.sortBy (fun a b => localeCompare a.start_time b.start_time)
      (s.scheduleData.generated_plan.filter fun item =>
        item.date = Ced.getLocalDateString now (s.store.read s.selectedDate))).Pairwise
      (fun a b => minutesOf a.start_time ≤ minutesOf b.start_time) ∧
    (∀ a b : Str, IsHHMM a → IsHHMM b →
      (strLt a b = true ↔ minutesOf a < minutesOf b) ∧
      (strLe a b = true ↔ minutesOf a ≤ minutesOf b)) := by
  refine ⟨ced_plan_section now localeCompare s, sortBy_perm _ _, ?_, ?_⟩
  · refine sortBy_sorted _ (fun e => minutesOf e.start_time)
      (fun e => IsHHMM e.start_time) ?_ _ ?_
    · intro a b ha hb
      rw [hlc a.start_time b.start_time ha hb, strLt_iff_minutes _ _ hb ha]
    · intro y hy
      exact hfmt y (List.mem_of_mem_filter hy)
  · intro a b ha hb
    refine ⟨strLt_iff_minutes a b ha hb, ?_⟩
    unfold strLe
    have := strLt_iff_minutes b a hb ha
    constructor
    · intro h
      by_contra hn
      have h2 : strLt b a = true := this.mpr (by omega)
      rw [h2] at h
      simp at h
    · intro h
      cases hlt : strLt b a with
      | false => rfl
      | true => have := this.mp hlt; omega

theorem codeUnitCompare_hhmm (a b : Str) (ha : IsHHMM a) (hb : IsHHMM b) :
    0 < codeUnitCompare a b ↔ strLt b a = true := by
  have h1 := strLt_iff_minutes a b ha hb
  have h2 := strLt_iff_minutes b a hb ha
  unfold codeUnitCompare
  cases hab : strLt a b with
  | true =>
    have := h1.mp hab
    cases hba : strLt b a with
    | true => have := h2.mp hba; omega
    | false => simp
  | false =>
    cases hba : strLt b a with
    | true => simp
    | false => simp

/-- Instance of C11 on the sample page with a plan, 15 November 2025 selected: the 09:30
block is listed before the 14:00 block. -/
theorem C11_witness :
    ((∀ a b : Str, IsHHMM a → IsHHMM b →
        (0 < codeUnitCompare a b ↔ strLt b a = true)) ∧
      (∀ item ∈ (samplePlanPage (some 1763164800000)).scheduleData.generated_plan,
        IsHHMM item.start_time)) ∧
    (Ced.sortBy (fun a b => codeUnitCompare a.start_time b.start_time)
      ((samplePlanPage (some 1763164800000)).scheduleData.generated_plan.filter fun item =>
        item.date = Ced.getLocalDateString 0
          ((samplePlanPage (some 1763164800000)).store.read
            (samplePlanPage (some 1763164800000)).selectedDate))).map
        (fun item => Block.planLine item.task (Ced.formatTime12Hour item.start_time)
          (Ced.formatTime12Hour item.end_time)) =
      [Block.planLine "Read".toList "9:30 AM".toList "10:00 AM".toList,
       Block.planLine "Revise".toList "2:00 PM".toList "3:00 PM".toList] ∧
    sectionOf "My Study Plan".toList
        (Ced.displayDayDetails 0 codeUnitCompare
          (samplePlanPage (some 1763164800000))).detailsBox =
      (Ced.sortBy (fun a b => codeUnitCompare a.start_time b.start_time)
        ((samplePlanPage (some 1763164800000)).scheduleData.generated_plan.filter fun item =>
          item.date = Ced.getLocalDateString 0
            ((samplePlanPage (some 1763164800000)).store.read
              (samplePlanPage (some 1763164800000)).selectedDate))).map
        (fun item => Block.planLine item.task (Ced.formatTime12Hour item.start_time)
          (Ced.formatTime12Hour item.end_time)) :=
  have hfmt : ∀ item ∈ (samplePlanPage (some 1763164800000)).scheduleData.generated_plan,
      IsHHMM item.start_time := by
    intro item hitem
    simp only [samplePlanPage, List.mem_cons, List.mem_singleton, List.not_mem_nil,
      or_false] at hitem
    rcases hitem with rfl | rfl | rfl
    · exact ⟨14, 0, by decide, by decide, by decide, by decide, by decide⟩
    · exact ⟨9, 30, by decide, by decide, by decide, by decide, by decide⟩
    · exact ⟨8, 0, by decide, by decide, by decide, by decide, by decide⟩
  ⟨⟨codeUnitCompare_hhmm, hfmt⟩, by decide,
   (C11_plan_sorted 0 codeUnitCompare (samplePlanPage (some 1763164800000))
      codeUnitCompare_hhmm hfmt).1⟩

/-! ## Decimal numerals in general -/

theorem toDigits_allDigits : ∀ n : Nat, (Nat.toDigits 10 n).all isDecimalDigit = true := by
  intro n
  induction n using Nat.strong_induction_on with
  | _ n ih =>
    by_cases h : n < 10
    · rw [toDigits_one n h]
      simp [digitChar_isDigit n h]
    · rw [toDigits_step n (by omega), List.all_append, ih (n / 10) (by omega)]
      simp [digitChar_isDigit (n % 10) (by omega)]

theorem toDigits_ne_nil (n : Nat) : Nat.toDigits 10 n ≠ [] := by
  have := toDigits_length_pos n
  intro h
  rw [h] at this
  simp at this

theorem decimalValue_append (l : Str) (c : Char) :
    decimalValue (l ++ [c]) = 10 * decimalValue l + digitValue c := by
  simp [decimalValue, List.foldl_append]

theorem decimalValue_toDigits : ∀ n : Nat, decimalValue (Nat.toDigits 10 n) = n := by
  intro n
  induction n using Nat.strong_induction_on with
  | _ n ih =>
    by_cases h : n < 10
    · rw [toDigits_one n h]
      simp [decimalValue, digitValue_digitChar n h]
    · rw [toDigits_step n (by omega), decimalValue_append, ih (n / 10) (by omega),
        digitValue_digitChar _ (by omega)]
      omega

theorem toDigits_injective (a b : Nat) (h : Nat.toDigits 10 a = Nat.toDigits 10 b) :
    a = b := by
  rw [← decimalValue_toDigits a, ← decimalValue_toDigits b, h]

theorem toDigits_head_ne_dash (n : Nat) (r : Str) : Nat.toDigits 10 n ≠ '-' :: r := by
  intro h
  have hall := toDigits_allDigits n
  rw [h] at hall
  simp [isDecimalDigit] at hall

/-- The rendering of numbers is injective. -/
theorem numToString_injective (a b : Int)
    (h : numToString (some a) = numToString (some b)) : a = b := by
  simp only [numToString] at h
  by_cases ha : a < 0 <;> by_cases hb : b < 0
  · rw [if_pos ha, if_pos hb] at h
    have := toDigits_injective _ _ (List.cons.inj h).2
    omega
  · rw [if_pos ha, if_neg hb] at h
    exact absurd h.symm (toDigits_head_ne_dash _ _)
  · rw [if_neg ha, if_pos hb] at h
    exact absurd h (toDigits_head_ne_dash _ _)
  · rw [if_neg ha, if_neg hb] at h
    have := toDigits_injective _ _ h
    omega

theorem parseInt_numToString (y : Int) (h : 0 ≤ y) :
    parseInt (numToString (some y)) = some y := by
  rw [numToString_nonneg y h, parseInt_digits _ (toDigits_ne_nil _) (toDigits_allDigits _),
    decimalValue_toDigits]
  congr 1
  omega

theorem Number_numToString (y : Int) (h : 0 ≤ y) :
    Number (numToString (some y)) = some y := by
  rw [numToString_nonneg y h, Number_digits _ (toDigits_ne_nil _) (toDigits_allDigits _),
    decimalValue_toDigits]
  congr 1
  omega

theorem twoDigits_injective (a b : Int) (ha : 0 ≤ a ∧ a < 100) (hb : 0 ≤ b ∧ b < 100)
    (h : twoDigits a = twoDigits b) : a = b := by
  rw [← decimalValue_twoDigits a ha.1 ha.2, ← decimalValue_twoDigits b hb.1 hb.2, h]

/-- The day number of a date is determined by its year, month and day of the month. -/
theorem Day_of_fields (a b : Int) (hy : YearFromTime a = YearFromTime b)
    (hm : MonthFromTime a = MonthFromTime b) (hd : DateFromTime a = DateFromTime b) :
    Day a = Day b := by
  have h1 := MakeDay_shift a 0
  have h2 := MakeDay_shift b 0
  rw [sub_zero, sub_zero] at h1 h2
  rw [← h1, ← h2, hy, hm, hd]

/-- Two dates with the same rendering fall on the same day. -/
theorem getLocalDateString_injective (a b : Int)
    (h : Old.getLocalDateString (some a) = Old.getLocalDateString (some b)) :
    Day a = Day b := by
  rw [old_getLocalDateString_some, old_getLocalDateString_some] at h
  have hma := MonthFromTime_bounds a
  have hmb := MonthFromTime_bounds b
  have hda := DateFromTime_bounds a
  have hdb := DateFromTime_bounds b
  obtain ⟨h1, h2⟩ := List.append_inj' h (by simp [twoDigits])
  have hy := numToString_injective _ _ h1
  have h3 := List.cons.inj h2
  obtain ⟨h4, h5⟩ := List.append_inj' h3.2 (by simp [twoDigits])
  have hm := twoDigits_injective _ _ ⟨by omega, by omega⟩ ⟨by omega, by omega⟩ h4
  have hd := twoDigits_injective _ _ ⟨by omega, by omega⟩ ⟨by omega, by omega⟩
    (List.cons.inj h5).2
  exact Day_of_fields a b hy (by omega) hd

theorem getLocalDateString_of_Day (a b : Int) (h : Day a = Day b) :
    Old.getLocalDateString (some a) = Old.getLocalDateString (some b) := by
  obtain ⟨hy, hm, hd⟩ := fields_of_Day_eq a b h
  rw [old_getLocalDateString_some, old_getLocalDateString_some, hy, hm, hd]

/-- Renderings of dates are equal exactly when the dates fall on the same day. -/
theorem getLocalDateString_eq_iff (a b : Int) :
    Old.getLocalDateString (some a) = Old.getLocalDateString (some b) ↔ Day a = Day b :=
  ⟨getLocalDateString_injective a b, getLocalDateString_of_Day a b⟩

/-- Rebuilding a date in a year from 100 on from its own year, month and day of the month
gives local midnight of the same day. -/
theorem ofYMD_fields_valid (t : Int) (hlo : -maxTime ≤ t) (hhi : t ≤ maxTime)
    (hy : ¬ (0 ≤ YearFromTime t ∧ YearFromTime t ≤ 99)) :
    JSDate.ofYMD (some (YearFromTime t)) (some (MonthFromTime t)) (some (DateFromTime t)) =
      some (Day t * msPerDay) := by
  have hs := MakeDay_shift t 0
  rw [sub_zero, sub_zero] at hs
  simp only [JSDate.ofYMD, UTC, LocalTZA, sub_zero, MakeTime, MakeDate, zero_mul, add_zero]
  rw [if_neg hy, hs]
  unfold TimeClip
  rw [if_neg]
  unfold Day maxTime msPerDay at *
  omega

/-- A rendered date string of a year from 0 on splits at its dashes into year, month and
day. -/
theorem split_dateString (t : Int) (hy : 0 ≤ YearFromTime t) :
    split (Old.getLocalDateString (some t)) '-' =
      [numToString (some (YearFromTime t)), twoDigits (MonthFromTime t + 1),
        twoDigits (DateFromTime t)] := by
  have hm := MonthFromTime_bounds t
  have hd := DateFromTime_bounds t
  rw [old_getLocalDateString_some, numToString_nonneg _ hy,
    split_append '-' _ _ (digits_no_sep _ '-' (toDigits_allDigits _) (Or.inl (by decide))),
    split_append '-' _ _ (digits_no_sep _ '-' (twoDigits_isDigit _ (by omega) (by omega))
      (Or.inl (by decide))),
    split_of_no_sep '-' _ (digits_no_sep _ '-' (twoDigits_isDigit _ (by omega) (by omega))
      (Or.inl (by decide)))]

/-- The date selected by a click on the card of a valid date in a year from 100 on is local
midnight of that date, in both variants. -/
theorem handleDayClick_value (now : Int) (lc : Str → Str → Int) (s : AppState)
    (element : Nat) (t : Int) (hlo : -maxTime ≤ t) (hhi : t ≤ maxTime)
    (hy : 100 ≤ YearFromTime t) :
    (Ced.handleDayClick now lc s element (Old.getLocalDateString (some t))).store.read
        (Ced.handleDayClick now lc s element
          (Old.getLocalDateString (some t))).selectedDate = some (Day t * msPerDay) ∧
    (Old.handleDayClick s element (Old.getLocalDateString (some t))).store.read
        (Old.handleDayClick s element (Old.getLocalDateString (some t))).selectedDate =
      some (Day t * msPerDay) := by
  have hm := MonthFromTime_bounds t
  have hd := DateFromTime_bounds t
  have hsub : numSub (some (MonthFromTime t + 1)) (some 1) = some (MonthFromTime t) := by
    simp [numSub]
  constructor
  · rw [ced_handleDayClick_selected, split_dateString t (by omega)]
    simp only [List.map_cons, List.map_nil, List.getD_cons_zero, List.getD_cons_succ,
      Number_numToString _ (show (0 : Int) ≤ YearFromTime t by omega),
      Number_twoDigits _ (show (0 : Int) ≤ MonthFromTime t + 1 by omega) (by omega),
      Number_twoDigits _ (show (0 : Int) ≤ DateFromTime t by omega) (by omega), hsub]
    exact ofYMD_fields_valid t hlo hhi (by omega)
  · rw [old_handleDayClick_selected, split_dateString t (by omega)]
    simp only [List.map_cons, List.map_nil, List.getD_cons_zero, List.getD_cons_succ,
      parseInt_numToString _ (show (0 : Int) ≤ YearFromTime t by omega),
      parseInt_twoDigits _ (show (0 : Int) ≤ MonthFromTime t + 1 by omega) (by omega),
      parseInt_twoDigits _ (show (0 : Int) ≤ DateFromTime t by omega) (by omega), hsub]
    exact ofYMD_fields_valid t hlo hhi (by omega)

/-! ## The error notice and the re-rendered panel -/

/-- The newer `displayDayDetails` never writes the loading-error notice. -/
theorem ced_displayDayDetails_no_notice (now : Int) (lc : Str → Str → Int) (s : AppState) :
    loadErrorNotice ∉ (Ced.displayDayDetails now lc s).detailsBox := by
  rw [ced_displayDayDetails_box]
  simp only [loadErrorNotice, List.mem_append, List.mem_singleton, not_or]
  refine ⟨by simp, ?_, ?_, ?_, ?_, ?_⟩ <;> split_ifs <;> simp

theorem ced_loadScheduleData_failed (fetched : FetchOutcome) (s : AppState)
    (hfail : fetched.failed = true) :
    Ced.loadScheduleData fetched s =
      { s with scheduleData := emptySnapshot, detailsBox := [loadErrorNotice] } := by
  rcases fetched with _ | ⟨ok, body⟩
  · rfl
  · rcases ok with _ | _
    · rfl
    · rcases body with _ | data
      · rfl
      · simp [FetchOutcome.failed] at hfail

/-- The panel of the newer `renderWeek` is the one it found (when `updateSelectors` throws)
or the one written by `displayDayDetails`. -/
theorem ced_renderWeek_box (now : Int) (lc : Str → Str → Int) (fetched : FetchOutcome)
    (s : AppState) (d : Option Nat) :
    (Ced.renderWeek now lc fetched s d).detailsBox = s.detailsBox ∨
    ∃ s2, (Ced.renderWeek now lc fetched s d).detailsBox =
      (Ced.loadThenDisplay now lc fetched s2).detailsBox ∧
      s2.store = (Ced.renderWeek now lc fetched s d).store ∧
      s2.selectedDate = (Ced.renderWeek now lc fetched s d).selectedDate := by
  unfold Ced.renderWeek
  simp only []
  generalize hs1 : ({ s with
      store := _, selectedDate := _, cards := _ } : AppState) = s1
  have hb : s1.detailsBox = s.detailsBox := by rw [← hs1]
  rcases hu : Ced.updateSelectors s1 with _ | s2
  · left
    simp [orAbort, hb]
  · right
    refine ⟨s2, by simp [orAbort], ?_, ?_⟩ <;>
      simp [orAbort, Ced.loadThenDisplay, Ced.displayDayDetails, Ced.loadScheduleData] <;>
      split <;> rfl

/-- C18 (the code does otherwise): in the newer variant `displayDayDetails` runs right after
`loadScheduleData` and assigns the whole detail panel. After a failed fetch of
`/get_schedule` (network error, status not OK, unreadable body) the pair
`loadScheduleData(); displayDayDetails()` therefore leaves the panel with the header of the
selected day followed by the "No schedule for this day" placeholder, and the panel of
`renderWeek` never holds the schedule-loading error message unless it held it before and
`updateSelectors` threw. -/
theorem C18_error_notice_overwritten (now : Int) (lc : Str → Str → Int)
    (fetched : FetchOutcome) (s : AppState) (hfail : fetched.failed = true) :
    (Ced.loadThenDisplay now lc fetched s).detailsBox =
      [Block.header (weekdayLong (s.store.read s.selectedDate))
          (shortDate (s.store.read s.selectedDate)),
        Block.placeholder "No schedule for this day. Chat with me to add items!".toList] ∧
    loadErrorNotice ∉ (Ced.loadThenDisplay now lc fetched s).detailsBox ∧
    ∀ d : Option Nat, loadErrorNotice ∉ s.detailsBox →
      loadErrorNotice ∉ (Ced.renderWeek now lc fetched s d).detailsBox := by
  refine ⟨?_, ced_displayDayDetails_no_notice now lc _, ?_⟩
  · unfold Ced.loadThenDisplay
    rw [ced_displayDayDetails_box, ced_loadScheduleData_failed fetched s hfail]
    simp [emptySnapshot, generatedPlanToday, classesToday, tasksToday, testsToday]
  · intro d hs
    rcases ced_renderWeek_box now lc fetched s d with h | ⟨s2, h, _⟩
    · rw [h]; exact hs
    · rw [h]; exact ced_displayDayDetails_no_notice now lc _

/-- Instance of C18: the page shows the week of 9 November 2025, the network is down and
the user presses "next week". The panel ends up with the header of Sunday 16 November and
the placeholder; the error message is not in it. -/
theorem C18_witness :
    FetchOutcome.networkError.failed = true ∧
    (Ced.loadNextWeek 0 codeUnitCompare FetchOutcome.networkError
      (samplePage (some 1762992000000))).detailsBox =
      [Block.header "Sunday".toList "Nov 16".toList,
        Block.placeholder "No schedule for this day. Chat with me to add items!".toList] ∧
    loadErrorNotice ∉ (Ced.loadThenDisplay 0 codeUnitCompare FetchOutcome.networkError
      (samplePage (some 1762992000000))).detailsBox :=
  ⟨rfl, by decide,
    (C18_error_notice_overwritten 0 codeUnitCompare FetchOutcome.networkError
      (samplePage (some 1762992000000)) rfl).2.1⟩

/-! ## Moving a date by whole days -/

theorem TimeClip_eq_some (x c : Int) (h : TimeClip x = some c) :
    x = c ∧ -maxTime ≤ x ∧ x ≤ maxTime := by
  unfold TimeClip at h
  by_cases hx : x < -maxTime ∨ maxTime < x
  · rw [if_pos hx] at h
    exact absurd h (by simp)
  · rw [if_neg hx] at h
    exact ⟨Option.some.inj h, by omega, by omega⟩

theorem TimeClip_of_range (x : Int) (hlo : -maxTime ≤ x) (hhi : x ≤ maxTime) :
    TimeClip x = some x := by
  unfold TimeClip
  rw [if_neg (by omega)]

theorem split_time_value (t : Int) :
    t = Day t * msPerDay + TimeWithinDay t ∧ 0 ≤ TimeWithinDay t ∧
      TimeWithinDay t < msPerDay := by
  unfold Day TimeWithinDay msPerDay
  omega

theorem Day_add_days (t k : Int) : Day (t + k * msPerDay) = Day t + k := by
  unfold Day msPerDay
  omega

theorem Day_midnight (D : Int) : Day (D * msPerDay) = D := by
  unfold Day msPerDay
  omega

theorem Day_mono (a b : Int) (h : a ≤ b) : Day a ≤ Day b := by
  unfold Day msPerDay
  omega

theorem WeekDay_add_week (t : Int) : WeekDay (t + 7 * msPerDay) = WeekDay t := by
  unfold WeekDay
  rw [Day_add_days]
  omega

theorem WeekDay_sub_week (t : Int) : WeekDay (t - 7 * msPerDay) = WeekDay t := by
  have h := WeekDay_add_week (t - 7 * msPerDay)
  rw [sub_add_cancel] at h
  exact h.symm

/-- The method `d.setDate(d.getDate() + k)` moves a date by `k` days and keeps the time of
day; the result is an Invalid Date when it leaves the range of time values. -/
theorem setDate_add (t k : Int) :
    JSDate.setDate (some t) (numAdd (JSDate.getDate (some t)) (some k)) =
      TimeClip (t + k * msPerDay) := by
  have h := MakeDay_shift t (-k)
  rw [sub_neg_eq_add, sub_neg_eq_add] at h
  obtain ⟨h1, _, _⟩ := split_time_value t
  simp only [JSDate.setDate, JSDate.getDate, numAdd, Option.map, LocalTime_eq, UTC, LocalTZA,
    sub_zero, h, MakeDate]
  congr 1
  unfold msPerDay at *
  omega

/-- The method `d.setDate(d.getDate() - k)` moves a date back by `k` days. -/
theorem setDate_sub (t k : Int) :
    JSDate.setDate (some t) (numSub (JSDate.getDate (some t)) (some k)) =
      TimeClip (t - k * msPerDay) := by
  have h := MakeDay_shift t k
  obtain ⟨h1, _, _⟩ := split_time_value t
  simp only [JSDate.setDate, JSDate.getDate, numSub, Option.map, LocalTime_eq, UTC, LocalTZA,
    sub_zero, h, MakeDate]
  congr 1
  unfold msPerDay at *
  omega

/-- The call `d.setHours(0, 0, 0, 0)` moves a date to the midnight before. -/
theorem setHours_zero (v : Int) :
    JSDate.setHours (some v) 0 0 0 0 = TimeClip (Day v * msPerDay) := by
  simp only [JSDate.setHours, LocalTime_eq, UTC, LocalTZA, sub_zero, MakeTime, MakeDate,
    zero_mul, add_zero]

theorem setHours_eq_some (tv : Num) (c : Int) (h : JSDate.setHours tv 0 0 0 0 = some c) :
    ∃ v, tv = some v ∧ c = Day v * msPerDay ∧ -maxTime ≤ c := by
  rcases tv with _ | v
  · simp [JSDate.setHours] at h
  · rw [setHours_zero] at h
    obtain ⟨h1, h2, _⟩ := TimeClip_eq_some _ _ h
    exact ⟨v, rfl, h1.symm, by omega⟩

/-- Midnight of a valid date is valid. -/
theorem midnight_valid (v : Int) (hlo : -maxTime ≤ v) (hhi : v ≤ maxTime) :
    JSDate.setHours (some v) 0 0 0 0 = some (Day v * msPerDay) := by
  rw [setHours_zero]
  apply TimeClip_of_range
  · unfold Day msPerDay maxTime at *
    omega
  · unfold Day msPerDay maxTime at *
    omega

/-! ## The cards of a week -/

theorem dayNameOf_valid (t : Int) :
    ∃ name, dayNameOf (JSDate.getDay (some t)) = some name := by
  have hb := WeekDay_bounds t
  simp only [JSDate.getDay, Option.map, LocalTime_eq, dayNameOf]
  generalize WeekDay t = w at hb
  obtain ⟨h0, h6⟩ := hb
  interval_cases w <;> simp [dayNames]

theorem cardsFrom_succ (sel : Str) (n : Nat) (c : Int) :
    cardsFrom sel (n + 1) c = cardOf sel c :: cardsFrom sel n (c + msPerDay) := by
  unfold cardsFrom
  rw [List.range_succ_eq_map, List.map_cons, List.map_map]
  congr 1
  · simp
  · apply List.map_congr_left
    intro i _
    simp only [Function.comp]
    congr 1
    push_cast
    ring

/-- The cards written by the newer `renderWeek` for a week of valid dates. -/
theorem ced_renderCards_valid (now : Int) (sel : Str) :
    ∀ (n : Nat) (t : Int), -maxTime ≤ t → t + ((n : Int) - 1) * msPerDay ≤ maxTime →
      Ced.renderCards now sel n (some t) = cardsFrom sel n t := by
  intro n
  induction n with
  | zero => intro t _ _; rfl
  | succ n ih =>
    intro t hlo hhi
    obtain ⟨name, hname⟩ := dayNameOf_valid t
    rw [cardsFrom_succ]
    unfold Ced.renderCards
    simp only [hname, ced_getLocalDateString_some, List.singleton_append]
    rcases n with _ | n
    · simp [Ced.renderCards, cardsFrom, cardOf, hname]
    · have hstep : JSDate.setDate (some t) (numAdd (JSDate.getDate (some t)) (some 1)) =
          some (t + msPerDay) := by
        rw [setDate_add, one_mul]
        apply TimeClip_of_range
        · unfold msPerDay at *; omega
        · push_cast at hhi
          unfold msPerDay at *
          omega
      rw [hstep, ih (t + msPerDay) (by unfold msPerDay at *; omega)
        (by push_cast at hhi ⊢; unfold msPerDay at *; omega)]
      simp [cardOf, hname]

/-- The cards written by the older `renderWeek` for a week of valid dates. -/
theorem old_renderCards_valid (sel : Str) :
    ∀ (n : Nat) (t : Int), -maxTime ≤ t → t + ((n : Int) - 1) * msPerDay ≤ maxTime →
      Old.renderCards sel n (some t) = cardsFrom sel n t := by
  intro n
  induction n with
  | zero => intro t _ _; rfl
  | succ n ih =>
    intro t hlo hhi
    rw [cardsFrom_succ]
    unfold Old.renderCards
    rcases n with _ | n
    · simp [Old.renderCards, cardsFrom, cardOf]
    · have hstep : JSDate.setDate (some t) (numAdd (JSDate.getDate (some t)) (some 1)) =
          some (t + msPerDay) := by
        rw [setDate_add, one_mul]
        apply TimeClip_of_range
        · unfold msPerDay at *; omega
        · push_cast at hhi
          unfold msPerDay at *
          omega
      simp only []
      rw [hstep, ih (t + msPerDay) (by unfold msPerDay at *; omega)
        (by push_cast at hhi ⊢; unfold msPerDay at *; omega)]
      simp [cardOf]

theorem cardsFrom_length (sel : Str) (n : Nat) (c : Int) : (cardsFrom sel n c).length = n := by
  simp [cardsFrom]

theorem cardsFrom_get (sel : Str) (n : Nat) (c : Int) (i : Nat) (card : DayCard)
    (h : (cardsFrom sel n c).get? i = some card) :
    i < n ∧ card = cardOf sel (c + (i : Int) * msPerDay) := by
  unfold cardsFrom at h
  rw [List.get?_eq_getElem?, List.getElem?_map] at h
  by_cases hi : i < n
  · rw [List.getElem?_range hi] at h
    simp only [Option.map_some'] at h
    exact ⟨hi, (Option.some.inj h).symm⟩
  · rw [List.getElem?_eq_none (by simp; omega)] at h
    simp at h

/-! ## Years of nearby days, and the first of a month -/

/-- Days at most a year apart lie in the same or in consecutive years. -/
theorem year_near (x y : Int) (h1 : Day x ≤ Day y) (h2 : Day y ≤ Day x + 365) :
    YearFromTime x ≤ YearFromTime y ∧ YearFromTime y ≤ YearFromTime x + 1 := by
  obtain ⟨x1, x2⟩ := YearOfDay_spec (Day x)
  obtain ⟨y1, y2⟩ := YearOfDay_spec (Day y)
  unfold YearFromTime
  constructor
  · by_contra hn
    have := DayFromYear_mono (show YearOfDay (Day y) + 1 ≤ YearOfDay (Day x) by omega)
    omega
  · by_contra hn
    have := DayFromYear_mono (show YearOfDay (Day x) + 1 + 1 ≤ YearOfDay (Day y) by omega)
    have hs := DayFromYear_succ (YearOfDay (Day x) + 1)
    rcases DaysInYear_cases (YearOfDay (Day x) + 1) with h | h <;> omega

theorem YearFromTime_midnight (t : Int) : YearFromTime (Day t * msPerDay) = YearFromTime t := by
  unfold YearFromTime
  rw [Day_midnight]

theorem monthOfYearDay_monthStart (m l : Int) (h0 : 0 ≤ m) (h11 : m ≤ 11)
    (hl : l = 0 ∨ l = 1) : monthOfYearDay (monthStart m l) l = m := by
  rcases hl with rfl | rfl <;> interval_cases m <;> rfl

/-- The date `new Date(y, m, 1)` for a month `m` from 0 to 11 and a year `y` outside 0..99:
midnight of the first day of that month of that year, when that is a valid time value. -/
theorem ofYMD_first (y m : Int) (h0 : 0 ≤ m) (h11 : m ≤ 11) (hy : ¬ (0 ≤ y ∧ y ≤ 99)) :
    JSDate.ofYMD (some y) (some m) (some 1) = TimeClip (MakeDay y m 1 * msPerDay) ∧
    YearFromTime (MakeDay y m 1 * msPerDay) = y ∧
    MonthFromTime (MakeDay y m 1 * msPerDay) = m ∧
    DateFromTime (MakeDay y m 1 * msPerDay) = 1 := by
  have e1 : m / 12 = 0 := by omega
  have e2 : m % 12 = m := by omega
  have hl : (if DaysInYear y = 366 then (1 : Int) else 0) = 0 ∨
      (if DaysInYear y = 366 then (1 : Int) else 0) = 1 := by
    split_ifs <;> simp
  have hday : MakeDay y m 1 =
      DayFromYear y + monthStart m (if DaysInYear y = 366 then 1 else 0) := by
    unfold MakeDay
    simp only [e1, e2, add_zero]
    omega
  have hms : 0 ≤ monthStart m (if DaysInYear y = 366 then 1 else 0) ∧
      monthStart m (if DaysInYear y = 366 then 1 else 0) < 365 := by
    rcases hl with h | h <;> rw [h] <;> interval_cases m <;> simp [monthStart]
  have hyear : YearOfDay (MakeDay y m 1) = y := by
    apply YearOfDay_unique
    · omega
    · rw [DayFromYear_succ]
      rcases DaysInYear_cases y with h | h <;> omega
  have hY : YearFromTime (MakeDay y m 1 * msPerDay) = y := by
    unfold YearFromTime
    rw [Day_midnight, hyear]
  have hleap : InLeapYear (MakeDay y m 1 * msPerDay) =
      (if DaysInYear y = 366 then 1 else 0) := by
    unfold InLeapYear
    rw [hY]
  have hdwy : DayWithinYear (MakeDay y m 1 * msPerDay) =
      monthStart m (if DaysInYear y = 366 then 1 else 0) := by
    unfold DayWithinYear
    rw [hY, Day_midnight, hday]
    omega
  have hM : MonthFromTime (MakeDay y m 1 * msPerDay) = m := by
    unfold MonthFromTime
    rw [hdwy, hleap]
    exact monthOfYearDay_monthStart m _ h0 h11 hl
  refine ⟨?_, hY, hM, ?_⟩
  · simp only [JSDate.ofYMD, UTC, LocalTZA, sub_zero, MakeTime, MakeDate, zero_mul, add_zero]
    rw [if_neg hy]
  · unfold DateFromTime
    rw [hM, hdwy, hleap]
    omega

/-! ## The year options -/

theorem yearStrings_mem (a b y : Int) :
    numToString (some y) ∈ yearStrings a b ↔ a ≤ y ∧ y ≤ b := by
  unfold yearStrings
  simp only [List.mem_map, List.mem_range]
  constructor
  · rintro ⟨i, hi, he⟩
    have := numToString_injective _ _ he
    omega
  · rintro ⟨h1, h2⟩
    refine ⟨(y - a).toNat, by omega, ?_⟩
    congr 2
    omega

theorem yearStrings_cons (a b : Int) (h : a ≤ b + 1) :
    yearStrings (a - 1) b = numToString (some (a - 1)) :: yearStrings a b := by
  unfold yearStrings
  have e : (b + 1 - (a - 1)).toNat = (b + 1 - a).toNat + 1 := by omega
  rw [e, List.range_succ_eq_map, List.map_cons, List.map_map]
  congr 1
  · simp
  · apply List.map_congr_left
    intro i _
    simp only [Function.comp]
    congr 2
    push_cast
    ring

theorem yearStrings_snoc (a b : Int) (h : a ≤ b + 1) :
    yearStrings a (b + 1) = yearStrings a b ++ [numToString (some (b + 1))] := by
  unfold yearStrings
  have e : (b + 1 + 1 - a).toNat = (b + 1 - a).toNat + 1 := by omega
  rw [e, List.range_succ, List.map_append, List.map_singleton]
  have e2 : a + (((b + 1 - a).toNat : Nat) : Int) = b + 1 := by omega
  rw [e2]

theorem yearStrings_head (a b : Int) (h : a ≤ b) :
    ∃ rest, yearStrings a b = numToString (some a) :: rest := by
  have := yearStrings_cons (a + 1) b (by omega)
  rw [add_sub_cancel_right] at this
  exact ⟨_, this⟩

/-- On consecutive years, adding the same, the previous or the next year leaves
consecutive years: the comparison with the first option is enough. -/
theorem yearOptionsAfter_interval (parse : Str → Num)
    (hparse : ∀ n : Int, 0 ≤ n → parse (numToString (some n)) = some n)
    (a b y : Int) (ha : 0 ≤ a) (hab : a ≤ b) (h1 : a - 1 ≤ y) (h2 : y ≤ b + 1) :
    yearOptionsAfter parse (yearStrings a b) (some y) = yearStrings (min a y) (max b y) := by
  unfold yearOptionsAfter
  by_cases hmem : a ≤ y ∧ y ≤ b
  · rw [if_pos ((yearStrings_mem a b y).2 hmem), min_eq_left hmem.1, max_eq_left hmem.2]
  · rw [if_neg (fun h => hmem ((yearStrings_mem a b y).1 h))]
    obtain ⟨rest, hrest⟩ := yearStrings_head a b hab
    rw [hrest]
    simp only [hparse a ha, numLt]
    by_cases hlt : y < a
    · have hy : y = a - 1 := by omega
      rw [if_pos (by simpa using hlt), ← hrest, hy, min_eq_right (by omega),
        max_eq_left (by omega), yearStrings_cons a b (by omega)]
    · have hy : y = b + 1 := by omega
      rw [if_neg (by simpa using hlt), ← hrest, hy, min_eq_left (by omega),
        max_eq_right (by omega), yearStrings_snoc a b (by omega)]

/-- Consecutive years read as strictly ascending numbers. -/
theorem yearStrings_ascending (parse : Str → Num)
    (hparse : ∀ n : Int, 0 ≤ n → parse (numToString (some n)) = some n)
    (a b : Int) (ha : 0 ≤ a) :
    (yearStrings a b).Pairwise (fun p q => numLt (parse p) (parse q) = true) := by
  unfold yearStrings
  rw [List.pairwise_map]
  refine List.Pairwise.imp ?_ (List.pairwise_lt_range _)
  intro i j hij
  rw [hparse _ (by omega), hparse _ (by omega)]
  simp only [numLt, decide_eq_true_eq]
  omega

theorem yearStrings_nodup (a b : Int) : (yearStrings a b).Nodup := by
  unfold yearStrings
  refine List.Nodup.map_on ?_ (List.nodup_range _)
  intro i _ j _ h
  have := numToString_injective _ _ h
  omega

theorem monthOptions_mem (m : Str) (h : m ∈ (initializeSelectors 0).1.options) :
    ∃ k : Int, 0 ≤ k ∧ k ≤ 11 ∧ m = numToString (some k) := by
  simp only [initializeSelectors, List.mem_map, List.mem_range] at h
  obtain ⟨i, hi, rfl⟩ := h
  exact ⟨i, by omega, by omega, rfl⟩

theorem initial_years (now : Int) :
    (initializeSelectors now).2.options =
      yearStrings (YearFromTime now) (YearFromTime now + 2) := by
  unfold yearStrings
  have e : (YearFromTime now + 2 + 1 - YearFromTime now).toNat = 3 := by omega
  rw [e]
  simp [initializeSelectors, JSDate.getFullYear, LocalTime_eq, numAdd]

/-! ## What the operations leave behind -/

theorem ced_displayDayDetails_same (now : Int) (lc : Str → Str → Int) (x : AppState) :
    SameCalendar (Ced.displayDayDetails now lc x) x :=
  ⟨rfl, rfl, rfl, rfl, rfl, rfl⟩

theorem old_displayDayDetails_same (x : AppState) :
    SameCalendar (Old.displayDayDetails x) x :=
  ⟨rfl, rfl, rfl, rfl, rfl, rfl⟩

theorem ced_loadThenDisplay_same (now : Int) (lc : Str → Str → Int) (fetched : FetchOutcome)
    (x : AppState) : SameCalendar (Ced.loadThenDisplay now lc fetched x) x := by
  unfold Ced.loadThenDisplay Ced.loadScheduleData
  split <;> exact ⟨rfl, rfl, rfl, rfl, rfl, rfl⟩

theorem old_loadThenDisplay_same (fetched : Old.FetchResult) (x : AppState) :
    SameCalendar (Old.displayDayDetails (Old.loadScheduleData fetched x)) x := by
  unfold Old.loadScheduleData
  split <;> exact ⟨rfl, rfl, rfl, rfl, rfl, rfl⟩

/-- The newer `updateSelectors` followed by a step that leaves the calendar alone: dates
and cards stay, the month options stay, and the year options are those of
`yearOptionsAfter`, also when `updateSelectors` throws. -/
theorem ced_updateSelectors_then (f : AppState → AppState)
    (hf : ∀ x, SameCalendar (f x) x) (s1 : AppState) :
    ∀ r, r = orAbort s1 ((Ced.updateSelectors s1).map f) →
      r.store = s1.store ∧ r.currentWeekStart = s1.currentWeekStart ∧
      r.selectedDate = s1.selectedDate ∧ r.cards = s1.cards ∧
      r.monthSelect.options = s1.monthSelect.options ∧
      r.yearSelect.options = yearOptionsAfter parseInt s1.yearSelect.options
        (JSDate.getFullYear (s1.store.read s1.selectedDate)) := by
  intro r hr
  subst hr
  rcases hu : Ced.updateSelectors s1 with _ | s2
  · have e : orAbort s1 (Option.map f none) = s1 := rfl
    rw [e]
    refine ⟨rfl, rfl, rfl, rfl, rfl, ?_⟩
    unfold Ced.updateSelectors at hu
    unfold yearOptionsAfter
    simp only [Option.map_eq_none'] at hu
    split_ifs at hu ⊢ with h1
    rcases hopt : s1.yearSelect.options with _ | ⟨first, rest⟩
    · rfl
    · rw [hopt] at hu
      simp only [] at hu
      split_ifs at hu
  · obtain ⟨e1, e2, e3, e4, e5, e6⟩ := hf s2
    simp only [orAbort, Option.map_some', Option.getD_some]
    rw [e1, e2, e3, e4, e5, e6]
    unfold Ced.updateSelectors at hu
    unfold yearOptionsAfter
    simp only [Option.map_eq_some'] at hu
    obtain ⟨ys, hys, rfl⟩ := hu
    refine ⟨rfl, rfl, rfl, rfl, rfl, ?_⟩
    simp only [Select.setValue]
    split_ifs at hys ⊢ with h1
    · rw [← Option.some.inj hys]
    · rcases hopt : s1.yearSelect.options with _ | ⟨first, rest⟩
      · rw [hopt] at hys
        simp at hys
      · rw [hopt] at hys
        simp only [] at hys ⊢
        split_ifs at hys ⊢ with h2
        · rw [← Option.some.inj hys]
        · rw [← Option.some.inj hys]

/-- The older `updateSelectors` followed by a step that leaves the calendar alone. -/
theorem old_updateSelectors_then (f : AppState → AppState)
    (hf : ∀ x, SameCalendar (f x) x) (s1 : AppState) :
    ∀ r, r = orAbort s1 ((Old.updateSelectors s1).map f) →
      r.store = s1.store ∧ r.currentWeekStart = s1.currentWeekStart ∧
      r.selectedDate = s1.selectedDate ∧ r.cards = s1.cards ∧
      r.monthSelect.options = s1.monthSelect.options ∧
      r.yearSelect.options = yearOptionsAfter Number s1.yearSelect.options
        (JSDate.getFullYear (s1.store.read s1.selectedDate)) := by
  intro r hr
  subst hr
  rcases hu : Old.updateSelectors s1 with _ | s2
  · have e : orAbort s1 (Option.map f none) = s1 := rfl
    rw [e]
    refine ⟨rfl, rfl, rfl, rfl, rfl, ?_⟩
    unfold Old.updateSelectors at hu
    unfold yearOptionsAfter
    simp only [Option.map_eq_none'] at hu
    split_ifs at hu ⊢ with h1
    rcases hopt : s1.yearSelect.options with _ | ⟨first, rest⟩
    · rfl
    · rw [hopt] at hu
      simp only [] at hu
      split_ifs at hu
  · obtain ⟨e1, e2, e3, e4, e5, e6⟩ := hf s2
    simp only [orAbort, Option.map_some', Option.getD_some]
    rw [e1, e2, e3, e4, e5, e6]
    unfold Old.updateSelectors at hu
    unfold yearOptionsAfter
    simp only [Option.map_eq_some'] at hu
    obtain ⟨ys, hys, rfl⟩ := hu
    refine ⟨rfl, rfl, rfl, rfl, rfl, ?_⟩
    simp only [Select.setValue]
    split_ifs at hys ⊢ with h1
    · rw [← Option.some.inj hys]
    · rcases hopt : s1.yearSelect.options with _ | ⟨first, rest⟩
      · rw [hopt] at hys
        simp at hys
      · rw [hopt] at hys
        simp only [] at hys ⊢
        split_ifs at hys ⊢ with h2
        · rw [← Option.some.inj hys]
        · rw [← Option.some.inj hys]

/-! ## What `renderWeek` computes -/

theorem read_fresh_written (σ : DateStore) (tv w : Num) :
    ((σ.alloc tv).2.write (σ.alloc tv).1 w).read (σ.alloc tv).1 = w :=
  read_write_same _ _ _ (by simp [DateStore.alloc])

theorem read_below_fresh (σ : DateStore) (tv w : Num) (q : Nat) (hq : q < σ.length) :
    ((σ.alloc tv).2.write (σ.alloc tv).1 w).read q = σ.read q := by
  rw [read_write_other _ _ _ _ (by simp only [DateStore.alloc]; omega), read_alloc_old _ _ _ hq]

/-- The newer `renderWeek`: the week start is kept, the selected date is a fresh object
holding midnight of the date passed (of the week start when none is passed), the cards are
those of the loop from the week start, and the drop-downs follow the selected date. -/
theorem ced_renderWeek_spec (now : Int) (lc : Str → Str → Int) (fetched : FetchOutcome)
    (s : AppState) (d : Option Nat) :
    ∀ r, r = Ced.renderWeek now lc fetched s d →
      r.currentWeekStart = s.currentWeekStart ∧
      (∀ q : Nat, q < s.store.length → r.store.read q = s.store.read q) ∧
      r.store.read r.selectedDate =
        JSDate.setHours (s.store.read (d.getD s.currentWeekStart)) 0 0 0 0 ∧
      r.cards = Ced.renderCards now (Ced.getLocalDateString now
          (JSDate.setHours (s.store.read (d.getD s.currentWeekStart)) 0 0 0 0)) 7
        (s.store.read s.currentWeekStart) ∧
      r.monthSelect.options = s.monthSelect.options ∧
      r.yearSelect.options = yearOptionsAfter parseInt s.yearSelect.options
        (JSDate.getFullYear
          (JSDate.setHours (s.store.read (d.getD s.currentWeekStart)) 0 0 0 0)) := by
  intro r hr
  unfold Ced.renderWeek at hr
  simp only [] at hr
  obtain ⟨e1, e2, e3, e4, e5, e6⟩ :=
    ced_updateSelectors_then _ (ced_loadThenDisplay_same now lc fetched) _ r hr
  simp only [] at e1 e2 e3 e4 e5 e6
  rw [e2, e1, e3, e4, e5, e6]
  simp only [read_fresh_written, read_alloc_new]
  refine ⟨trivial, ?_, trivial, trivial, trivial, trivial⟩
  intro q hq
  exact read_below_fresh _ _ _ q hq

/-- The older `renderWeek`: the selected date is the object passed, or a fresh copy of the
week start when none is passed; no time of day is reset. -/
theorem old_renderWeek_spec (fetched : Old.FetchResult) (s : AppState) (d : Option Nat) :
    ∀ r, r = Old.renderWeek fetched s d →
      r.currentWeekStart = s.currentWeekStart ∧
      (∀ q : Nat, q < s.store.length → r.store.read q = s.store.read q) ∧
      r.store.read r.selectedDate = s.store.read (d.getD s.currentWeekStart) ∧
      r.cards = Old.renderCards (Old.getLocalDateString
          (s.store.read (d.getD s.currentWeekStart))) 7 (s.store.read s.currentWeekStart) ∧
      r.monthSelect.options = s.monthSelect.options ∧
      r.yearSelect.options = yearOptionsAfter Number s.yearSelect.options
        (JSDate.getFullYear (s.store.read (d.getD s.currentWeekStart))) := by
  intro r hr
  unfold Old.renderWeek at hr
  simp only [] at hr
  obtain ⟨e1, e2, e3, e4, e5, e6⟩ :=
    old_updateSelectors_then _ (old_loadThenDisplay_same fetched) _ r hr
  simp only [] at e1 e2 e3 e4 e5 e6
  rw [e2, e1, e3, e4, e5, e6]
  rcases d with _ | ref
  · simp only [Option.getD_none, read_alloc_new]
    refine ⟨trivial, ?_, trivial, trivial, trivial, trivial⟩
    intro q hq
    exact read_alloc_old _ _ q hq
  · simp

/-! ## What the navigation handlers compute -/

theorem write_length (σ : DateStore) (r : Nat) (w : Num) : (σ.write r w).length = σ.length := by
  simp [DateStore.write]

/-- Overwriting the week start with `w`, copying it and rendering with the copy as the date
to select, as the newer `loadPreviousWeek` and `loadNextWeek` do. -/
theorem ced_navigate_spec (now : Int) (lc : Str → Str → Int) (fetched : FetchOutcome)
    (s : AppState) (w : Num) (hlen : s.currentWeekStart < s.store.length) :
    ∀ r, r = Ced.renderWeek now lc fetched
        { s with store := ((s.store.write s.currentWeekStart w).alloc
          ((s.store.write s.currentWeekStart w).read s.currentWeekStart)).2 }
        (some ((s.store.write s.currentWeekStart w).alloc
          ((s.store.write s.currentWeekStart w).read s.currentWeekStart)).1) →
      r.currentWeekStart = s.currentWeekStart ∧
      r.store.read r.currentWeekStart = w ∧
      r.store.read r.selectedDate = JSDate.setHours w 0 0 0 0 ∧
      r.cards = Ced.renderCards now
        (Ced.getLocalDateString now (JSDate.setHours w 0 0 0 0)) 7 w ∧
      r.monthSelect.options = s.monthSelect.options ∧
      r.yearSelect.options = yearOptionsAfter parseInt s.yearSelect.options
        (JSDate.getFullYear (JSDate.setHours w 0 0 0 0)) := by
  intro r hr
  obtain ⟨e1, e2, e3, e4, e5, e6⟩ := ced_renderWeek_spec now lc fetched _ _ r hr
  have hw : (s.store.write s.currentWeekStart w).read s.currentWeekStart = w :=
    read_write_same _ _ _ hlen
  have hl : s.currentWeekStart < (s.store.write s.currentWeekStart w).length := by
    rw [write_length]; exact hlen
  simp only [Option.getD_some, read_alloc_new, hw, read_alloc_old _ _ _ hl] at e1 e2 e3 e4 e5 e6
  have hl2 : s.currentWeekStart <
      ((s.store.write s.currentWeekStart w).alloc w).2.length := by
    simp only [DateStore.alloc, List.length_append, List.length_singleton]
    exact Nat.lt_succ_of_lt hl
  refine ⟨e1, ?_, e3, e4, e5, e6⟩
  rw [e1, e2 s.currentWeekStart hl2, read_alloc_old _ _ _ hl, hw]

theorem ced_loadNextWeek_spec (now : Int) (lc : Str → Str → Int) (fetched : FetchOutcome)
    (s : AppState) (c : Int) (hc : s.store.read s.currentWeekStart = some c) :
    ∀ r, r = Ced.loadNextWeek now lc fetched s →
      r.currentWeekStart = s.currentWeekStart ∧
      r.store.read r.currentWeekStart = TimeClip (c + 7 * msPerDay) ∧
      r.store.read r.selectedDate = JSDate.setHours (TimeClip (c + 7 * msPerDay)) 0 0 0 0 ∧
      r.cards = Ced.renderCards now (Ced.getLocalDateString now
          (JSDate.setHours (TimeClip (c + 7 * msPerDay)) 0 0 0 0)) 7
        (TimeClip (c + 7 * msPerDay)) ∧
      r.monthSelect.options = s.monthSelect.options ∧
      r.yearSelect.options = yearOptionsAfter parseInt s.yearSelect.options
        (JSDate.getFullYear (JSDate.setHours (TimeClip (c + 7 * msPerDay)) 0 0 0 0)) := by
  intro r hr
  have h := ced_navigate_spec now lc fetched s
    (JSDate.setDate (s.store.read s.currentWeekStart)
      (numAdd (JSDate.getDate (s.store.read s.currentWeekStart)) (some 7)))
    (lt_length_of_read _ _ _ hc) r hr
  rw [hc, setDate_add] at h
  exact h

theorem ced_loadPreviousWeek_spec (now : Int) (lc : Str → Str → Int) (fetched : FetchOutcome)
    (s : AppState) (c : Int) (hc : s.store.read s.currentWeekStart = some c) :
    ∀ r, r = Ced.loadPreviousWeek now lc fetched s →
      r.currentWeekStart = s.currentWeekStart ∧
      r.store.read r.currentWeekStart = TimeClip (c - 7 * msPerDay) ∧
      r.store.read r.selectedDate = JSDate.setHours (TimeClip (c - 7 * msPerDay)) 0 0 0 0 ∧
      r.cards = Ced.renderCards now (Ced.getLocalDateString now
          (JSDate.setHours (TimeClip (c - 7 * msPerDay)) 0 0 0 0)) 7
        (TimeClip (c - 7 * msPerDay)) ∧
      r.monthSelect.options = s.monthSelect.options ∧
      r.yearSelect.options = yearOptionsAfter parseInt s.yearSelect.options
        (JSDate.getFullYear (JSDate.setHours (TimeClip (c - 7 * msPerDay)) 0 0 0 0)) := by
  intro r hr
  have h := ced_navigate_spec now lc fetched s
    (JSDate.setDate (s.store.read s.currentWeekStart)
      (numSub (JSDate.getDate (s.store.read s.currentWeekStart)) (some 7)))
    (lt_length_of_read _ _ _ hc) r hr
  rw [hc, setDate_sub] at h
  exact h

/-- Overwriting the week start with `w` and rendering with no date to select, as the older
`loadPreviousWeek` and `loadNextWeek` do. -/
theorem old_navigate_spec (fetched : Old.FetchResult) (s : AppState) (w : Num)
    (hlen : s.currentWeekStart < s.store.length) :
    ∀ r, r = Old.renderWeek fetched
        { s with store := s.store.write s.currentWeekStart w } none →
      r.currentWeekStart = s.currentWeekStart ∧
      r.store.read r.currentWeekStart = w ∧
      r.store.read r.selectedDate = w ∧
      r.cards = Old.renderCards (Old.getLocalDateString w) 7 w ∧
      r.monthSelect.options = s.monthSelect.options ∧
      r.yearSelect.options = yearOptionsAfter Number s.yearSelect.options
        (JSDate.getFullYear w) := by
  intro r hr
  obtain ⟨e1, e2, e3, e4, e5, e6⟩ := old_renderWeek_spec fetched _ _ r hr
  have hw : (s.store.write s.currentWeekStart w).read s.currentWeekStart = w :=
    read_write_same _ _ _ hlen
  simp only [Option.getD_none, hw] at e1 e2 e3 e4 e5 e6
  refine ⟨e1, ?_, e3, e4, e5, e6⟩
  rw [e1, e2 s.currentWeekStart (by rw [write_length]; exact hlen), hw]

theorem old_loadNextWeek_spec (fetched : Old.FetchResult) (s : AppState) (c : Int)
    (hc : s.store.read s.currentWeekStart = some c) :
    ∀ r, r = Old.loadNextWeek fetched s →
      r.currentWeekStart = s.currentWeekStart ∧
      r.store.read r.currentWeekStart = TimeClip (c + 7 * msPerDay) ∧
      r.store.read r.selectedDate = TimeClip (c + 7 * msPerDay) ∧
      r.cards = Old.renderCards (Old.getLocalDateString (TimeClip (c + 7 * msPerDay))) 7
        (TimeClip (c + 7 * msPerDay)) ∧
      r.monthSelect.options = s.monthSelect.options ∧
      r.yearSelect.options = yearOptionsAfter Number s.yearSelect.options
        (JSDate.getFullYear (TimeClip (c + 7 * msPerDay))) := by
  intro r hr
  have h := old_navigate_spec fetched s
    (JSDate.setDate (s.store.read s.currentWeekStart)
      (numAdd (JSDate.getDate (s.store.read s.currentWeekStart)) (some 7)))
    (lt_length_of_read _ _ _ hc) r hr
  rw [hc, setDate_add] at h
  exact h

theorem old_loadPreviousWeek_spec (fetched : Old.FetchResult) (s : AppState) (c : Int)
    (hc : s.store.read s.currentWeekStart = some c) :
    ∀ r, r = Old.loadPreviousWeek fetched s →
      r.currentWeekStart = s.currentWeekStart ∧
      r.store.read r.currentWeekStart = TimeClip (c - 7 * msPerDay) ∧
      r.store.read r.selectedDate = TimeClip (c - 7 * msPerDay) ∧
      r.cards = Old.renderCards (Old.getLocalDateString (TimeClip (c - 7 * msPerDay))) 7
        (TimeClip (c - 7 * msPerDay)) ∧
      r.monthSelect.options = s.monthSelect.options ∧
      r.yearSelect.options = yearOptionsAfter Number s.yearSelect.options
        (JSDate.getFullYear (TimeClip (c - 7 * msPerDay))) := by
  intro r hr
  have h := old_navigate_spec fetched s
    (JSDate.setDate (s.store.read s.currentWeekStart)
      (numSub (JSDate.getDate (s.store.read s.currentWeekStart)) (some 7)))
    (lt_length_of_read _ _ _ hc) r hr
  rw [hc, setDate_sub] at h
  exact h

/-! ## Week navigation -/

/-- The time values left by week navigation on a host on UTC: when the week start holds the
valid date `c`, `loadNextWeek` leaves `c` plus 7 days and `loadPreviousWeek` `c` minus 7
days, if that is within the range of time values; the selected date becomes midnight of the
new week start in the newer variant and a copy of it in the older one; going back after
going forward, or forward after going back, restores `c`. -/
theorem week_navigation_values (lc : Str → Str → Int) (now1 now2 : Int)
    (f1 f2 : FetchOutcome) (g1 g2 : Old.FetchResult) (s : AppState) (c : Int)
    (hc : s.store.read s.currentWeekStart = some c)
    (hlo : -maxTime ≤ c) (hhi : c ≤ maxTime) :
    (c + 7 * msPerDay ≤ maxTime →
      Day (c + 7 * msPerDay) = Day c + 7 ∧ WeekDay (c + 7 * msPerDay) = WeekDay c ∧
      (Ced.loadNextWeek now1 lc f1 s).store.read
        (Ced.loadNextWeek now1 lc f1 s).currentWeekStart = some (c + 7 * msPerDay) ∧
      (Ced.loadNextWeek now1 lc f1 s).store.read
        (Ced.loadNextWeek now1 lc f1 s).selectedDate = some ((Day c + 7) * msPerDay) ∧
      (Ced.loadPreviousWeek now2 lc f2 (Ced.loadNextWeek now1 lc f1 s)).store.read
        (Ced.loadPreviousWeek now2 lc f2 (Ced.loadNextWeek now1 lc f1 s)).currentWeekStart =
          some c ∧
      (Old.loadNextWeek g1 s).store.read (Old.loadNextWeek g1 s).currentWeekStart =
        some (c + 7 * msPerDay) ∧
      (Old.loadNextWeek g1 s).store.read (Old.loadNextWeek g1 s).selectedDate =
        some (c + 7 * msPerDay) ∧
      (Old.loadPreviousWeek g2 (Old.loadNextWeek g1 s)).store.read
        (Old.loadPreviousWeek g2 (Old.loadNextWeek g1 s)).currentWeekStart = some c) ∧
    (-maxTime ≤ c - 7 * msPerDay →
      Day (c - 7 * msPerDay) = Day c - 7 ∧ WeekDay (c - 7 * msPerDay) = WeekDay c ∧
      (Ced.loadPreviousWeek now1 lc f1 s).store.read
        (Ced.loadPreviousWeek now1 lc f1 s).currentWeekStart = some (c - 7 * msPerDay) ∧
      (Ced.loadPreviousWeek now1 lc f1 s).store.read
        (Ced.loadPreviousWeek now1 lc f1 s).selectedDate = some ((Day c - 7) * msPerDay) ∧
      (Ced.loadNextWeek now2 lc f2 (Ced.loadPreviousWeek now1 lc f1 s)).store.read
        (Ced.loadNextWeek now2 lc f2 (Ced.loadPreviousWeek now1 lc f1 s)).currentWeekStart =
          some c ∧
      (Old.loadPreviousWeek g1 s).store.read (Old.loadPreviousWeek g1 s).currentWeekStart =
        some (c - 7 * msPerDay) ∧
      (Old.loadPreviousWeek g1 s).store.read (Old.loadPreviousWeek g1 s).selectedDate =
        some (c - 7 * msPerDay) ∧
      (Old.loadNextWeek g2 (Old.loadPreviousWeek g1 s)).store.read
        (Old.loadNextWeek g2 (Old.loadPreviousWeek g1 s)).currentWeekStart = some c) := by
  have hback : TimeClip (c + 7 * msPerDay - 7 * msPerDay) = some c := by
    rw [add_sub_cancel_right]; exact TimeClip_of_range c hlo hhi
  have hforth : TimeClip (c - 7 * msPerDay + 7 * msPerDay) = some c := by
    rw [sub_add_cancel]; exact TimeClip_of_range c hlo hhi
  constructor
  · intro h7
    have hclip : TimeClip (c + 7 * msPerDay) = some (c + 7 * msPerDay) :=
      TimeClip_of_range _ (by unfold msPerDay at *; omega) h7
    obtain ⟨_, n2, n3, _⟩ := ced_loadNextWeek_spec now1 lc f1 s c hc _ rfl
    obtain ⟨_, o2, o3, _⟩ := old_loadNextWeek_spec g1 s c hc _ rfl
    rw [hclip] at n2 n3 o2 o3
    obtain ⟨_, p2, _⟩ := ced_loadPreviousWeek_spec now2 lc f2 _ _ n2 _ rfl
    obtain ⟨_, q2, _⟩ := old_loadPreviousWeek_spec g2 _ _ o2 _ rfl
    rw [hback] at p2 q2
    rw [midnight_valid _ (by unfold msPerDay at *; omega) h7, Day_add_days] at n3
    exact ⟨Day_add_days c 7, WeekDay_add_week c, n2, n3, p2, o2, o3, q2⟩
  · intro h7
    have hclip : TimeClip (c - 7 * msPerDay) = some (c - 7 * msPerDay) :=
      TimeClip_of_range _ h7 (by unfold msPerDay at *; omega)
    obtain ⟨_, n2, n3, _⟩ := ced_loadPreviousWeek_spec now1 lc f1 s c hc _ rfl
    obtain ⟨_, o2, o3, _⟩ := old_loadPreviousWeek_spec g1 s c hc _ rfl
    rw [hclip] at n2 n3 o2 o3
    obtain ⟨_, p2, _⟩ := ced_loadNextWeek_spec now2 lc f2 _ _ n2 _ rfl
    obtain ⟨_, q2, _⟩ := old_loadNextWeek_spec g2 _ _ o2 _ rfl
    rw [hforth] at p2 q2
    have hd : Day (c - 7 * msPerDay) = Day c - 7 := by
      have := Day_add_days c (-7)
      rw [neg_mul, ← sub_eq_add_neg, ← sub_eq_add_neg] at this
      exact this
    rw [midnight_valid _ h7 (by unfold msPerDay at *; omega), hd] at n3
    exact ⟨hd, WeekDay_sub_week c, n2, n3, p2, o2, o3, q2⟩

/-- C16 (amended): in both variants, when the week start holds a valid date, `loadNextWeek`
moves it forward by exactly 7 calendar days if the instant 7 days later is within the range
of time values, and `loadPreviousWeek` back by exactly 7 calendar days if the instant 7 days
earlier is: the new week start is a valid date on the same day of the week (a Sunday stays a
Sunday), the selected date becomes a valid date on the day of the new week start, and going
back after going forward, or forward after going back, leaves the week start on its
original day. -/
theorem C16_week_navigation (lc : Str → Str → Int) (now1 now2 : Int)
    (f1 f2 : FetchOutcome) (g1 g2 : Old.FetchResult) (s : AppState) (c : Int)
    (hc : s.store.read s.currentWeekStart = some c)
    (hlo : -maxTime ≤ c) (hhi : c ≤ maxTime) :
    (c + 7 * msPerDay ≤ maxTime →
      (∃ c1 u1 c2 : Int,
        (Ced.loadNextWeek now1 lc f1 s).store.read
          (Ced.loadNextWeek now1 lc f1 s).currentWeekStart = some c1 ∧
        Day c1 = Day c + 7 ∧ WeekDay c1 = WeekDay c ∧
        (Ced.loadNextWeek now1 lc f1 s).store.read
          (Ced.loadNextWeek now1 lc f1 s).selectedDate = some u1 ∧
        Day u1 = Day c1 ∧
        (Ced.loadPreviousWeek now2 lc f2 (Ced.loadNextWeek now1 lc f1 s)).store.read
          (Ced.loadPreviousWeek now2 lc f2 (Ced.loadNextWeek now1 lc f1 s)).currentWeekStart = some c2 ∧
        Day c2 = Day c) ∧
      (∃ c1 u1 c2 : Int,
        (Old.loadNextWeek g1 s).store.read
          (Old.loadNextWeek g1 s).currentWeekStart = some c1 ∧
        Day c1 = Day c + 7 ∧ WeekDay c1 = WeekDay c ∧
        (Old.loadNextWeek g1 s).store.read
          (Old.loadNextWeek g1 s).selectedDate = some u1 ∧
        Day u1 = Day c1 ∧
        (Old.loadPreviousWeek g2 (Old.loadNextWeek g1 s)).store.read
          (Old.loadPreviousWeek g2 (Old.loadNextWeek g1 s)).currentWeekStart = some c2 ∧
        Day c2 = Day c)) ∧
    (-maxTime ≤ c - 7 * msPerDay →
      (∃ c1 u1 c2 : Int,
        (Ced.loadPreviousWeek now1 lc f1 s).store.read
          (Ced.loadPreviousWeek now1 lc f1 s).currentWeekStart = some c1 ∧
        Day c1 = Day c - 7 ∧ WeekDay c1 = WeekDay c ∧
        (Ced.loadPreviousWeek now1 lc f1 s).store.read
          (Ced.loadPreviousWeek now1 lc f1 s).selectedDate = some u1 ∧
        Day u1 = Day c1 ∧
        (Ced.loadNextWeek now2 lc f2 (Ced.loadPreviousWeek now1 lc f1 s)).store.read
          (Ced.loadNextWeek now2 lc f2 (Ced.loadPreviousWeek now1 lc f1 s)).currentWeekStart = some c2 ∧
        Day c2 = Day c) ∧
      (∃ c1 u1 c2 : Int,
        (Old.loadPreviousWeek g1 s).store.read
          (Old.loadPreviousWeek g1 s).currentWeekStart = some c1 ∧
        Day c1 = Day c - 7 ∧ WeekDay c1 = WeekDay c ∧
        (Old.loadPreviousWeek g1 s).store.read
          (Old.loadPreviousWeek g1 s).selectedDate = some u1 ∧
        Day u1 = Day c1 ∧
        (Old.loadNextWeek g2 (Old.loadPreviousWeek g1 s)).store.read
          (Old.loadNextWeek g2 (Old.loadPreviousWeek g1 s)).currentWeekStart = some c2 ∧
        Day c2 = Day c)) := by
  obtain ⟨hn, hp⟩ := week_navigation_values lc now1 now2 f1 f2 g1 g2 s c hc hlo hhi
  constructor
  · intro h7
    obtain ⟨d1, d2, n2, n3, p2, o2, o3, q2⟩ := hn h7
    exact ⟨⟨_, _, _, n2, d1, d2, n3, by rw [Day_midnight, d1], p2, rfl⟩,
      ⟨_, _, _, o2, d1, d2, o3, rfl, q2, rfl⟩⟩
  · intro h7
    obtain ⟨d1, d2, n2, n3, p2, o2, o3, q2⟩ := hp h7
    exact ⟨⟨_, _, _, n2, d1, d2, n3, by rw [Day_midnight, d1], p2, rfl⟩,
      ⟨_, _, _, o2, d1, d2, o3, rfl, q2, rfl⟩⟩

/-- Instance of C16: from the week of Sunday 9 November 2025, "next week" shows the week of
Sunday 16 November with that day selected, and going back returns to 9 November. -/
theorem C16_witness :
    (samplePage (some 1762992000000)).store.read
      (samplePage (some 1762992000000)).currentWeekStart = some 1762646400000 ∧
    WeekDay 1762646400000 = 0 ∧
    (∃ c1 u1 c2 : Int,
      (Ced.loadNextWeek 0 codeUnitCompare FetchOutcome.networkError
          (samplePage (some 1762992000000))).store.read
        (Ced.loadNextWeek 0 codeUnitCompare FetchOutcome.networkError
          (samplePage (some 1762992000000))).currentWeekStart = some c1 ∧
      Day c1 = Day 1762646400000 + 7 ∧ WeekDay c1 = WeekDay 1762646400000 ∧
      (Ced.loadNextWeek 0 codeUnitCompare FetchOutcome.networkError
          (samplePage (some 1762992000000))).store.read
        (Ced.loadNextWeek 0 codeUnitCompare FetchOutcome.networkError
          (samplePage (some 1762992000000))).selectedDate = some u1 ∧
      Day u1 = Day c1 ∧
      (Ced.loadPreviousWeek 0 codeUnitCompare FetchOutcome.networkError
          (Ced.loadNextWeek 0 codeUnitCompare FetchOutcome.networkError
            (samplePage (some 1762992000000)))).store.read
        (Ced.loadPreviousWeek 0 codeUnitCompare FetchOutcome.networkError
          (Ced.loadNextWeek 0 codeUnitCompare FetchOutcome.networkError
            (samplePage (some 1762992000000)))).currentWeekStart = some c2 ∧
      Day c2 = Day 1762646400000) :=
  ⟨rfl, by decide,
    ((C16_week_navigation codeUnitCompare 0 0 FetchOutcome.networkError
      FetchOutcome.networkError Old.FetchResult.failed Old.FetchResult.failed
      (samplePage (some 1762992000000)) 1762646400000 rfl (by decide) (by decide)).1 (by decide)).1⟩

/-- Counterexample to C16 as stated: the week start is Sunday 7 September 275760, the last
Sunday that is a valid date. `loadNextWeek` leaves an Invalid Date in `currentWeekStart` in
both variants, not the date 7 days later. -/
theorem C16_counterexample :
    WeekDay 8639999481600000 = 0 ∧ 8639999481600000 ≤ maxTime ∧
    (Ced.loadNextWeek 0 codeUnitCompare FetchOutcome.networkError
      { samplePage (some 8639999481600000) with
        store := [some 8639999481600000, some 8639999481600000] }).store.read
      (Ced.loadNextWeek 0 codeUnitCompare FetchOutcome.networkError
        { samplePage (some 8639999481600000) with
          store := [some 8639999481600000, some 8639999481600000] }).currentWeekStart =
        none ∧
    (Old.loadNextWeek Old.FetchResult.failed
      { samplePage (some 8639999481600000) with
        store := [some 8639999481600000, some 8639999481600000] }).store.read
      (Old.loadNextWeek Old.FetchResult.failed
        { samplePage (some 8639999481600000) with
          store := [some 8639999481600000, some 8639999481600000] }).currentWeekStart =
        none := by
  decide

/-! ## What the drop-down handler and the page load compute -/

theorem ced_getWeekStart_lt (σ : DateStore) (date : Nat) :
    (Ced.getWeekStart σ date).1 < (Ced.getWeekStart σ date).2.length := by
  simp [Ced.getWeekStart, DateStore.alloc, DateStore.write]

theorem old_getWeekStart_lt (σ : DateStore) (date : Nat) :
    (Old.getWeekStart σ date).1 < (Old.getWeekStart σ date).2.length := by
  simp [Old.getWeekStart, DateStore.alloc, DateStore.write]

/-- Rendering the week of the fresh date `nd` with that date to select, as the newer
`handleDateSelectorChange` does. -/
theorem ced_renderFresh_spec (now : Int) (lc : Str → Str → Int) (fetched : FetchOutcome)
    (s : AppState) (nd : Num) :
    ∀ r, r = Ced.renderWeek now lc fetched
        { s with store := (Ced.getWeekStart (s.store.alloc nd).2 (s.store.alloc nd).1).2,
                 currentWeekStart :=
                   (Ced.getWeekStart (s.store.alloc nd).2 (s.store.alloc nd).1).1 }
        (some (s.store.alloc nd).1) →
      r.store.read r.currentWeekStart = JSDate.setHours (JSDate.setDate nd
        (numSub (JSDate.getDate nd) (JSDate.getDay nd))) 0 0 0 0 ∧
      r.store.read r.selectedDate = JSDate.setHours nd 0 0 0 0 ∧
      r.cards = Ced.renderCards now
        (Ced.getLocalDateString now (JSDate.setHours nd 0 0 0 0)) 7
        (JSDate.setHours (JSDate.setDate nd
          (numSub (JSDate.getDate nd) (JSDate.getDay nd))) 0 0 0 0) ∧
      r.monthSelect.options = s.monthSelect.options ∧
      r.yearSelect.options = yearOptionsAfter parseInt s.yearSelect.options
        (JSDate.getFullYear (JSDate.setHours nd 0 0 0 0)) := by
  intro r hr
  obtain ⟨e1, e2, e3, e4, e5, e6⟩ := ced_renderWeek_spec now lc fetched _ _ r hr
  have hnew : (s.store.alloc nd).1 < (s.store.alloc nd).2.length := by
    simp [DateStore.alloc]
  have hsel : (Ced.getWeekStart (s.store.alloc nd).2 (s.store.alloc nd).1).2.read
      (s.store.alloc nd).1 = nd := by
    rw [ced_getWeekStart_read_old _ _ _ hnew, read_alloc_new]
  have hws := ced_getWeekStart_read (s.store.alloc nd).2 (s.store.alloc nd).1
  rw [read_alloc_new] at hws
  simp only [Option.getD_some, hsel, hws] at e1 e2 e3 e4 e5 e6
  refine ⟨?_, e3, e4, e5, e6⟩
  rw [e1, e2 _ (ced_getWeekStart_lt _ _), hws]

/-- Rendering the week of the fresh date `nd` with no date to select, as the newer page load
does. -/
theorem ced_renderFirst_spec (now : Int) (lc : Str → Str → Int) (fetched : FetchOutcome)
    (s : AppState) (nd : Num) :
    ∀ r, r = Ced.renderWeek now lc fetched
        { s with store := (Ced.getWeekStart (s.store.alloc nd).2 (s.store.alloc nd).1).2,
                 currentWeekStart :=
                   (Ced.getWeekStart (s.store.alloc nd).2 (s.store.alloc nd).1).1 }
        none →
      r.store.read r.currentWeekStart = JSDate.setHours (JSDate.setDate nd
        (numSub (JSDate.getDate nd) (JSDate.getDay nd))) 0 0 0 0 ∧
      r.store.read r.selectedDate = JSDate.setHours (JSDate.setHours (JSDate.setDate nd
        (numSub (JSDate.getDate nd) (JSDate.getDay nd))) 0 0 0 0) 0 0 0 0 ∧
      r.cards = Ced.renderCards now
        (Ced.getLocalDateString now (JSDate.setHours (JSDate.setHours (JSDate.setDate nd
          (numSub (JSDate.getDate nd) (JSDate.getDay nd))) 0 0 0 0) 0 0 0 0)) 7
        (JSDate.setHours (JSDate.setDate nd
          (numSub (JSDate.getDate nd) (JSDate.getDay nd))) 0 0 0 0) ∧
      r.monthSelect.options = s.monthSelect.options ∧
      r.yearSelect.options = yearOptionsAfter parseInt s.yearSelect.options
        (JSDate.getFullYear (JSDate.setHours (JSDate.setHours (JSDate.setDate nd
          (numSub (JSDate.getDate nd) (JSDate.getDay nd))) 0 0 0 0) 0 0 0 0)) := by
  intro r hr
  obtain ⟨e1, e2, e3, e4, e5, e6⟩ := ced_renderWeek_spec now lc fetched _ _ r hr
  have hws := ced_getWeekStart_read (s.store.alloc nd).2 (s.store.alloc nd).1
  rw [read_alloc_new] at hws
  simp only [Option.getD_none, hws] at e1 e2 e3 e4 e5 e6
  refine ⟨?_, e3, e4, e5, e6⟩
  rw [e1, e2 _ (ced_getWeekStart_lt _ _), hws]

theorem old_renderFresh_spec (fetched : Old.FetchResult) (s : AppState) (nd : Num) :
    ∀ r, r = Old.renderWeek fetched
        { s with store := (Old.getWeekStart (s.store.alloc nd).2 (s.store.alloc nd).1).2,
                 currentWeekStart :=
                   (Old.getWeekStart (s.store.alloc nd).2 (s.store.alloc nd).1).1 }
        (some (s.store.alloc nd).1) →
      r.store.read r.currentWeekStart = JSDate.setDate nd
        (numSub (JSDate.getDate nd) (JSDate.getDay nd)) ∧
      r.store.read r.selectedDate = nd ∧
      r.cards = Old.renderCards (Old.getLocalDateString nd) 7
        (JSDate.setDate nd (numSub (JSDate.getDate nd) (JSDate.getDay nd))) ∧
      r.monthSelect.options = s.monthSelect.options ∧
      r.yearSelect.options = yearOptionsAfter Number s.yearSelect.options
        (JSDate.getFullYear nd) := by
  intro r hr
  obtain ⟨e1, e2, e3, e4, e5, e6⟩ := old_renderWeek_spec fetched _ _ r hr
  have hnew : (s.store.alloc nd).1 < (s.store.alloc nd).2.length := by
    simp [DateStore.alloc]
  have hsel : (Old.getWeekStart (s.store.alloc nd).2 (s.store.alloc nd).1).2.read
      (s.store.alloc nd).1 = nd := by
    rw [old_getWeekStart_read_old _ _ _ hnew, read_alloc_new]
  have hws := old_getWeekStart_read (s.store.alloc nd).2 (s.store.alloc nd).1
  rw [read_alloc_new] at hws
  simp only [Option.getD_some, hsel, hws] at e1 e2 e3 e4 e5 e6
  refine ⟨?_, e3, e4, e5, e6⟩
  rw [e1, e2 _ (old_getWeekStart_lt _ _), hws]

theorem old_renderFirst_spec (fetched : Old.FetchResult) (s : AppState) (nd : Num) :
    ∀ r, r = Old.renderWeek fetched
        { s with store := (Old.getWeekStart (s.store.alloc nd).2 (s.store.alloc nd).1).2,
                 currentWeekStart :=
                   (Old.getWeekStart (s.store.alloc nd).2 (s.store.alloc nd).1).1 }
        none →
      r.store.read r.currentWeekStart = JSDate.setDate nd
        (numSub (JSDate.getDate nd) (JSDate.getDay nd)) ∧
      r.store.read r.selectedDate = JSDate.setDate nd
        (numSub (JSDate.getDate nd) (JSDate.getDay nd)) ∧
      r.cards = Old.renderCards (Old.getLocalDateString (JSDate.setDate nd
          (numSub (JSDate.getDate nd) (JSDate.getDay nd)))) 7
        (JSDate.setDate nd (numSub (JSDate.getDate nd) (JSDate.getDay nd))) ∧
      r.monthSelect.options = s.monthSelect.options ∧
      r.yearSelect.options = yearOptionsAfter Number s.yearSelect.options
        (JSDate.getFullYear (JSDate.setDate nd
          (numSub (JSDate.getDate nd) (JSDate.getDay nd)))) := by
  intro r hr
  obtain ⟨e1, e2, e3, e4, e5, e6⟩ := old_renderWeek_spec fetched _ _ r hr
  have hws := old_getWeekStart_read (s.store.alloc nd).2 (s.store.alloc nd).1
  rw [read_alloc_new] at hws
  simp only [Option.getD_none, hws] at e1 e2 e3 e4 e5 e6
  refine ⟨?_, e3, e4, e5, e6⟩
  rw [e1, e2 _ (old_getWeekStart_lt _ _), hws]

/-- The Sunday on or before a date, with the date's time of day, as `setDate` leaves it. -/
theorem setDate_sunday (t : Int) :
    JSDate.setDate (some t) (numSub (JSDate.getDate (some t)) (JSDate.getDay (some t))) =
      TimeClip (t - WeekDay t * msPerDay) := by
  have h := setDate_sub t (WeekDay t)
  simpa [JSDate.getDay, LocalTime_eq] using h

theorem Day_sub_days (t k : Int) : Day (t - k * msPerDay) = Day t - k := by
  unfold Day msPerDay
  omega

/-- When the week start computed by the older `getWeekStart` is a valid date, so was the
argument, and the week start is the Sunday on or before at the same time of day. -/
theorem old_weekStart_eq_some (tv : Num) (c : Int)
    (h : JSDate.setDate tv (numSub (JSDate.getDate tv) (JSDate.getDay tv)) = some c) :
    ∃ t, tv = some t ∧ c = t - WeekDay t * msPerDay ∧ -maxTime ≤ c ∧ c ≤ maxTime := by
  rcases tv with _ | t
  · simp [JSDate.setDate] at h
  · rw [setDate_sunday] at h
    obtain ⟨h1, h2, h3⟩ := TimeClip_eq_some _ _ h
    exact ⟨t, rfl, h1.symm, by omega, by omega⟩

/-- When the week start computed by the newer `getWeekStart` is a valid date, so was the
argument, and the week start is midnight of the Sunday on or before. -/
theorem ced_weekStart_eq_some (tv : Num) (c : Int)
    (h : JSDate.setHours (JSDate.setDate tv
      (numSub (JSDate.getDate tv) (JSDate.getDay tv))) 0 0 0 0 = some c) :
    ∃ t, tv = some t ∧ c = (Day t - WeekDay t) * msPerDay ∧ -maxTime ≤ c ∧
      t - WeekDay t * msPerDay ≤ maxTime := by
  obtain ⟨v, hv, hcv, hlo⟩ := setHours_eq_some _ _ h
  obtain ⟨t, ht, hvt, _, hhi⟩ := old_weekStart_eq_some tv v hv
  refine ⟨t, ht, ?_, hlo, by omega⟩
  rw [hcv, hvt, Day_sub_days]

/-! ## The month and year drop-downs -/

theorem cardsFrom_dateStrings (sel : Str) (n : Nat) (c : Int) :
    (cardsFrom sel n c).map (fun card => card.dateString) =
      (List.range n).map fun (i : Nat) =>
        Old.getLocalDateString (some (c + (i : Int) * msPerDay)) := by
  simp [cardsFrom, cardOf]

/-- Among the cards of consecutive days, the active ones are those of the selected day. -/
theorem cardsFrom_active (u c k : Int) (n : Nat) (hk : Day u = Day c + k) :
    (cardsFrom (Old.getLocalDateString (some u)) n c).map (fun card => card.active) =
      (List.range n).map fun (i : Nat) => decide ((i : Int) = k) := by
  simp only [cardsFrom, cardOf, List.map_map]
  apply List.map_congr_left
  intro i _
  simp only [Function.comp]
  apply decide_eq_decide.mpr
  rw [getLocalDateString_eq_iff, Day_add_days, hk]
  omega

/-- The time values left by the newer `handleDateSelectorChange` on a host on UTC, for a month
`m` from 0 to 11 and a year `y` outside 0..99 with the days around the first of that month in
range: `selectedDate` is midnight of y-m-01, `currentWeekStart` midnight of the Sunday on or
before it, and the cards are those of the seven days from there on. -/
theorem dropdown_change_values (now : Int) (lc : Str → Str → Int) (fetched : FetchOutcome)
    (s : AppState) (m y : Int)
    (hm : parseInt s.monthSelect.value = some m) (hy : parseInt s.yearSelect.value = some y)
    (hm0 : 0 ≤ m) (hm11 : m ≤ 11) (hy99 : ¬ (0 ≤ y ∧ y ≤ 99))
    (hlo : -maxTime ≤ (MakeDay y m 1 - 6) * msPerDay)
    (hhi : (MakeDay y m 1 + 6) * msPerDay ≤ maxTime) :
    YearFromTime (MakeDay y m 1 * msPerDay) = y ∧
    MonthFromTime (MakeDay y m 1 * msPerDay) = m ∧
    DateFromTime (MakeDay y m 1 * msPerDay) = 1 ∧
    (Ced.handleDateSelectorChange now lc fetched s).store.read
      (Ced.handleDateSelectorChange now lc fetched s).selectedDate =
        some (MakeDay y m 1 * msPerDay) ∧
    (Ced.handleDateSelectorChange now lc fetched s).store.read
      (Ced.handleDateSelectorChange now lc fetched s).currentWeekStart =
        some ((MakeDay y m 1 - WeekDay (MakeDay y m 1 * msPerDay)) * msPerDay) ∧
    WeekDay ((MakeDay y m 1 - WeekDay (MakeDay y m 1 * msPerDay)) * msPerDay) = 0 ∧
    0 ≤ WeekDay (MakeDay y m 1 * msPerDay) ∧ WeekDay (MakeDay y m 1 * msPerDay) ≤ 6 ∧
    (Ced.handleDateSelectorChange now lc fetched s).cards.map (fun card => card.dateString) =
      (List.range 7).map (fun (i : Nat) => Ced.getLocalDateString now (some
        ((MakeDay y m 1 - WeekDay (MakeDay y m 1 * msPerDay)) * msPerDay +
          (i : Int) * msPerDay))) ∧
    (Ced.handleDateSelectorChange now lc fetched s).cards.map (fun card => card.active) =
      (List.range 7).map (fun (i : Nat) =>
        decide ((i : Int) = WeekDay (MakeDay y m 1 * msPerDay))) := by
  obtain ⟨h1, hY, hM, hD⟩ := ofYMD_first y m hm0 hm11 hy99
  have hb := WeekDay_bounds (MakeDay y m 1 * msPerDay)
  have hfirst : TimeClip (MakeDay y m 1 * msPerDay) = some (MakeDay y m 1 * msPerDay) :=
    TimeClip_of_range _ (by unfold msPerDay at *; omega) (by unfold msPerDay at *; omega)
  have hsun : MakeDay y m 1 * msPerDay - WeekDay (MakeDay y m 1 * msPerDay) * msPerDay =
      (MakeDay y m 1 - WeekDay (MakeDay y m 1 * msPerDay)) * msPerDay := by ring
  have hwd : WeekDay ((MakeDay y m 1 - WeekDay (MakeDay y m 1 * msPerDay)) * msPerDay) = 0 := by
    unfold WeekDay
    rw [Day_midnight, Day_midnight]
    omega
  obtain ⟨e1, e2, e3, _, _⟩ := ced_renderFresh_spec now lc fetched s
    (JSDate.ofYMD (parseInt s.yearSelect.value) (parseInt s.monthSelect.value) (some 1))
    (Ced.handleDateSelectorChange now lc fetched s) rfl
  have hmid : JSDate.setHours (some (MakeDay y m 1 * msPerDay)) 0 0 0 0 =
      some (MakeDay y m 1 * msPerDay) := by
    rw [midnight_valid _ (by unfold msPerDay at *; omega) (by unfold msPerDay at *; omega),
      Day_midnight]
  have hws : JSDate.setHours (JSDate.setDate (some (MakeDay y m 1 * msPerDay))
      (numSub (JSDate.getDate (some (MakeDay y m 1 * msPerDay)))
        (JSDate.getDay (some (MakeDay y m 1 * msPerDay))))) 0 0 0 0 =
      some ((MakeDay y m 1 - WeekDay (MakeDay y m 1 * msPerDay)) * msPerDay) := by
    rw [setDate_sunday, hsun, TimeClip_of_range _ (by unfold msPerDay at *; omega)
      (by unfold msPerDay at *; omega),
      midnight_valid _ (by unfold msPerDay at *; omega) (by unfold msPerDay at *; omega),
      Day_midnight]
  rw [hy, hm, h1, hfirst, hws] at e1
  rw [hy, hm, h1, hfirst, hmid] at e2
  rw [hy, hm, h1, hfirst, hmid, hws, ced_renderCards_valid now _ 7 _
    (by unfold msPerDay at *; omega) (by unfold msPerDay at *; omega),
    ced_getLocalDateString_some] at e3
  refine ⟨hY, hM, hD, e2, e1, hwd, hb.1, hb.2, ?_, ?_⟩
  · rw [e3, cardsFrom_dateStrings]
    apply List.map_congr_left
    intro i _
    rw [ced_getLocalDateString_some]
  · rw [e3]
    apply cardsFrom_active
    rw [Day_midnight, Day_midnight]
    ring

/-- C14 (amended): in the newer variant, for every month `m` from 0 to 11 and every year `y`
outside 0..99 chosen in the drop-downs, with the days from six before to six after the first
of that month inside the range of time values, after `handleDateSelectorChange`:
`selectedDate` is a valid date on y-m-01, `currentWeekStart` is a valid date on the Sunday
on or before y-m-01, the seven cards carry the dates of the seven days from the day of
`currentWeekStart` on, and exactly the card at the weekday position of y-m-01, whose date
is y-m-01, is active. -/
theorem C14_dropdown_change (now : Int) (lc : Str → Str → Int) (fetched : FetchOutcome)
    (s : AppState) (m y : Int)
    (hm : parseInt s.monthSelect.value = some m) (hy : parseInt s.yearSelect.value = some y)
    (hm0 : 0 ≤ m) (hm11 : m ≤ 11) (hy99 : ¬ (0 ≤ y ∧ y ≤ 99))
    (hlo : -maxTime ≤ (MakeDay y m 1 - 6) * msPerDay)
    (hhi : (MakeDay y m 1 + 6) * msPerDay ≤ maxTime) :
    ∃ c u : Int,
      (Ced.handleDateSelectorChange now lc fetched s).store.read
        (Ced.handleDateSelectorChange now lc fetched s).selectedDate = some u ∧
      YearFromTime u = y ∧ MonthFromTime u = m ∧ DateFromTime u = 1 ∧
      (Ced.handleDateSelectorChange now lc fetched s).store.read
        (Ced.handleDateSelectorChange now lc fetched s).currentWeekStart = some c ∧
      Day c = Day u - WeekDay u ∧ WeekDay c = 0 ∧
      0 ≤ WeekDay u ∧ WeekDay u ≤ 6 ∧
      (Ced.handleDateSelectorChange now lc fetched s).cards.map
          (fun card => card.dateString) =
        (List.range 7).map (fun (i : Nat) =>
          Ced.getLocalDateString now (some ((Day c + (i : Int)) * msPerDay))) ∧
      (Ced.handleDateSelectorChange now lc fetched s).cards.map
          (fun card => card.active) =
        (List.range 7).map (fun (i : Nat) => decide ((i : Int) = WeekDay u)) := by
  obtain ⟨hY, hM, hD, hsel, hcws, hwd, hb0, hb6, hds, hact⟩ :=
    dropdown_change_values now lc fetched s m y hm hy hm0 hm11 hy99 hlo hhi
  refine ⟨_, _, hsel, hY, hM, hD, hcws, ?_, hwd, hb0, hb6, ?_, hact⟩
  · rw [Day_midnight, Day_midnight]
  · rw [hds, Day_midnight]
    apply List.map_congr_left
    intro i _
    congr 2
    ring

/-- Instance of C14: November 2025 is chosen; its first day is a Saturday, so the week shown
is that of Sunday 26 October, with the seventh card, 2025-11-01, the only active one. -/
theorem C14_witness :
    parseInt (chooseMonthYear (samplePage (some 1762992000000)) "10".toList
      "2025".toList).monthSelect.value = some 10 ∧
    WeekDay (MakeDay 2025 10 1 * msPerDay) = 6 ∧
    (Ced.handleDateSelectorChange 0 codeUnitCompare FetchOutcome.networkError
      (chooseMonthYear (samplePage (some 1762992000000)) "10".toList "2025".toList)).cards.map
        (fun card => card.active) = [false, false, false, false, false, false, true] ∧
    ∃ c u : Int,
      (Ced.handleDateSelectorChange 0 codeUnitCompare FetchOutcome.networkError
        (chooseMonthYear (samplePage (some 1762992000000)) "10".toList "2025".toList)).store.read
        (Ced.handleDateSelectorChange 0 codeUnitCompare FetchOutcome.networkError
        (chooseMonthYear (samplePage (some 1762992000000)) "10".toList "2025".toList)).selectedDate = some u ∧
      YearFromTime u = 2025 ∧ MonthFromTime u = 10 ∧ DateFromTime u = 1 ∧
      (Ced.handleDateSelectorChange 0 codeUnitCompare FetchOutcome.networkError
        (chooseMonthYear (samplePage (some 1762992000000)) "10".toList "2025".toList)).store.read
        (Ced.handleDateSelectorChange 0 codeUnitCompare FetchOutcome.networkError
        (chooseMonthYear (samplePage (some 1762992000000)) "10".toList "2025".toList)).currentWeekStart = some c ∧
      Day c = Day u - WeekDay u ∧ WeekDay c = 0 ∧
      0 ≤ WeekDay u ∧ WeekDay u ≤ 6 ∧
      (Ced.handleDateSelectorChange 0 codeUnitCompare FetchOutcome.networkError
        (chooseMonthYear (samplePage (some 1762992000000)) "10".toList "2025".toList)).cards.map
          (fun card => card.dateString) =
        (List.range 7).map (fun (i : Nat) =>
          Ced.getLocalDateString 0 (some ((Day c + (i : Int)) * msPerDay))) ∧
      (Ced.handleDateSelectorChange 0 codeUnitCompare FetchOutcome.networkError
        (chooseMonthYear (samplePage (some 1762992000000)) "10".toList "2025".toList)).cards.map
          (fun card => card.active) =
        (List.range 7).map (fun (i : Nat) => decide ((i : Int) = WeekDay u)) :=
  ⟨by decide, by decide, by decide,
    C14_dropdown_change 0 codeUnitCompare FetchOutcome.networkError
      (chooseMonthYear (samplePage (some 1762992000000)) "10".toList "2025".toList) 10 2025
      (by decide) (by decide) (by decide) (by decide) (by decide) (by decide) (by decide)⟩

/-- Counterexample to C14 as stated: the page is loaded while the clock reads 30 June of the
year 50, so the year options are 50, 51 and 52. Choosing January and the year 50 selects
1 January 1950 and shows the first week of 1950: `new Date(50, 0, 1)` reads the year as
1950. -/
theorem C14_counterexample :
    "50".toList ∈ (Ced.pageLoad (-60573708000000) codeUnitCompare
      FetchOutcome.networkError).yearSelect.options ∧
    "0".toList ∈ (Ced.pageLoad (-60573708000000) codeUnitCompare
      FetchOutcome.networkError).monthSelect.options ∧
    JSDate.getFullYear ((Ced.handleDateSelectorChange (-60573708000000) codeUnitCompare
      FetchOutcome.networkError (chooseMonthYear (Ced.pageLoad (-60573708000000)
        codeUnitCompare FetchOutcome.networkError) "0".toList "50".toList)).store.read
      (Ced.handleDateSelectorChange (-60573708000000) codeUnitCompare
        FetchOutcome.networkError (chooseMonthYear (Ced.pageLoad (-60573708000000)
          codeUnitCompare FetchOutcome.networkError) "0".toList "50".toList)).selectedDate) =
      some 1950 ∧
    (Ced.handleDateSelectorChange (-60573708000000) codeUnitCompare
      FetchOutcome.networkError (chooseMonthYear (Ced.pageLoad (-60573708000000)
        codeUnitCompare FetchOutcome.networkError) "0".toList "50".toList)).cards.map
        (fun card => card.dateString) =
      ["1950-01-01".toList, "1950-01-02".toList, "1950-01-03".toList, "1950-01-04".toList,
        "1950-01-05".toList, "1950-01-06".toList, "1950-01-07".toList] := by
  decide

/-! ## Clicks on day cards -/

/-- Clearing every flag and setting that of the clicked card gives the cards of the same
week with the clicked day selected. -/
theorem cards_click (sel : Str) (c u : Int) (i : Nat) (hi : i < 7)
    (hu : Day u = Day c + (i : Int)) :
    ((cardsFrom sel 7 c).map fun card => { card with active := false }).modify
        (fun card => { card with active := true }) i =
      cardsFrom (Old.getLocalDateString (some u)) 7 c := by
  have hr : List.range 7 = [0, 1, 2, 3, 4, 5, 6] := by decide
  unfold cardsFrom
  rw [hr]
  interval_cases i <;>
    simp [List.modify, List.modifyTailIdx, cardOf, getLocalDateString_eq_iff, Day_add_days, hu]

theorem ced_handleDayClick_spec (now : Int) (lc : Str → Str → Int) (s : AppState)
    (element : Nat) (dateString : Str) :
    ∀ r, r = Ced.handleDayClick now lc s element dateString →
      r.currentWeekStart = s.currentWeekStart ∧
      (∀ q : Nat, q < s.store.length → r.store.read q = s.store.read q) ∧
      r.cards = (s.cards.map fun card => { card with active := false }).modify
        (fun card => { card with active := true }) element ∧
      r.monthSelect.options = s.monthSelect.options ∧
      r.yearSelect.options = yearOptionsAfter parseInt s.yearSelect.options
        (JSDate.getFullYear (r.store.read r.selectedDate)) := by
  intro r hr
  unfold Ced.handleDayClick at hr
  simp only [] at hr
  obtain ⟨e1, e2, e3, e4, e5, e6⟩ :=
    ced_updateSelectors_then _ (ced_displayDayDetails_same now lc) _ r hr
  simp only [] at e1 e2 e3 e4 e5 e6
  rw [e2, e1, e3, e4, e5, e6]
  refine ⟨rfl, ?_, rfl, rfl, ?_⟩
  · intro q hq
    exact read_alloc_old _ _ q hq
  · rfl

theorem old_handleDayClick_spec (s : AppState) (element : Nat) (dateString : Str) :
    ∀ r, r = Old.handleDayClick s element dateString →
      r.currentWeekStart = s.currentWeekStart ∧
      (∀ q : Nat, q < s.store.length → r.store.read q = s.store.read q) ∧
      r.cards = (s.cards.map fun card => { card with active := false }).modify
        (fun card => { card with active := true }) element ∧
      r.monthSelect.options = s.monthSelect.options ∧
      r.yearSelect.options = yearOptionsAfter Number s.yearSelect.options
        (JSDate.getFullYear (r.store.read r.selectedDate)) := by
  intro r hr
  unfold Old.handleDayClick at hr
  simp only [] at hr
  obtain ⟨e1, e2, e3, e4, e5, e6⟩ :=
    old_updateSelectors_then _ old_displayDayDetails_same _ r hr
  simp only [] at e1 e2 e3 e4 e5 e6
  rw [e2, e1, e3, e4, e5, e6]
  refine ⟨rfl, ?_, rfl, rfl, ?_⟩
  · intro q hq
    exact read_alloc_old _ _ q hq
  · rfl

/-! ## The calendar invariant -/

theorem calendarInvariant_intro (parse : Str → Num)
    (hparse : ∀ n : Int, 0 ≤ n → parse (numToString (some n)) = some n)
    (r : AppState) (c u a b : Int)
    (hc : r.store.read r.currentWeekStart = some c)
    (hu : r.store.read r.selectedDate = some u)
    (hlo : -maxTime ≤ c) (hhi : c + 6 * msPerDay ≤ maxTime) (hy : 100 ≤ YearFromTime c)
    (h1 : Day c ≤ Day u) (h2 : Day u ≤ Day c + 6)
    (hcards : r.cards = cardsFrom (Old.getLocalDateString (some u)) 7 c)
    (hmonth : r.monthSelect.options = (initializeSelectors 0).1.options)
    (hyears : r.yearSelect.options =
      yearOptionsAfter parse (yearStrings a b) (some (YearFromTime u)))
    (ha : 100 ≤ a) (hab : a ≤ b) (hya : a - 1 ≤ YearFromTime u)
    (hyb : YearFromTime u ≤ b + 1) : CalendarInvariant r := by
  have hyu := year_near c u h1 (by omega)
  rw [yearOptionsAfter_interval parse hparse a b _ (by omega) hab hya hyb] at hyears
  exact ⟨c, u, min a (YearFromTime u), max b (YearFromTime u), hc, hu, hlo, hhi, hy, h1, h2,
    hcards, hmonth, hyears, le_min ha (by omega), min_le_right _ _, le_max_right _ _⟩

/-- A step that leaves a consistent week and moves the selected year by at most one, or to
one of the options, keeps the calendar consistent. -/
theorem calendarInvariant_step (parse : Str → Num)
    (hparse : ∀ n : Int, 0 ≤ n → parse (numToString (some n)) = some n)
    (s r : AppState) (hs : CalendarInvariant s) (c u : Int)
    (hc : r.store.read r.currentWeekStart = some c)
    (hu : r.store.read r.selectedDate = some u)
    (hlo : -maxTime ≤ c) (hhi : c + 6 * msPerDay ≤ maxTime) (hy : 100 ≤ YearFromTime c)
    (h1 : Day c ≤ Day u) (h2 : Day u ≤ Day c + 6)
    (hcards : r.cards = cardsFrom (Old.getLocalDateString (some u)) 7 c)
    (hmonth : r.monthSelect.options = s.monthSelect.options)
    (hyears : r.yearSelect.options =
      yearOptionsAfter parse s.yearSelect.options (some (YearFromTime u)))
    (hclose : ∀ u0 a b : Int, s.store.read s.selectedDate = some u0 →
      s.yearSelect.options = yearStrings a b → a ≤ YearFromTime u0 → YearFromTime u0 ≤ b →
      a - 1 ≤ YearFromTime u ∧ YearFromTime u ≤ b + 1) : CalendarInvariant r := by
  obtain ⟨c0, u0, a, b, _, hu0, _, _, _, _, _, _, hm0, hy0, ha, hya, hyb⟩ := hs
  obtain ⟨k1, k2⟩ := hclose u0 a b hu0 hy0 hya hyb
  rw [hy0] at hyears
  exact calendarInvariant_intro parse hparse r c u a b hc hu hlo hhi hy h1 h2 hcards
    (hmonth.trans hm0) hyears ha (by omega) k1 k2

/-- The newer page load leaves a consistent calendar when its week is in range. -/
theorem ced_load_invariant (now : Int) (lc : Str → Str → Int) (fetched : FetchOutcome)
    (hw : WeekInRange (Ced.pageLoad now lc fetched)) :
    CalendarInvariant (Ced.pageLoad now lc fetched) := by
  obtain ⟨c, hc, hlo, hhi, hy⟩ := hw
  obtain ⟨e1, e2, e3, e4, e5⟩ := ced_renderFirst_spec now lc fetched (moduleState now)
    (some now) (Ced.pageLoad now lc fetched) rfl
  rw [e1] at hc
  obtain ⟨t, ht, hct, _, _⟩ := ced_weekStart_eq_some _ _ hc
  have htn : t = now := (Option.some.inj ht).symm
  subst htn
  have hb := WeekDay_bounds t
  have hDc : Day c = Day t - WeekDay t := by rw [hct, Day_midnight]
  have hmid : JSDate.setHours (some c) 0 0 0 0 = some c := by
    rw [midnight_valid c hlo (by unfold msPerDay at *; omega), hDc, hct]
  have hyn := year_near c t (by omega) (by omega)
  rw [hc] at e1
  rw [hc, hmid] at e2
  rw [hc, hmid, ced_renderCards_valid t _ 7 c hlo (by unfold msPerDay at *; omega),
    ced_getLocalDateString_some] at e3
  rw [hc, hmid] at e5
  have hinit : (moduleState t).yearSelect.options =
      yearStrings (YearFromTime t) (YearFromTime t + 2) := initial_years t
  rw [hinit] at e5
  exact calendarInvariant_intro parseInt parseInt_numToString _ c c (YearFromTime t)
    (YearFromTime t + 2) e1 e2 hlo hhi hy (le_refl _) (by omega) e3 e4
    (by simpa [JSDate.getFullYear, LocalTime_eq] using e5) (by omega) (by omega) (by omega)
    (by omega)

/-- The older page load leaves a consistent calendar when its week is in range. -/
theorem old_load_invariant (now : Int) (fetched : Old.FetchResult)
    (hw : WeekInRange (Old.pageLoad now fetched)) :
    CalendarInvariant (Old.pageLoad now fetched) := by
  obtain ⟨c, hc, hlo, hhi, hy⟩ := hw
  obtain ⟨e1, e2, e3, e4, e5⟩ := old_renderFirst_spec fetched (moduleState now)
    (some now) (Old.pageLoad now fetched) rfl
  rw [e1] at hc
  obtain ⟨t, ht, hct, _, _⟩ := old_weekStart_eq_some _ _ hc
  have htn : t = now := (Option.some.inj ht).symm
  subst htn
  have hb := WeekDay_bounds t
  have hDc : Day c = Day t - WeekDay t := by rw [hct, Day_sub_days]
  have hyn := year_near c t (by omega) (by omega)
  rw [hc] at e1 e2 e3 e5
  rw [old_renderCards_valid _ 7 c hlo (by unfold msPerDay at *; omega)] at e3
  have hinit : (moduleState t).yearSelect.options =
      yearStrings (YearFromTime t) (YearFromTime t + 2) := initial_years t
  rw [hinit] at e5
  exact calendarInvariant_intro Number Number_numToString _ c c (YearFromTime t)
    (YearFromTime t + 2) e1 e2 hlo hhi hy (le_refl _) (by omega) e3 e4
    (by simpa [JSDate.getFullYear, LocalTime_eq] using e5) (by omega) (by omega) (by omega)
    (by omega)

theorem yearStrings_mem_str (a b : Int) (year : Str) (h : year ∈ yearStrings a b) :
    ∃ y : Int, a ≤ y ∧ y ≤ b ∧ year = numToString (some y) := by
  unfold yearStrings at h
  simp only [List.mem_map, List.mem_range] at h
  obtain ⟨i, hi, rfl⟩ := h
  exact ⟨a + (i : Int), by omega, by omega, rfl⟩

/-- The newer `loadNextWeek` keeps the calendar consistent when the new week is in range. -/
theorem ced_next_invariant (now : Int) (lc : Str → Str → Int) (fetched : FetchOutcome)
    (s : AppState) (hs : CalendarInvariant s)
    (hw : WeekInRange (Ced.loadNextWeek now lc fetched s)) :
    CalendarInvariant (Ced.loadNextWeek now lc fetched s) := by
  obtain ⟨c', hc', hlo', hhi', hy'⟩ := hw
  have hs0 := hs
  obtain ⟨c, u, a, b, hc, hu, hlo, hhi, hy, h1, h2, _⟩ := hs0
  obtain ⟨e1, e2, e3, e4, e5, e6⟩ := ced_loadNextWeek_spec now lc fetched s c hc _ rfl
  rw [e2] at hc'
  obtain ⟨hx, _, _⟩ := TimeClip_eq_some _ _ hc'
  have hDc : Day c' = Day c + 7 := by rw [← hx, Day_add_days]
  have hmid := midnight_valid c' hlo' (by unfold msPerDay at *; omega)
  rw [hc'] at e2 e3 e4 e6
  rw [hmid] at e3 e4 e6
  rw [ced_renderCards_valid now _ 7 c' hlo' (by unfold msPerDay at *; omega),
    ced_getLocalDateString_some] at e4
  refine calendarInvariant_step parseInt parseInt_numToString s _ hs c' (Day c' * msPerDay)
    e2 e3 hlo' hhi' hy' (by rw [Day_midnight]) (by rw [Day_midnight]; omega) e4 e5
    (by simpa [JSDate.getFullYear, LocalTime_eq] using e6) ?_
  intro u0 a0 b0 hu0 _ ha0 hb0
  rw [hu] at hu0
  have hu1 : u = u0 := Option.some.inj hu0
  subst hu1
  rw [YearFromTime_midnight]
  have := year_near u c' (by omega) (by omega)
  omega

/-- The newer `loadPreviousWeek` keeps the calendar consistent when the new week is in
range. -/
theorem ced_previous_invariant (now : Int) (lc : Str → Str → Int) (fetched : FetchOutcome)
    (s : AppState) (hs : CalendarInvariant s)
    (hw : WeekInRange (Ced.loadPreviousWeek now lc fetched s)) :
    CalendarInvariant (Ced.loadPreviousWeek now lc fetched s) := by
  obtain ⟨c', hc', hlo', hhi', hy'⟩ := hw
  have hs0 := hs
  obtain ⟨c, u, a, b, hc, hu, hlo, hhi, hy, h1, h2, _⟩ := hs0
  obtain ⟨e1, e2, e3, e4, e5, e6⟩ := ced_loadPreviousWeek_spec now lc fetched s c hc _ rfl
  rw [e2] at hc'
  obtain ⟨hx, _, _⟩ := TimeClip_eq_some _ _ hc'
  have hDc : Day c' = Day c - 7 := by rw [← hx, Day_sub_days]
  have hmid := midnight_valid c' hlo' (by unfold msPerDay at *; omega)
  rw [hc'] at e2 e3 e4 e6
  rw [hmid] at e3 e4 e6
  rw [ced_renderCards_valid now _ 7 c' hlo' (by unfold msPerDay at *; omega),
    ced_getLocalDateString_some] at e4
  refine calendarInvariant_step parseInt parseInt_numToString s _ hs c' (Day c' * msPerDay)
    e2 e3 hlo' hhi' hy' (by rw [Day_midnight]) (by rw [Day_midnight]; omega) e4 e5
    (by simpa [JSDate.getFullYear, LocalTime_eq] using e6) ?_
  intro u0 a0 b0 hu0 _ ha0 hb0
  rw [hu] at hu0
  have hu1 : u = u0 := Option.some.inj hu0
  subst hu1
  rw [YearFromTime_midnight]
  have := year_near c' u (by omega) (by omega)
  omega

/-- The older `loadNextWeek` keeps the calendar consistent when the new week is in range. -/
theorem old_next_invariant (fetched : Old.FetchResult) (s : AppState)
    (hs : CalendarInvariant s) (hw : WeekInRange (Old.loadNextWeek fetched s)) :
    CalendarInvariant (Old.loadNextWeek fetched s) := by
  obtain ⟨c', hc', hlo', hhi', hy'⟩ := hw
  have hs0 := hs
  obtain ⟨c, u, a, b, hc, hu, hlo, hhi, hy, h1, h2, _⟩ := hs0
  obtain ⟨e1, e2, e3, e4, e5, e6⟩ := old_loadNextWeek_spec fetched s c hc _ rfl
  rw [e2] at hc'
  obtain ⟨hx, _, _⟩ := TimeClip_eq_some _ _ hc'
  have hDc : Day c' = Day c + 7 := by rw [← hx, Day_add_days]
  rw [hc'] at e2 e3 e4 e6
  rw [old_renderCards_valid _ 7 c' hlo' (by unfold msPerDay at *; omega)] at e4
  refine calendarInvariant_step Number Number_numToString s _ hs c' c'
    e2 e3 hlo' hhi' hy' (le_refl _) (by omega) e4 e5
    (by simpa [JSDate.getFullYear, LocalTime_eq] using e6) ?_
  intro u0 a0 b0 hu0 _ ha0 hb0
  rw [hu] at hu0
  have hu1 : u = u0 := Option.some.inj hu0
  subst hu1
  have := year_near u c' (by omega) (by omega)
  omega

/-- The older `loadPreviousWeek` keeps the calendar consistent when the new week is in
range. -/
theorem old_previous_invariant (fetched : Old.FetchResult) (s : AppState)
    (hs : CalendarInvariant s) (hw : WeekInRange (Old.loadPreviousWeek fetched s)) :
    CalendarInvariant (Old.loadPreviousWeek fetched s) := by
  obtain ⟨c', hc', hlo', hhi', hy'⟩ := hw
  have hs0 := hs
  obtain ⟨c, u, a, b, hc, hu, hlo, hhi, hy, h1, h2, _⟩ := hs0
  obtain ⟨e1, e2, e3, e4, e5, e6⟩ := old_loadPreviousWeek_spec fetched s c hc _ rfl
  rw [e2] at hc'
  obtain ⟨hx, _, _⟩ := TimeClip_eq_some _ _ hc'
  have hDc : Day c' = Day c - 7 := by rw [← hx, Day_sub_days]
  rw [hc'] at e2 e3 e4 e6
  rw [old_renderCards_valid _ 7 c' hlo' (by unfold msPerDay at *; omega)] at e4
  refine calendarInvariant_step Number Number_numToString s _ hs c' c'
    e2 e3 hlo' hhi' hy' (le_refl _) (by omega) e4 e5
    (by simpa [JSDate.getFullYear, LocalTime_eq] using e6) ?_
  intro u0 a0 b0 hu0 _ ha0 hb0
  rw [hu] at hu0
  have hu1 : u = u0 := Option.some.inj hu0
  subst hu1
  have := year_near c' u (by omega) (by omega)
  omega

/-- The newer drop-down handler keeps the calendar consistent when the new week is in
range. -/
theorem ced_change_invariant (now : Int) (lc : Str → Str → Int) (fetched : FetchOutcome)
    (s : AppState) (month year : Str) (hs : CalendarInvariant s)
    (hm : month ∈ s.monthSelect.options) (hyr : year ∈ s.yearSelect.options)
    (hw : WeekInRange
      (Ced.handleDateSelectorChange now lc fetched (chooseMonthYear s month year))) :
    CalendarInvariant
      (Ced.handleDateSelectorChange now lc fetched (chooseMonthYear s month year)) := by
  obtain ⟨c', hc', hlo', hhi', hy'⟩ := hw
  have hs0 := hs
  obtain ⟨c, u, a, b, hc, hu, hlo, hhi, hy, h1, h2, hcards, hmo, hyo, ha, hya, hyb⟩ := hs0
  rw [hmo] at hm
  obtain ⟨k, hk0, hk11, rfl⟩ := monthOptions_mem _ hm
  have hyr0 := hyr
  rw [hyo] at hyr0
  obtain ⟨yv, hyv1, hyv2, rfl⟩ := yearStrings_mem_str _ _ _ hyr0
  obtain ⟨e1, e2, e3, e4, e5⟩ := ced_renderFresh_spec now lc fetched
    (chooseMonthYear s (numToString (some k)) (numToString (some yv)))
    (JSDate.ofYMD (parseInt (numToString (some yv))) (parseInt (numToString (some k)))
      (some 1))
    (Ced.handleDateSelectorChange now lc fetched
      (chooseMonthYear s (numToString (some k)) (numToString (some yv)))) rfl
  obtain ⟨f1, fY, fM, fD⟩ := ofYMD_first yv k hk0 hk11 (by omega)
  rw [parseInt_numToString yv (by omega), parseInt_numToString k hk0, f1] at e1 e2 e3 e5
  rw [e1] at hc'
  obtain ⟨t, ht, hct, _, _⟩ := ced_weekStart_eq_some _ _ hc'
  obtain ⟨hx, hxlo, hxhi⟩ := TimeClip_eq_some _ _ ht
  rw [ht] at hc' e1 e2 e3 e5
  rw [hc'] at e1 e3
  have hb := WeekDay_bounds t
  have hDt : Day t * msPerDay = t := by rw [← hx, Day_midnight]
  have hmid : JSDate.setHours (some t) 0 0 0 0 = some t := by
    rw [midnight_valid t (by omega) (by omega), hDt]
  have hDc : Day c' = Day t - WeekDay t := by rw [hct, Day_midnight]
  have hYt : YearFromTime t = yv := by rw [← hx]; exact fY
  rw [hmid] at e2 e3 e5
  rw [ced_renderCards_valid now _ 7 c' hlo' (by unfold msPerDay at *; omega),
    ced_getLocalDateString_some] at e3
  refine calendarInvariant_step parseInt parseInt_numToString s _ hs c' t
    e1 e2 hlo' hhi' hy' (by omega) (by omega) e3 e4
    (by simpa [JSDate.getFullYear, LocalTime_eq] using e5) ?_
  intro u0 a0 b0 _ hopt _ _
  rw [hopt] at hyr
  have := (yearStrings_mem a0 b0 yv).1 hyr
  omega

/-- The older drop-down handler keeps the calendar consistent when the new week is in
range. -/
theorem old_change_invariant (fetched : Old.FetchResult) (s : AppState) (month year : Str)
    (hs : CalendarInvariant s)
    (hm : month ∈ s.monthSelect.options) (hyr : year ∈ s.yearSelect.options)
    (hw : WeekInRange (Old.handleDateSelectorChange fetched (chooseMonthYear s month year))) :
    CalendarInvariant (Old.handleDateSelectorChange fetched (chooseMonthYear s month year)) := by
  obtain ⟨c', hc', hlo', hhi', hy'⟩ := hw
  have hs0 := hs
  obtain ⟨c, u, a, b, hc, hu, hlo, hhi, hy, h1, h2, hcards, hmo, hyo, ha, hya, hyb⟩ := hs0
  rw [hmo] at hm
  obtain ⟨k, hk0, hk11, rfl⟩ := monthOptions_mem _ hm
  have hyr0 := hyr
  rw [hyo] at hyr0
  obtain ⟨yv, hyv1, hyv2, rfl⟩ := yearStrings_mem_str _ _ _ hyr0
  obtain ⟨e1, e2, e3, e4, e5⟩ := old_renderFresh_spec fetched
    (chooseMonthYear s (numToString (some k)) (numToString (some yv)))
    (JSDate.ofYMD (parseInt (numToString (some yv))) (parseInt (numToString (some k)))
      (some 1))
    (Old.handleDateSelectorChange fetched
      (chooseMonthYear s (numToString (some k)) (numToString (some yv)))) rfl
  obtain ⟨f1, fY, fM, fD⟩ := ofYMD_first yv k hk0 hk11 (by omega)
  rw [parseInt_numToString yv (by omega), parseInt_numToString k hk0, f1] at e1 e2 e3 e5
  rw [e1] at hc'
  obtain ⟨t, ht, hct, _, _⟩ := old_weekStart_eq_some _ _ hc'
  obtain ⟨hx, hxlo, hxhi⟩ := TimeClip_eq_some _ _ ht
  rw [ht] at hc' e1 e2 e3 e5
  rw [hc'] at e1 e3
  have hb := WeekDay_bounds t
  have hDc : Day c' = Day t - WeekDay t := by rw [hct, Day_sub_days]
  have hYt : YearFromTime t = yv := by rw [← hx]; exact fY
  rw [old_renderCards_valid _ 7 c' hlo' (by unfold msPerDay at *; omega)] at e3
  refine calendarInvariant_step Number Number_numToString s _ hs c' t
    e1 e2 hlo' hhi' hy' (by omega) (by omega) e3 e4
    (by simpa [JSDate.getFullYear, LocalTime_eq] using e5) ?_
  intro u0 a0 b0 _ hopt _ _
  rw [hopt] at hyr
  have := (yearStrings_mem a0 b0 yv).1 hyr
  omega

/-- A click on a rendered card keeps the calendar consistent, in the newer variant. -/
theorem ced_click_invariant (now : Int) (lc : Str → Str → Int) (s : AppState)
    (element : Nat) (card : DayCard) (hs : CalendarInvariant s)
    (hcard : s.cards.get? element = some card) :
    CalendarInvariant (Ced.handleDayClick now lc s element card.dateString) := by
  have hs0 := hs
  obtain ⟨c, u, a, b, hc, hu, hlo, hhi, hy, h1, h2, hcards, hmo, hyo, ha, hya, hyb⟩ := hs0
  rw [hcards] at hcard
  obtain ⟨hi, rfl⟩ := cardsFrom_get _ _ _ _ _ hcard
  have hds : (cardOf (Old.getLocalDateString (some u))
      (c + (element : Int) * msPerDay)).dateString =
      Old.getLocalDateString (some (c + (element : Int) * msPerDay)) := rfl
  rw [hds]
  have hDt : Day (c + (element : Int) * msPerDay) = Day c + (element : Int) := Day_add_days _ _
  have hyt := year_near c (c + (element : Int) * msPerDay) (by omega) (by omega)
  obtain ⟨v1, _⟩ := handleDayClick_value now lc s element (c + (element : Int) * msPerDay)
    (by unfold msPerDay at *; omega) (by unfold msPerDay at *; omega) (by omega)
  obtain ⟨e1, e2, e3, e4, e5⟩ := ced_handleDayClick_spec now lc s element
    (Old.getLocalDateString (some (c + (element : Int) * msPerDay)))
    (Ced.handleDayClick now lc s element
      (Old.getLocalDateString (some (c + (element : Int) * msPerDay)))) rfl
  have hcws := (e2 _ (lt_length_of_read _ _ _ hc)).trans hc
  rw [← e1] at hcws
  rw [hcards, cards_click _ c (Day (c + (element : Int) * msPerDay) * msPerDay) element hi
    (by rw [Day_midnight, hDt])] at e3
  rw [v1] at e5
  refine calendarInvariant_step parseInt parseInt_numToString s _ hs c
    (Day (c + (element : Int) * msPerDay) * msPerDay)
    hcws v1 hlo hhi hy (by rw [Day_midnight]; omega) (by rw [Day_midnight]; omega) e3 e4
    (by simpa [JSDate.getFullYear, LocalTime_eq] using e5) ?_
  intro u0 a0 b0 hu0 _ ha0 hb0
  rw [hu] at hu0
  have hu1 : u = u0 := Option.some.inj hu0
  subst hu1
  rw [YearFromTime_midnight]
  have := year_near c u h1 (by omega)
  omega

/-- A click on a rendered card keeps the calendar consistent, in the older variant. -/
theorem old_click_invariant (s : AppState) (element : Nat) (card : DayCard)
    (hs : CalendarInvariant s) (hcard : s.cards.get? element = some card) :
    CalendarInvariant (Old.handleDayClick s element card.dateString) := by
  have hs0 := hs
  obtain ⟨c, u, a, b, hc, hu, hlo, hhi, hy, h1, h2, hcards, hmo, hyo, ha, hya, hyb⟩ := hs0
  rw [hcards] at hcard
  obtain ⟨hi, rfl⟩ := cardsFrom_get _ _ _ _ _ hcard
  have hds : (cardOf (Old.getLocalDateString (some u))
      (c + (element : Int) * msPerDay)).dateString =
      Old.getLocalDateString (some (c + (element : Int) * msPerDay)) := rfl
  rw [hds]
  have hDt : Day (c + (element : Int) * msPerDay) = Day c + (element : Int) := Day_add_days _ _
  have hyt := year_near c (c + (element : Int) * msPerDay) (by omega) (by omega)
  obtain ⟨_, v1⟩ := handleDayClick_value 0 (fun _ _ => 0) s element
    (c + (element : Int) * msPerDay)
    (by unfold msPerDay at *; omega) (by unfold msPerDay at *; omega) (by omega)
  obtain ⟨e1, e2, e3, e4, e5⟩ := old_handleDayClick_spec s element
    (Old.getLocalDateString (some (c + (element : Int) * msPerDay)))
    (Old.handleDayClick s element
      (Old.getLocalDateString (some (c + (element : Int) * msPerDay)))) rfl
  have hcws := (e2 _ (lt_length_of_read _ _ _ hc)).trans hc
  rw [← e1] at hcws
  rw [hcards, cards_click _ c (Day (c + (element : Int) * msPerDay) * msPerDay) element hi
    (by rw [Day_midnight, hDt])] at e3
  rw [v1] at e5
  refine calendarInvariant_step Number Number_numToString s _ hs c
    (Day (c + (element : Int) * msPerDay) * msPerDay)
    hcws v1 hlo hhi hy (by rw [Day_midnight]; omega) (by rw [Day_midnight]; omega) e3 e4
    (by simpa [JSDate.getFullYear, LocalTime_eq] using e5) ?_
  intro u0 a0 b0 hu0 _ ha0 hb0
  rw [hu] at hu0
  have hu1 : u = u0 := Option.some.inj hu0
  subst hu1
  rw [YearFromTime_midnight]
  have := year_near c u h1 (by omega)
  omega

/-- Every state of the newer variant reached with its weeks in range is consistent. -/
theorem ced_reachable_invariant (lc : Str → Str → Int) (s : AppState)
    (h : Ced.ReachableInRange lc s) : CalendarInvariant s := by
  induction h with
  | load now fetched hw => exact ced_load_invariant now lc fetched hw
  | previous now fetched s _ hw ih => exact ced_previous_invariant now lc fetched s ih hw
  | next now fetched s _ hw ih => exact ced_next_invariant now lc fetched s ih hw
  | change now fetched s month year _ hm hy hw ih =>
    exact ced_change_invariant now lc fetched s month year ih hm hy hw
  | click now s element card _ hcard ih =>
    exact ced_click_invariant now lc s element card ih hcard

/-- Every state of the older variant reached with its weeks in range is consistent. -/
theorem old_reachable_invariant (s : AppState) (h : Old.ReachableInRange s) :
    CalendarInvariant s := by
  induction h with
  | load now fetched hw => exact old_load_invariant now fetched hw
  | previous fetched s _ hw ih => exact old_previous_invariant fetched s ih hw
  | next fetched s _ hw ih => exact old_next_invariant fetched s ih hw
  | change fetched s month year _ hm hy hw ih =>
    exact old_change_invariant fetched s month year ih hm hy hw
  | click s element card _ hcard ih => exact old_click_invariant s element card ih hcard

/-! ## The selection and the year options in reachable states -/

/-- Among the cards of a week, exactly the card of the selected day is active. -/
theorem cardsFrom_filter (u c : Int) (h1 : Day c ≤ Day u) (h2 : Day u ≤ Day c + 6) :
    ((cardsFrom (Old.getLocalDateString (some u)) 7 c).filter fun card => card.active).map
        (fun card => card.dateString) = [Old.getLocalDateString (some u)] := by
  have hr : List.range 7 = [0, 1, 2, 3, 4, 5, 6] := by decide
  obtain ⟨k, hk, hk7⟩ : ∃ k : Nat, Day u = Day c + (k : Int) ∧ k < 7 :=
    ⟨(Day u - Day c).toNat, by omega, by omega⟩
  have hp : ((fun card : DayCard => card.active) ∘ fun (i : Nat) =>
      cardOf (Old.getLocalDateString (some u)) (c + (i : Int) * msPerDay)) =
      fun (i : Nat) => decide (i = k) := by
    funext i
    simp only [Function.comp, cardOf]
    apply decide_eq_decide.mpr
    rw [getLocalDateString_eq_iff, Day_add_days, hk]
    omega
  have hf : (List.range 7).filter (fun (i : Nat) => decide (i = k)) = [k] := by
    rw [hr]
    interval_cases k <;> decide
  unfold cardsFrom
  rw [List.filter_map, hp, hf]
  simp only [List.map_cons, List.map_nil, cardOf, List.cons.injEq, and_true]
  rw [getLocalDateString_eq_iff, Day_add_days, hk]

theorem cardsFrom_mem_active (u c : Int) (card : DayCard)
    (h : card ∈ cardsFrom (Old.getLocalDateString (some u)) 7 c) :
    card.active = true ↔ card.dateString = Old.getLocalDateString (some u) := by
  unfold cardsFrom at h
  simp only [List.mem_map] at h
  obtain ⟨i, _, rfl⟩ := h
  simp [cardOf]

/-- C15 (amended): in every state of the newer variant reached from page load through
`loadPreviousWeek`, `loadNextWeek`, drop-down changes and clicks on rendered cards, every
week displayed on the way lying within the range of time values and in years from 100 on,
the week start and the selected date are valid, the day of the selected date is one of the
seven days from the week start on, the seven cards carry the dates of those days, and
exactly one card is active, the one whose date string is
`getLocalDateString(selectedDate)`. -/
theorem C15_selection_invariant (lc : Str → Str → Int) (now : Int) (s : AppState)
    (h : Ced.ReachableInRange lc s) :
    ∃ c u : Int, s.store.read s.currentWeekStart = some c ∧
      s.store.read s.selectedDate = some u ∧
      Day c ≤ Day u ∧ Day u ≤ Day c + 6 ∧
      s.cards.map (fun card => card.dateString) =
        (List.range 7).map (fun (i : Nat) =>
          Ced.getLocalDateString now (some (c + (i : Int) * msPerDay))) ∧
      (s.cards.filter fun card => card.active).map (fun card => card.dateString) =
        [Ced.getLocalDateString now (s.store.read s.selectedDate)] ∧
      ∀ card ∈ s.cards, card.active = true ↔
        card.dateString = Ced.getLocalDateString now (s.store.read s.selectedDate) := by
  obtain ⟨c, u, a, b, hc, hu, hlo, hhi, hy, h1, h2, hcards, _⟩ :=
    ced_reachable_invariant lc s h
  refine ⟨c, u, hc, hu, h1, h2, ?_, ?_, ?_⟩
  · rw [hcards, cardsFrom_dateStrings]
    apply List.map_congr_left
    intro i _
    rw [ced_getLocalDateString_some]
  · rw [hu, hcards, ced_getLocalDateString_some]
    exact cardsFrom_filter u c h1 h2
  · intro card hmem
    rw [hu, ced_getLocalDateString_some]
    rw [hcards] at hmem
    exact cardsFrom_mem_active u c card hmem

/-- Instance of C15: the page is loaded on Thursday 13 November 2025, the next week is
opened and its third card, Tuesday 18 November, is clicked. -/
theorem C15_witness :
    (Ced.handleDayClick 1763028000000 codeUnitCompare
      (Ced.loadNextWeek 1763028000000 codeUnitCompare FetchOutcome.networkError
        (Ced.pageLoad 1763028000000 codeUnitCompare FetchOutcome.networkError))
      2 "2025-11-18".toList).cards.map (fun card => card.active) =
      [false, false, true, false, false, false, false] ∧
    ∃ c u : Int,
      (Ced.handleDayClick 1763028000000 codeUnitCompare
        (Ced.loadNextWeek 1763028000000 codeUnitCompare FetchOutcome.networkError
          (Ced.pageLoad 1763028000000 codeUnitCompare FetchOutcome.networkError))
        2 "2025-11-18".toList).store.read
        (Ced.handleDayClick 1763028000000 codeUnitCompare
          (Ced.loadNextWeek 1763028000000 codeUnitCompare FetchOutcome.networkError
            (Ced.pageLoad 1763028000000 codeUnitCompare FetchOutcome.networkError))
          2 "2025-11-18".toList).currentWeekStart = some c ∧
      (Ced.handleDayClick 1763028000000 codeUnitCompare
        (Ced.loadNextWeek 1763028000000 codeUnitCompare FetchOutcome.networkError
          (Ced.pageLoad 1763028000000 codeUnitCompare FetchOutcome.networkError))
        2 "2025-11-18".toList).store.read
        (Ced.handleDayClick 1763028000000 codeUnitCompare
          (Ced.loadNextWeek 1763028000000 codeUnitCompare FetchOutcome.networkError
            (Ced.pageLoad 1763028000000 codeUnitCompare FetchOutcome.networkError))
          2 "2025-11-18".toList).selectedDate = some u ∧
      Day c ≤ Day u ∧ Day u ≤ Day c + 6 :=
  ⟨by decide,
    (C15_selection_invariant codeUnitCompare 0 _
      (Ced.ReachableInRange.click 1763028000000 _ 2
        ⟨"2025-11-18".toList, false, "Tue".toList, "18".toList⟩
        (Ced.ReachableInRange.next 1763028000000 FetchOutcome.networkError _
          (Ced.ReachableInRange.load 1763028000000 FetchOutcome.networkError
            ⟨1762646400000, by decide, by decide, by decide, by decide⟩)
          ⟨1763251200000, by decide, by decide, by decide, by decide⟩)
        (by decide))).imp fun _ hc => hc.imp fun _ hu => ⟨hu.1, hu.2.1, hu.2.2.1, hu.2.2.2.1⟩⟩

/-- Counterexample to C15 as stated: the page is loaded while the clock reads 30 June of the
year 50 and the fourth card, dated `50-06-29`, is clicked. `new Date(50, 5, 29)` is
29 June 1950, so the selected date is nineteen centuries after the displayed week, and the
active card's date string is not `getLocalDateString(selectedDate)`. -/
theorem C15_counterexample :
    (Ced.pageLoad (-60573708000000) codeUnitCompare FetchOutcome.networkError).cards.get? 3 =
      some ⟨"50-06-29".toList, false, "Wed".toList, "29".toList⟩ ∧
    JSDate.getFullYear ((Ced.handleDayClick (-60573708000000) codeUnitCompare
      (Ced.pageLoad (-60573708000000) codeUnitCompare FetchOutcome.networkError) 3
      "50-06-29".toList).store.read
      (Ced.handleDayClick (-60573708000000) codeUnitCompare
        (Ced.pageLoad (-60573708000000) codeUnitCompare FetchOutcome.networkError) 3
        "50-06-29".toList).currentWeekStart) = some 50 ∧
    JSDate.getFullYear ((Ced.handleDayClick (-60573708000000) codeUnitCompare
      (Ced.pageLoad (-60573708000000) codeUnitCompare FetchOutcome.networkError) 3
      "50-06-29".toList).store.read
      (Ced.handleDayClick (-60573708000000) codeUnitCompare
        (Ced.pageLoad (-60573708000000) codeUnitCompare FetchOutcome.networkError) 3
        "50-06-29".toList).selectedDate) = some 1950 ∧
    ((Ced.handleDayClick (-60573708000000) codeUnitCompare
      (Ced.pageLoad (-60573708000000) codeUnitCompare FetchOutcome.networkError) 3
      "50-06-29".toList).cards.filter fun card => card.active).map
        (fun card => card.dateString) = ["50-06-29".toList] ∧
    Ced.getLocalDateString (-60573708000000)
      ((Ced.handleDayClick (-60573708000000) codeUnitCompare
        (Ced.pageLoad (-60573708000000) codeUnitCompare FetchOutcome.networkError) 3
        "50-06-29".toList).store.read
        (Ced.handleDayClick (-60573708000000) codeUnitCompare
          (Ced.pageLoad (-60573708000000) codeUnitCompare FetchOutcome.networkError) 3
          "50-06-29".toList).selectedDate) = "1950-06-29".toList := by
  decide

/-- Where `updateSelectors` does keep the years in order: in every state of either variant
reached from page load through `loadPreviousWeek`, `loadNextWeek`, drop-down changes and
clicks on rendered cards, every week displayed on the way lying within the range of time
values and in years from 100 on, the year options are the decimal strings of consecutive
years `a`..`b`: read as numbers they are strictly ascending, no option occurs twice, and the
year of `selectedDate` is among them. The selected year then moves by at most one, or to an
existing option, and the comparison with the first option is enough. -/
theorem year_options_in_range (lc : Str → Str → Int) (s : AppState)
    (h : Ced.ReachableInRange lc s ∨ Old.ReachableInRange s) :
    (∃ a b : Int, s.yearSelect.options = yearStrings a b) ∧
    s.yearSelect.options.Pairwise (fun p q => numLt (parseInt p) (parseInt q) = true) ∧
    s.yearSelect.options.Pairwise (fun p q => numLt (Number p) (Number q) = true) ∧
    s.yearSelect.options.Nodup ∧
    numToString (JSDate.getFullYear (s.store.read s.selectedDate)) ∈ s.yearSelect.options := by
  have hinv : CalendarInvariant s := by
    rcases h with h | h
    · exact ced_reachable_invariant lc s h
    · exact old_reachable_invariant s h
  obtain ⟨c, u, a, b, _, hu, _, _, _, _, _, _, _, hyears, ha, hya, hyb⟩ := hinv
  rw [hyears, hu]
  refine ⟨⟨a, b, rfl⟩, yearStrings_ascending parseInt parseInt_numToString a b (by omega),
    yearStrings_ascending Number Number_numToString a b (by omega), yearStrings_nodup a b, ?_⟩
  simp only [JSDate.getFullYear, Option.map, LocalTime_eq]
  exact (yearStrings_mem a b _).2 ⟨hya, hyb⟩

/-- An instance: in the older variant the page is loaded on 13 November 2025 and January 2026
is chosen in the drop-downs; the options stay 2025, 2026, 2027 and contain the selected year
2026. In the newer variant the options after the same page load have no duplicates. -/
theorem year_options_in_range_instance :
    (Old.handleDateSelectorChange Old.FetchResult.failed
      (chooseMonthYear (Old.pageLoad 1763028000000 Old.FetchResult.failed)
        "0".toList "2026".toList)).yearSelect.options =
      ["2025".toList, "2026".toList, "2027".toList] ∧
    numToString (JSDate.getFullYear
      ((Old.handleDateSelectorChange Old.FetchResult.failed
        (chooseMonthYear (Old.pageLoad 1763028000000 Old.FetchResult.failed)
          "0".toList "2026".toList)).store.read
        (Old.handleDateSelectorChange Old.FetchResult.failed
          (chooseMonthYear (Old.pageLoad 1763028000000 Old.FetchResult.failed)
            "0".toList "2026".toList)).selectedDate)) ∈
      (Old.handleDateSelectorChange Old.FetchResult.failed
        (chooseMonthYear (Old.pageLoad 1763028000000 Old.FetchResult.failed)
          "0".toList "2026".toList)).yearSelect.options ∧
    (Ced.pageLoad 1763028000000 codeUnitCompare
      FetchOutcome.networkError).yearSelect.options.Nodup :=
  ⟨by decide,
    (year_options_in_range codeUnitCompare _
      (Or.inr (Old.ReachableInRange.change Old.FetchResult.failed _ "0".toList "2026".toList
        (Old.ReachableInRange.load 1763028000000 Old.FetchResult.failed
          ⟨1762682400000, by decide, by decide, by decide, by decide⟩)
        (by decide) (by decide)
        ⟨1766880000000, by decide, by decide, by decide, by decide⟩))).2.2.2.2,
    (year_options_in_range codeUnitCompare _
      (Or.inl (Ced.ReachableInRange.load 1763028000000 FetchOutcome.networkError
        ⟨1762646400000, by decide, by decide, by decide, by decide⟩))).2.2.2.1⟩

/-- C19 (the code does otherwise): `updateSelectors` compares a missing year with the first
option only, so it does not add it in sorted order when the selected year lands between
options. In both variants: the page is loaded while the clock reads 30 June of the year 50
(options 50, 51, 52), the fourth card, dated `50-06-29`, is clicked (the click selects
29 June 1950, and 1950 is appended), January 1950 is chosen in the drop-downs, and the
previous week is opened. Its Sunday is 25 December 1949; 1949 is not below the first option
50, so it is appended after 1950, and the options are no longer ascending. -/
theorem C19_year_options_unsorted :
    (Old.pageLoad (-60573708000000) Old.FetchResult.failed).yearSelect.options =
      ["50".toList, "51".toList, "52".toList] ∧
    (Old.pageLoad (-60573708000000) Old.FetchResult.failed).cards.get? 3 =
      some ⟨"50-06-29".toList, false, "Wed".toList, "29".toList⟩ ∧
    "1950".toList ∈ (Old.handleDayClick
      (Old.pageLoad (-60573708000000) Old.FetchResult.failed) 3
      "50-06-29".toList).yearSelect.options ∧
    (Old.loadPreviousWeek Old.FetchResult.failed
      (Old.handleDateSelectorChange Old.FetchResult.failed
        (chooseMonthYear
          (Old.handleDayClick (Old.pageLoad (-60573708000000) Old.FetchResult.failed) 3
            "50-06-29".toList)
          "0".toList "1950".toList))).yearSelect.options =
      ["50".toList, "51".toList, "52".toList, "1950".toList, "1949".toList] ∧
    (Ced.pageLoad (-60573708000000) codeUnitCompare FetchOutcome.networkError).cards.get? 3 =
      some ⟨"50-06-29".toList, false, "Wed".toList, "29".toList⟩ ∧
    "1950".toList ∈ (Ced.handleDayClick (-60573708000000) codeUnitCompare
      (Ced.pageLoad (-60573708000000) codeUnitCompare FetchOutcome.networkError) 3
      "50-06-29".toList).yearSelect.options ∧
    (Ced.loadPreviousWeek (-60573708000000) codeUnitCompare FetchOutcome.networkError
      (Ced.handleDateSelectorChange (-60573708000000) codeUnitCompare
        FetchOutcome.networkError
        (chooseMonthYear
          (Ced.handleDayClick (-60573708000000) codeUnitCompare
            (Ced.pageLoad (-60573708000000) codeUnitCompare FetchOutcome.networkError) 3
            "50-06-29".toList)
          "0".toList "1950".toList))).yearSelect.options =
      ["50".toList, "51".toList, "52".toList, "1950".toList, "1949".toList] ∧
    numLt (Number "1950".toList) (Number "1949".toList) = false ∧
    numLt (parseInt "1950".toList) (parseInt "1949".toList) = false := by
  decide

/-! ## `getWeekStart` on a host with daylight saving -/

/-- On a host whose local time is UTC the zoned `getWeekStart` is the one used so far. -/
theorem zoned_getWeekStart_utc (σ : DateStore) (date : Nat) :
    Zoned.Ced.getWeekStart (TimeZone.fixed 0) σ date = Ced.getWeekStart σ date ∧
    Zoned.Old.getWeekStart (TimeZone.fixed 0) σ date = Old.getWeekStart σ date := by
  constructor
  · unfold Zoned.Ced.getWeekStart Ced.getWeekStart
    rfl
  · unfold Zoned.Old.getWeekStart Old.getWeekStart
    rfl

theorem zoned_ced_getWeekStart_read (z : TimeZone) (σ : DateStore) (date : Nat) :
    (Zoned.Ced.getWeekStart z σ date).2.read (Zoned.Ced.getWeekStart z σ date).1 =
      Zoned.JSDate.setHours z (Zoned.JSDate.setDate z (σ.read date)
        (numSub (Zoned.JSDate.getDate z (σ.read date))
          (Zoned.JSDate.getDay z (σ.read date)))) 0 0 0 0 := by
  unfold Zoned.Ced.getWeekStart
  simp only [DateStore.alloc]
  have hl : σ.length < (σ ++ [σ.read date]).length := by simp
  have e : DateStore.read (σ ++ [σ.read date]) σ.length = σ.read date := by
    simp [DateStore.read]
  rw [e, read_write_same _ _ _ (by simp [DateStore.write]), read_write_same _ _ _ hl]

theorem zoned_ced_getWeekStart_read_old (z : TimeZone) (σ : DateStore) (date r : Nat)
    (h : r < σ.length) : (Zoned.Ced.getWeekStart z σ date).2.read r = σ.read r := by
  unfold Zoned.Ced.getWeekStart
  simp only [DateStore.alloc]
  rw [read_write_other _ _ σ.length r (by omega), read_write_other _ _ σ.length r (by omega)]
  simp [DateStore.read, List.getElem?_append_left h]

theorem zoned_old_getWeekStart_read (z : TimeZone) (σ : DateStore) (date : Nat) :
    (Zoned.Old.getWeekStart z σ date).2.read (Zoned.Old.getWeekStart z σ date).1 =
      Zoned.JSDate.setDate z (σ.read date)
        (numSub (Zoned.JSDate.getDate z (σ.read date))
          (Zoned.JSDate.getDay z (σ.read date))) := by
  unfold Zoned.Old.getWeekStart
  simp only [DateStore.alloc]
  have hl : σ.length < (σ ++ [σ.read date]).length := by simp
  have e : DateStore.read (σ ++ [σ.read date]) σ.length = σ.read date := by
    simp [DateStore.read]
  rw [e, read_write_same _ _ _ hl]

/-- In any zone, `d.setDate(d.getDate() - d.getDay())` asks for the local time of day of `d`
on the Sunday on or before. -/
theorem zoned_setDate_sunday (z : TimeZone) (t : Int) :
    Zoned.JSDate.setDate z (some t) (numSub (Zoned.JSDate.getDate z (some t))
        (Zoned.JSDate.getDay z (some t))) =
      TimeClip (Zoned.UTC z ((Day (Zoned.LocalTime z t) - WeekDay (Zoned.LocalTime z t))
        * msPerDay + TimeWithinDay (Zoned.LocalTime z t))) := by
  simp only [Zoned.JSDate.setDate, Zoned.JSDate.getDate, Zoned.JSDate.getDay, numSub,
    Option.map, MakeDay_shift, MakeDate]

/-- In any zone, `d.setHours(0, 0, 0, 0)` asks for local midnight of the day of `d`. -/
theorem zoned_setHours_zero (z : TimeZone) (v : Int) :
    Zoned.JSDate.setHours z (some v) 0 0 0 0 =
      TimeClip (Zoned.UTC z (Day (Zoned.LocalTime z v) * msPerDay)) := by
  simp only [Zoned.JSDate.setHours, MakeTime, MakeDate, zero_mul, add_zero]

theorem WeekDay_weekStart (l : Int) : WeekDay ((Day l - WeekDay l) * msPerDay) = 0 := by
  unfold WeekDay
  rw [Day_midnight]
  omega

/-- C1 (amended): in the newer variant, on a host in any time zone `z`, for every valid date
`d` with local time `l` and `sunday` the day number of the Sunday on or before it: if the
time of day of `d` on that Sunday and local midnight of that Sunday are within the range of
time values, if the clock shows that local midnight (no clock change skips it), and if
moving `d` to that Sunday leaves it on that day, then `getWeekStart(d)` returns a fresh date
whose day of the week is 0 and whose local time of day is 00:00:00.000, and `d` keeps its
time value. -/
theorem C1_ced_getWeekStart_sunday_midnight (z : TimeZone) (σ : DateStore) (date : Ref)
    (t l sunday : Int) (hd : σ.read date = some t)
    (hl : l = Zoned.LocalTime z t) (hs : sunday = Day l - WeekDay l)
    (hr1 : -maxTime ≤ Zoned.UTC z (sunday * msPerDay + TimeWithinDay l))
    (hr2 : Zoned.UTC z (sunday * msPerDay + TimeWithinDay l) ≤ maxTime)
    (hr3 : -maxTime ≤ Zoned.UTC z (sunday * msPerDay))
    (hr4 : Zoned.UTC z (sunday * msPerDay) ≤ maxTime)
    (hday : Day (Zoned.LocalTime z (Zoned.UTC z (sunday * msPerDay + TimeWithinDay l))) =
      sunday)
    (hmid : Zoned.LocalTime z (Zoned.UTC z (sunday * msPerDay)) = sunday * msPerDay) :
    Zoned.JSDate.getDay z ((Zoned.Ced.getWeekStart z σ date).2.read
      (Zoned.Ced.getWeekStart z σ date).1) = some 0 ∧
    Zoned.JSDate.getHours z ((Zoned.Ced.getWeekStart z σ date).2.read
      (Zoned.Ced.getWeekStart z σ date).1) = some 0 ∧
    Zoned.JSDate.getMinutes z ((Zoned.Ced.getWeekStart z σ date).2.read
      (Zoned.Ced.getWeekStart z σ date).1) = some 0 ∧
    Zoned.JSDate.getSeconds z ((Zoned.Ced.getWeekStart z σ date).2.read
      (Zoned.Ced.getWeekStart z σ date).1) = some 0 ∧
    Zoned.JSDate.getMilliseconds z ((Zoned.Ced.getWeekStart z σ date).2.read
      (Zoned.Ced.getWeekStart z σ date).1) = some 0 ∧
    (Zoned.Ced.getWeekStart z σ date).1 ≠ date ∧
    (Zoned.Ced.getWeekStart z σ date).2.read date = σ.read date := by
  subst hl
  subst hs
  have hlt := lt_length_of_read σ date t hd
  rw [zoned_ced_getWeekStart_read, hd, zoned_setDate_sunday, TimeClip_of_range _ hr1 hr2,
    zoned_setHours_zero, hday, TimeClip_of_range _ hr3 hr4]
  have hwd := WeekDay_weekStart (Zoned.LocalTime z t)
  generalize Day (Zoned.LocalTime z t) - WeekDay (Zoned.LocalTime z t) = D at *
  refine ⟨?_, ?_, ?_, ?_, ?_, ?_, ?_⟩
  · simp [Zoned.JSDate.getDay, hmid, hwd]
  · simp only [Zoned.JSDate.getHours, Option.map, hmid]
    simp only [HourFromTime, msPerDay, msPerHour]
    congr 1; omega
  · simp only [Zoned.JSDate.getMinutes, Option.map, hmid]
    simp only [MinFromTime, msPerDay, msPerMinute]
    congr 1; omega
  · simp only [Zoned.JSDate.getSeconds, Option.map, hmid]
    simp only [SecFromTime, msPerDay, msPerSecond]
    congr 1; omega
  · simp only [Zoned.JSDate.getMilliseconds, Option.map, hmid]
    simp only [msFromTime, msPerDay, msPerSecond]
    congr 1; omega
  · exact Nat.ne_of_gt hlt
  · exact (zoned_ced_getWeekStart_read_old z σ date date hlt).trans hd

/-- Instance of C1: in Havana, Thursday 20 March 2025, 12:00 local time (16:00 UTC); the
week starts on Sunday 16 March, whose midnight exists, at 00:00 local time. -/
theorem C1_witness :
    Zoned.JSDate.getDay havana2025 (some 1742486400000) = some 4 ∧
    Zoned.JSDate.getDay havana2025 ((Zoned.Ced.getWeekStart havana2025
      [some 1742486400000] 0).2.read
        (Zoned.Ced.getWeekStart havana2025 [some 1742486400000] 0).1) = some 0 ∧
    Zoned.JSDate.getHours havana2025 ((Zoned.Ced.getWeekStart havana2025
      [some 1742486400000] 0).2.read
        (Zoned.Ced.getWeekStart havana2025 [some 1742486400000] 0).1) = some 0 ∧
    Zoned.JSDate.getDate havana2025 ((Zoned.Ced.getWeekStart havana2025
      [some 1742486400000] 0).2.read
        (Zoned.Ced.getWeekStart havana2025 [some 1742486400000] 0).1) = some 16 :=
  ⟨by decide,
   (C1_ced_getWeekStart_sunday_midnight havana2025 [some 1742486400000] 0 1742486400000
     (Zoned.LocalTime havana2025 1742486400000)
     (Day (Zoned.LocalTime havana2025 1742486400000) -
       WeekDay (Zoned.LocalTime havana2025 1742486400000))
     rfl rfl rfl (by decide) (by decide) (by decide) (by decide) (by decide) (by decide)).1,
   (C1_ced_getWeekStart_sunday_midnight havana2025 [some 1742486400000] 0 1742486400000
     (Zoned.LocalTime havana2025 1742486400000)
     (Day (Zoned.LocalTime havana2025 1742486400000) -
       WeekDay (Zoned.LocalTime havana2025 1742486400000))
     rfl rfl rfl (by decide) (by decide) (by decide) (by decide) (by decide)
     (by decide)).2.1,
   by decide⟩

/-- C1 as stated fails in two ways. At the earliest valid date (time value -8.64e15, a
Tuesday, host on UTC) the Sunday before is out of range, so the result is an invalid date
whose day of the week is `NaN`. In Havana, for Wednesday 12 March 2025, 12:00 local time, the
week starts on Sunday 9 March, the day the clocks go from 00:00 to 01:00: the result is that
Sunday at 01:00, not at 00:00. -/
theorem C1_counterexample :
    JSDate.getDay ((Ced.getWeekStart [some (-8640000000000000)] 0).2.read
      (Ced.getWeekStart [some (-8640000000000000)] 0).1) ≠ some 0 ∧
    Zoned.JSDate.getDay (TimeZone.fixed 0)
      ((Zoned.Ced.getWeekStart (TimeZone.fixed 0) [some (-8640000000000000)] 0).2.read
      (Zoned.Ced.getWeekStart (TimeZone.fixed 0) [some (-8640000000000000)] 0).1) ≠ some 0 ∧
    Zoned.JSDate.getDay havana2025 (some 1741795200000) = some 3 ∧
    Zoned.JSDate.getDate havana2025 (some 1741795200000) = some 12 ∧
    Zoned.JSDate.getHours havana2025 (some 1741795200000) = some 12 ∧
    Zoned.JSDate.getDay havana2025 ((Zoned.Ced.getWeekStart havana2025
      [some 1741795200000] 0).2.read
        (Zoned.Ced.getWeekStart havana2025 [some 1741795200000] 0).1) = some 0 ∧
    Zoned.JSDate.getDate havana2025 ((Zoned.Ced.getWeekStart havana2025
      [some 1741795200000] 0).2.read
        (Zoned.Ced.getWeekStart havana2025 [some 1741795200000] 0).1) = some 9 ∧
    Zoned.JSDate.getHours havana2025 ((Zoned.Ced.getWeekStart havana2025
      [some 1741795200000] 0).2.read
        (Zoned.Ced.getWeekStart havana2025 [some 1741795200000] 0).1) = some 1 := by
  decide

/-- C3 (amended): in the older variant, on a host in any time zone `z`, for every valid date
`d` with local time `l` and `sunday` the day number of the Sunday on or before it: if the
time of day of `d` on that Sunday is within the range of time values and is a local time the
clock shows (no clock change skips it), then `getWeekStart(d)` returns a date whose day of
the week is 0 and whose local time of day is that of `d`, not midnight. -/
theorem C3_old_getWeekStart_sunday_same_time (z : TimeZone) (σ : DateStore) (date : Ref)
    (t l sunday : Int) (hd : σ.read date = some t)
    (hl : l = Zoned.LocalTime z t) (hs : sunday = Day l - WeekDay l)
    (hr1 : -maxTime ≤ Zoned.UTC z (sunday * msPerDay + TimeWithinDay l))
    (hr2 : Zoned.UTC z (sunday * msPerDay + TimeWithinDay l) ≤ maxTime)
    (hshown : Zoned.LocalTime z (Zoned.UTC z (sunday * msPerDay + TimeWithinDay l)) =
      sunday * msPerDay + TimeWithinDay l) :
    Zoned.JSDate.getDay z ((Zoned.Old.getWeekStart z σ date).2.read
      (Zoned.Old.getWeekStart z σ date).1) = some 0 ∧
    Zoned.JSDate.getHours z ((Zoned.Old.getWeekStart z σ date).2.read
      (Zoned.Old.getWeekStart z σ date).1) = Zoned.JSDate.getHours z (σ.read date) ∧
    Zoned.JSDate.getMinutes z ((Zoned.Old.getWeekStart z σ date).2.read
      (Zoned.Old.getWeekStart z σ date).1) = Zoned.JSDate.getMinutes z (σ.read date) ∧
    Zoned.JSDate.getSeconds z ((Zoned.Old.getWeekStart z σ date).2.read
      (Zoned.Old.getWeekStart z σ date).1) = Zoned.JSDate.getSeconds z (σ.read date) ∧
    Zoned.JSDate.getMilliseconds z ((Zoned.Old.getWeekStart z σ date).2.read
      (Zoned.Old.getWeekStart z σ date).1) =
        Zoned.JSDate.getMilliseconds z (σ.read date) := by
  subst hl
  subst hs
  rw [zoned_old_getWeekStart_read, hd, zoned_setDate_sunday, TimeClip_of_range _ hr1 hr2]
  obtain ⟨h2, h1⟩ := split_time_value (Zoned.LocalTime z t)
  have hwd := WeekDay_sunday (Day (Zoned.LocalTime z t) - WeekDay (Zoned.LocalTime z t))
    (TimeWithinDay (Zoned.LocalTime z t)) h1.1 h1.2 (by unfold WeekDay; omega)
  simp only [Zoned.JSDate.getDay, Zoned.JSDate.getHours, Zoned.JSDate.getMinutes,
    Zoned.JSDate.getSeconds, Zoned.JSDate.getMilliseconds, Option.map, hshown]
  generalize TimeWithinDay (Zoned.LocalTime z t) = tod at *
  generalize WeekDay (Zoned.LocalTime z t) = wd at *
  generalize Day (Zoned.LocalTime z t) = D at *
  generalize Zoned.LocalTime z t = l at *
  refine ⟨?_, ?_, ?_, ?_, ?_⟩
  · rw [hwd]
  · simp only [HourFromTime, msPerDay, msPerHour] at *
    congr 1; omega
  · simp only [MinFromTime, msPerDay, msPerMinute] at *
    congr 1; omega
  · simp only [SecFromTime, msPerDay, msPerSecond] at *
    congr 1; omega
  · simp only [msFromTime, msPerDay, msPerSecond] at *
    congr 1; omega

/-- Instance of C3: in New York, Thursday 20 March 2025, 02:30 local time (06:30 UTC); the
older `getWeekStart` returns Sunday 16 March at 02:30. -/
theorem C3_witness :
    Zoned.JSDate.getDay newYork2025 (some 1742452200000) = some 4 ∧
    Zoned.JSDate.getHours newYork2025 (some 1742452200000) = some 2 ∧
    Zoned.JSDate.getDay newYork2025 ((Zoned.Old.getWeekStart newYork2025
      [some 1742452200000] 0).2.read
        (Zoned.Old.getWeekStart newYork2025 [some 1742452200000] 0).1) = some 0 ∧
    Zoned.JSDate.getHours newYork2025 ((Zoned.Old.getWeekStart newYork2025
      [some 1742452200000] 0).2.read
        (Zoned.Old.getWeekStart newYork2025 [some 1742452200000] 0).1) =
      Zoned.JSDate.getHours newYork2025 (DateStore.read [some 1742452200000] 0) :=
  ⟨by decide, by decide,
   (C3_old_getWeekStart_sunday_same_time newYork2025 [some 1742452200000] 0 1742452200000
     (Zoned.LocalTime newYork2025 1742452200000)
     (Day (Zoned.LocalTime newYork2025 1742452200000) -
       WeekDay (Zoned.LocalTime newYork2025 1742452200000))
     rfl rfl rfl (by decide) (by decide) (by decide)).1,
   (C3_old_getWeekStart_sunday_same_time newYork2025 [some 1742452200000] 0 1742452200000
     (Zoned.LocalTime newYork2025 1742452200000)
     (Day (Zoned.LocalTime newYork2025 1742452200000) -
       WeekDay (Zoned.LocalTime newYork2025 1742452200000))
     rfl rfl rfl (by decide) (by decide) (by decide)).2.1⟩

/-- C3 as stated fails whenever the argument is not at midnight: on a host on UTC, for
Thursday 5 November 2026, 12:34:56.789, the older `getWeekStart` returns Sunday 1 November
at 12:34:56.789. Nor is the time of day always that of the argument: in New York, for
Wednesday 12 March 2025, 02:30 local time, the week starts on Sunday 9 March, the day the
clocks go from 02:00 to 03:00, and the result is that Sunday at 03:30. -/
theorem C3_counterexample :
    JSDate.getDay ((Old.getWeekStart [some 1793882096789] 0).2.read
      (Old.getWeekStart [some 1793882096789] 0).1) = some 0 ∧
    JSDate.getHours ((Old.getWeekStart [some 1793882096789] 0).2.read
      (Old.getWeekStart [some 1793882096789] 0).1) = some 12 ∧
    JSDate.getMinutes ((Old.getWeekStart [some 1793882096789] 0).2.read
      (Old.getWeekStart [some 1793882096789] 0).1) = some 34 ∧
    JSDate.getSeconds ((Old.getWeekStart [some 1793882096789] 0).2.read
      (Old.getWeekStart [some 1793882096789] 0).1) = some 56 ∧
    JSDate.getMilliseconds ((Old.getWeekStart [some 1793882096789] 0).2.read
      (Old.getWeekStart [some 1793882096789] 0).1) = some 789 ∧
    Zoned.JSDate.getDay newYork2025 (some 1741761000000) = some 3 ∧
    Zoned.JSDate.getDate newYork2025 (some 1741761000000) = some 12 ∧
    Zoned.JSDate.getHours newYork2025 (some 1741761000000) = some 2 ∧
    Zoned.JSDate.getMinutes newYork2025 (some 1741761000000) = some 30 ∧
    Zoned.JSDate.getDay newYork2025 ((Zoned.Old.getWeekStart newYork2025
      [some 1741761000000] 0).2.read
        (Zoned.Old.getWeekStart newYork2025 [some 1741761000000] 0).1) = some 0 ∧
    Zoned.JSDate.getDate newYork2025 ((Zoned.Old.getWeekStart newYork2025
      [some 1741761000000] 0).2.read
        (Zoned.Old.getWeekStart newYork2025 [some 1741761000000] 0).1) = some 9 ∧
    Zoned.JSDate.getHours newYork2025 ((Zoned.Old.getWeekStart newYork2025
      [some 1741761000000] 0).2.read
        (Zoned.Old.getWeekStart newYork2025 [some 1741761000000] 0).1) = some 3 ∧
    Zoned.JSDate.getMinutes newYork2025 ((Zoned.Old.getWeekStart newYork2025
      [some 1741761000000] 0).2.read
        (Zoned.Old.getWeekStart newYork2025 [some 1741761000000] 0).1) = some 30 := by
  decide

end SmartScheduler
